import Mathlib

/-!
# Simit HIR (`src/hir.h`): node taxonomy, checked casts, visitor dispatch, source spans

A shallow embedding of the high-level IR node hierarchy of Simit.

* A `std::shared_ptr<T>` is an `Option HIRNode`: `none` is the null pointer. Where the identity of
  the object matters (the casts), a pointer is also modelled as a reference, the address of its
  object in a store, `Ref`.
* A `std::vector<P>` of pointers is a `List (Option HIRNode)`.
* The C++ class of an object is `classOf`; the `struct D : public B` lines are `NodeClass.base`.
* Virtual member functions are functions on `HIRNode` defined by cases on the constructor, each
  arm being the override that is in effect for that class.
* Dereferencing a null pointer and `front()`/`back()` of an empty vector are undefined in C++;
  the span accessors return `Except Fault Nat` and report them as `Fault.nullDeref` and
  `Fault.emptyVector`.
* `unsigned` line and column numbers are `Nat`; the code only stores and returns them.
* Member functions that assign to members (`setLoc`, `type.push_back`) return the updated
  object; a mutation inside a tree is the tree rebuilt with the object at that position updated.
-/

namespace simit.hir

/-! ## Data model -/

/-- The four `unsigned` fields `lineBegin, colBegin, lineEnd, colEnd` stored in every `HIRNode`. -/
structure Loc where
  lineBegin : Nat
  colBegin : Nat
  lineEnd : Nat
  colEnd : Nat
  deriving DecidableEq, Repr

/-- Modelled from the spec: `internal::Token` (scanner.h is not under src/): "begin/end line and
column, produced by an external scanner". Only the four fields read by `hir.h` are kept. -/
structure Token where
  lineBegin : Nat
  colBegin : Nat
  lineEnd : Nat
  colEnd : Nat
  deriving DecidableEq, Repr

/-- Modelled from the spec: `ir::Type` (types.h is not under src/): the "resolved type
representation" of the lower-level IR, kept abstract as a code. -/
structure IRType where
  code : Nat
  deriving DecidableEq, Repr

/-- `ScalarTensorType::Type`. -/
inductive ScalarType where
  | INT | FLOAT | BOOL
  deriving DecidableEq, Repr

/-- `MapExpr::ReductionOp`. -/
inductive ReductionOp where
  | SUM | NONE
  deriving DecidableEq, Repr

/-- `EqExpr::Op`. -/
inductive Op where
  | LT | LE | GT | GE | EQ | NE
  deriving DecidableEq, Repr

/-- What a span accessor runs into when the C++ code has undefined behaviour. -/
inductive Fault where
  /-- `p->f()` with `p` a null `shared_ptr`. -/
  | nullDeref
  /-- `v.front()` or `v.back()` with `v` an empty vector. -/
  | emptyVector
  deriving DecidableEq, Repr

deriving instance DecidableEq for Except

/-- An object of one of the 62 instantiable classes of `hir.h` (those that override the pure
virtual `accept`). The first field is the span stored in the `HIRNode` base; for the classes
deriving from `Expr` the second is `Expr::type`; then come the inherited members followed by
the class's own, in declaration order. -/
inductive HIRNode where
  | Program (loc : Loc) (elems : List (Option HIRNode))
  | StmtBlock (loc : Loc) (stmts : List (Option HIRNode))
  | RangeIndexSet (loc : Loc) (range : Int)
  | SetIndexSet (loc : Loc) (setName : String)
  | DynamicIndexSet (loc : Loc)
  | ElementType (loc : Loc) (ident : String)
  | Endpoint (loc : Loc) (setName : String)
  | SetType (loc : Loc) (element : Option HIRNode) (endpoints : List (Option HIRNode))
  | TupleLength (loc : Loc) (val : Int)
  | TupleType (loc : Loc) (element : Option HIRNode) (length : Option HIRNode)
  | ScalarTensorType (loc : Loc) (type : ScalarType)
  | NonScalarTensorType (loc : Loc) (indexSets : List (Option HIRNode))
      (blockType : Option HIRNode) (transposed : Bool)
  | Identifier (loc : Loc) (ident : String)
  | IdentDecl (loc : Loc) (name : Option HIRNode) (type : Option HIRNode)
  | Field (loc : Loc) (field : Option HIRNode)
  | ElementTypeDecl (loc : Loc) (name : Option HIRNode) (fields : List (Option HIRNode))
  | Argument (loc : Loc) (name : Option HIRNode) (type : Option HIRNode) (inout : Bool)
  | ExternDecl (loc : Loc) (var : Option HIRNode)
  | FuncDecl (loc : Loc) (name : Option HIRNode) (args : List (Option HIRNode))
      (results : List (Option HIRNode)) (body : Option HIRNode)
  | ProcDecl (loc : Loc) (name : Option HIRNode) (args : List (Option HIRNode))
      (results : List (Option HIRNode)) (body : Option HIRNode)
  | VarDecl (loc : Loc) (var : Option HIRNode) (initVal : Option HIRNode)
  | ConstDecl (loc : Loc) (var : Option HIRNode) (initVal : Option HIRNode)
  | WhileStmt (loc : Loc) (cond : Option HIRNode) (body : Option HIRNode)
  | DoWhileStmt (loc : Loc) (cond : Option HIRNode) (body : Option HIRNode)
  | IfStmt (loc : Loc) (cond : Option HIRNode) (ifBody : Option HIRNode)
      (elseBody : Option HIRNode)
  | IndexSetDomain (loc : Loc) (set : Option HIRNode)
  | RangeDomain (loc : Loc) (lower : Option HIRNode) (upper : Option HIRNode)
  | ForStmt (loc : Loc) (loopVar : Option HIRNode) (domain : Option HIRNode)
      (body : Option HIRNode)
  | PrintStmt (loc : Loc) (expr : Option HIRNode)
  | ExprStmt (loc : Loc) (expr : Option HIRNode)
  | AssignStmt (loc : Loc) (expr : Option HIRNode) (lhs : List (Option HIRNode))
  | Slice (loc : Loc)
  | ExprParam (loc : Loc) (expr : Option HIRNode)
  | MapExpr (loc : Loc) (type : List IRType) (func : Option HIRNode)
      (partialActuals : List (Option HIRNode)) (target : Option HIRNode) (op : ReductionOp)
  | OrExpr (loc : Loc) (type : List IRType) (lhs : Option HIRNode) (rhs : Option HIRNode)
  | AndExpr (loc : Loc) (type : List IRType) (lhs : Option HIRNode) (rhs : Option HIRNode)
  | XorExpr (loc : Loc) (type : List IRType) (lhs : Option HIRNode) (rhs : Option HIRNode)
  | EqExpr (loc : Loc) (type : List IRType) (operands : List (Option HIRNode)) (ops : List Op)
  | NotExpr (loc : Loc) (type : List IRType) (operand : Option HIRNode)
  | AddExpr (loc : Loc) (type : List IRType) (lhs : Option HIRNode) (rhs : Option HIRNode)
  | SubExpr (loc : Loc) (type : List IRType) (lhs : Option HIRNode) (rhs : Option HIRNode)
  | MulExpr (loc : Loc) (type : List IRType) (lhs : Option HIRNode) (rhs : Option HIRNode)
  | DivExpr (loc : Loc) (type : List IRType) (lhs : Option HIRNode) (rhs : Option HIRNode)
  | ElwiseMulExpr (loc : Loc) (type : List IRType) (lhs : Option HIRNode) (rhs : Option HIRNode)
  | ElwiseDivExpr (loc : Loc) (type : List IRType) (lhs : Option HIRNode) (rhs : Option HIRNode)
  | NegExpr (loc : Loc) (type : List IRType) (operand : Option HIRNode) (negate : Bool)
  | ExpExpr (loc : Loc) (type : List IRType) (lhs : Option HIRNode) (rhs : Option HIRNode)
  | TransposeExpr (loc : Loc) (type : List IRType) (operand : Option HIRNode)
  | CallExpr (loc : Loc) (type : List IRType) (operands : List (Option HIRNode))
      (func : Option HIRNode)
  | TensorReadExpr (loc : Loc) (type : List IRType) (tensor : Option HIRNode)
      (indices : List (Option HIRNode))
  | TupleReadExpr (loc : Loc) (type : List IRType) (tuple : Option HIRNode)
      (index : Option HIRNode)
  | FieldReadExpr (loc : Loc) (type : List IRType) (setOrElem : Option HIRNode)
      (field : Option HIRNode)
  | ParenExpr (loc : Loc) (type : List IRType) (expr : Option HIRNode)
  | VarExpr (loc : Loc) (type : List IRType) (ident : String)
  | IntLiteral (loc : Loc) (type : List IRType) (val : Int)
  | FloatLiteral (loc : Loc) (type : List IRType) (val : Float)
  | BoolLiteral (loc : Loc) (type : List IRType) (val : Bool)
  | DenseIntVector (loc : Loc) (vals : List Int)
  | DenseFloatVector (loc : Loc) (vals : List Float)
  | DenseNDTensor (loc : Loc) (elems : List (Option HIRNode))
  | DenseTensorLiteral (loc : Loc) (type : List IRType) (tensor : Option HIRNode)
      (transposed : Bool)
  | Test (loc : Loc) (func : Option HIRNode) (args : List (Option HIRNode))
      (expected : Option HIRNode)

/-- `HIRNode::Ptr`, a `std::shared_ptr<HIRNode>`; `none` is the null pointer. -/
abbrev Ptr := Option HIRNode

/-- Every `struct` declared in `hir.h`: the 62 instantiable classes and the 13 abstract ones
(`HIRNode`, `Stmt`, `Expr`, `IndexSet`, `Type`, `TensorType`, `ForDomain`, `ReadParam`,
`UnaryExpr`, `BinaryExpr`, `NaryExpr`, `TensorLiteral`, `DenseTensorElement`). The class
`Type` is spelled `Type_` because `Type` is reserved. -/
inductive NodeClass where
  | HIRNode | Program | Stmt | StmtBlock | Expr | IndexSet | RangeIndexSet | SetIndexSet
  | DynamicIndexSet | Type_ | ElementType | Endpoint | SetType | TupleLength | TupleType
  | TensorType | ScalarTensorType | NonScalarTensorType | Identifier | IdentDecl | Field
  | ElementTypeDecl | Argument | ExternDecl | FuncDecl | ProcDecl | VarDecl | ConstDecl
  | WhileStmt | DoWhileStmt | IfStmt | ForDomain | IndexSetDomain | RangeDomain | ForStmt
  | PrintStmt | ExprStmt | AssignStmt | ReadParam | Slice | ExprParam | MapExpr | UnaryExpr
  | BinaryExpr | NaryExpr | OrExpr | AndExpr | XorExpr | EqExpr | NotExpr | AddExpr | SubExpr
  | MulExpr | DivExpr | ElwiseMulExpr | ElwiseDivExpr | NegExpr | ExpExpr | TransposeExpr
  | CallExpr | TensorReadExpr | TupleReadExpr | FieldReadExpr | ParenExpr | VarExpr
  | TensorLiteral | IntLiteral | FloatLiteral | BoolLiteral | DenseTensorElement
  | DenseIntVector | DenseFloatVector | DenseNDTensor | DenseTensorLiteral | Test
  deriving DecidableEq, Repr

/-! ## Class hierarchy and checked casts -/

/-- The dynamic type of an object: the class it was constructed as. -/
def classOf : HIRNode → NodeClass
  | .Program .. => .Program
  | .StmtBlock .. => .StmtBlock
  | .RangeIndexSet .. => .RangeIndexSet
  | .SetIndexSet .. => .SetIndexSet
  | .DynamicIndexSet .. => .DynamicIndexSet
  | .ElementType .. => .ElementType
  | .Endpoint .. => .Endpoint
  | .SetType .. => .SetType
  | .TupleLength .. => .TupleLength
  | .TupleType .. => .TupleType
  | .ScalarTensorType .. => .ScalarTensorType
  | .NonScalarTensorType .. => .NonScalarTensorType
  | .Identifier .. => .Identifier
  | .IdentDecl .. => .IdentDecl
  | .Field .. => .Field
  | .ElementTypeDecl .. => .ElementTypeDecl
  | .Argument .. => .Argument
  | .ExternDecl .. => .ExternDecl
  | .FuncDecl .. => .FuncDecl
  | .ProcDecl .. => .ProcDecl
  | .VarDecl .. => .VarDecl
  | .ConstDecl .. => .ConstDecl
  | .WhileStmt .. => .WhileStmt
  | .DoWhileStmt .. => .DoWhileStmt
  | .IfStmt .. => .IfStmt
  | .IndexSetDomain .. => .IndexSetDomain
  | .RangeDomain .. => .RangeDomain
  | .ForStmt .. => .ForStmt
  | .PrintStmt .. => .PrintStmt
  | .ExprStmt .. => .ExprStmt
  | .AssignStmt .. => .AssignStmt
  | .Slice .. => .Slice
  | .ExprParam .. => .ExprParam
  | .MapExpr .. => .MapExpr
  | .OrExpr .. => .OrExpr
  | .AndExpr .. => .AndExpr
  | .XorExpr .. => .XorExpr
  | .EqExpr .. => .EqExpr
  | .NotExpr .. => .NotExpr
  | .AddExpr .. => .AddExpr
  | .SubExpr .. => .SubExpr
  | .MulExpr .. => .MulExpr
  | .DivExpr .. => .DivExpr
  | .ElwiseMulExpr .. => .ElwiseMulExpr
  | .ElwiseDivExpr .. => .ElwiseDivExpr
  | .NegExpr .. => .NegExpr
  | .ExpExpr .. => .ExpExpr
  | .TransposeExpr .. => .TransposeExpr
  | .CallExpr .. => .CallExpr
  | .TensorReadExpr .. => .TensorReadExpr
  | .TupleReadExpr .. => .TupleReadExpr
  | .FieldReadExpr .. => .FieldReadExpr
  | .ParenExpr .. => .ParenExpr
  | .VarExpr .. => .VarExpr
  | .IntLiteral .. => .IntLiteral
  | .FloatLiteral .. => .FloatLiteral
  | .BoolLiteral .. => .BoolLiteral
  | .DenseIntVector .. => .DenseIntVector
  | .DenseFloatVector .. => .DenseFloatVector
  | .DenseNDTensor .. => .DenseNDTensor
  | .DenseTensorLiteral .. => .DenseTensorLiteral
  | .Test .. => .Test

/-- The direct base class, read off the `struct D : public B` lines of `hir.h`. `HIRNode`
derives only from `std::enable_shared_from_this<HIRNode>`, which is no node class. -/
def NodeClass.base : NodeClass → Option NodeClass
  | .HIRNode => none
  | .Program => some .HIRNode
  | .Stmt => some .HIRNode
  | .StmtBlock => some .Stmt
  | .Expr => some .HIRNode
  | .IndexSet => some .HIRNode
  | .RangeIndexSet => some .IndexSet
  | .SetIndexSet => some .IndexSet
  | .DynamicIndexSet => some .IndexSet
  | .Type_ => some .HIRNode
  | .ElementType => some .Type_
  | .Endpoint => some .HIRNode
  | .SetType => some .Type_
  | .TupleLength => some .HIRNode
  | .TupleType => some .Type_
  | .TensorType => some .Type_
  | .ScalarTensorType => some .TensorType
  | .NonScalarTensorType => some .TensorType
  | .Identifier => some .HIRNode
  | .IdentDecl => some .HIRNode
  | .Field => some .HIRNode
  | .ElementTypeDecl => some .HIRNode
  | .Argument => some .IdentDecl
  | .ExternDecl => some .HIRNode
  | .FuncDecl => some .HIRNode
  | .ProcDecl => some .FuncDecl
  | .VarDecl => some .Stmt
  | .ConstDecl => some .VarDecl
  | .WhileStmt => some .Stmt
  | .DoWhileStmt => some .WhileStmt
  | .IfStmt => some .Stmt
  | .ForDomain => some .HIRNode
  | .IndexSetDomain => some .ForDomain
  | .RangeDomain => some .ForDomain
  | .ForStmt => some .Stmt
  | .PrintStmt => some .Stmt
  | .ExprStmt => some .Stmt
  | .AssignStmt => some .ExprStmt
  | .ReadParam => some .HIRNode
  | .Slice => some .ReadParam
  | .ExprParam => some .ReadParam
  | .MapExpr => some .Expr
  | .UnaryExpr => some .Expr
  | .BinaryExpr => some .Expr
  | .NaryExpr => some .Expr
  | .OrExpr => some .BinaryExpr
  | .AndExpr => some .BinaryExpr
  | .XorExpr => some .BinaryExpr
  | .EqExpr => some .NaryExpr
  | .NotExpr => some .UnaryExpr
  | .AddExpr => some .BinaryExpr
  | .SubExpr => some .BinaryExpr
  | .MulExpr => some .BinaryExpr
  | .DivExpr => some .BinaryExpr
  | .ElwiseMulExpr => some .BinaryExpr
  | .ElwiseDivExpr => some .BinaryExpr
  | .NegExpr => some .UnaryExpr
  | .ExpExpr => some .BinaryExpr
  | .TransposeExpr => some .UnaryExpr
  | .CallExpr => some .NaryExpr
  | .TensorReadExpr => some .Expr
  | .TupleReadExpr => some .Expr
  | .FieldReadExpr => some .Expr
  | .ParenExpr => some .Expr
  | .VarExpr => some .Expr
  | .TensorLiteral => some .Expr
  | .IntLiteral => some .TensorLiteral
  | .FloatLiteral => some .TensorLiteral
  | .BoolLiteral => some .TensorLiteral
  | .DenseTensorElement => some .HIRNode
  | .DenseIntVector => some .DenseTensorElement
  | .DenseFloatVector => some .DenseTensorElement
  | .DenseNDTensor => some .DenseTensorElement
  | .DenseTensorLiteral => some .TensorLiteral
  | .Test => some .HIRNode

/-- The classes that override the pure virtual `HIRNode::accept` and can be instantiated. -/
def NodeClass.isConcrete : NodeClass → Bool
  | .HIRNode => false
  | .Program => true
  | .Stmt => false
  | .StmtBlock => true
  | .Expr => false
  | .IndexSet => false
  | .RangeIndexSet => true
  | .SetIndexSet => true
  | .DynamicIndexSet => true
  | .Type_ => false
  | .ElementType => true
  | .Endpoint => true
  | .SetType => true
  | .TupleLength => true
  | .TupleType => true
  | .TensorType => false
  | .ScalarTensorType => true
  | .NonScalarTensorType => true
  | .Identifier => true
  | .IdentDecl => true
  | .Field => true
  | .ElementTypeDecl => true
  | .Argument => true
  | .ExternDecl => true
  | .FuncDecl => true
  | .ProcDecl => true
  | .VarDecl => true
  | .ConstDecl => true
  | .WhileStmt => true
  | .DoWhileStmt => true
  | .IfStmt => true
  | .ForDomain => false
  | .IndexSetDomain => true
  | .RangeDomain => true
  | .ForStmt => true
  | .PrintStmt => true
  | .ExprStmt => true
  | .AssignStmt => true
  | .ReadParam => false
  | .Slice => true
  | .ExprParam => true
  | .MapExpr => true
  | .UnaryExpr => false
  | .BinaryExpr => false
  | .NaryExpr => false
  | .OrExpr => true
  | .AndExpr => true
  | .XorExpr => true
  | .EqExpr => true
  | .NotExpr => true
  | .AddExpr => true
  | .SubExpr => true
  | .MulExpr => true
  | .DivExpr => true
  | .ElwiseMulExpr => true
  | .ElwiseDivExpr => true
  | .NegExpr => true
  | .ExpExpr => true
  | .TransposeExpr => true
  | .CallExpr => true
  | .TensorReadExpr => true
  | .TupleReadExpr => true
  | .FieldReadExpr => true
  | .ParenExpr => true
  | .VarExpr => true
  | .TensorLiteral => false
  | .IntLiteral => true
  | .FloatLiteral => true
  | .BoolLiteral => true
  | .DenseTensorElement => false
  | .DenseIntVector => true
  | .DenseFloatVector => true
  | .DenseNDTensor => true
  | .DenseTensorLiteral => true
  | .Test => true

/-- The chain `D, base D, base (base D), ...` followed for at most `fuel` steps, looking for `B`. -/
def derivesFromAux : Nat → NodeClass → NodeClass → Bool
  | 0, D, B => D == B
  | fuel + 1, D, B =>
    D == B || (match D.base with
      | none => false
      | some D' => derivesFromAux fuel D' B)

/-- Whether `D` is `B` or has `B` as a direct or indirect public base. The 75 classes bound the
length of any chain of bases. -/
def derivesFrom (D B : NodeClass) : Bool := derivesFromAux 75 D B

/-- The function `std::dynamic_pointer_cast<T>(ptr)`: `ptr` itself when it is non-null and the
dynamic type of its object is `T` or derives from `T`, the null pointer otherwise. -/
def dynamic_pointer_cast (T : NodeClass) (ptr : Ptr) : Ptr :=
  match ptr with
  | none => none
  | some n => if derivesFrom (classOf n) T then some n else none

/-- The function `std::static_pointer_cast<T>(ptr)`: the same pointer at another static type. -/
def static_pointer_cast (_T : NodeClass) (ptr : Ptr) : Ptr := ptr

/-- The template `isa<T>(ptr)`: `(bool)std::dynamic_pointer_cast<T>(ptr)`. -/
def isa (T : NodeClass) (ptr : Ptr) : Bool :=
  (dynamic_pointer_cast T ptr).isSome

/-- Modelled from the spec: the `iassert` macro (its header is not under src/): a checked
conversion "fails fatally (an unrecoverable internal-consistency error)" when the asserted
condition is false; the failure carries the streamed message. -/
def iassert (c : Bool) (msg : String) : Except String Unit :=
  if c then .ok () else .error msg

/-- The template `to<T>(ptr)` (spelled `to_`, `to` being reserved): asserts `isa<T>(ptr)`, then
returns the pointer statically cast. -/
def to_ (T : NodeClass) (ptr : Ptr) : Except String Ptr := do
  iassert (isa T ptr) "wrong type"
  pure (static_pointer_cast T ptr)

/-! ## Visitor dispatch -/

/-- Modelled from the spec: `HIRVisitor` (hir_visitor.h is not under src/): "a visitor declares
one operation per concrete node variant". `visit V p` is the overload `visit(std::shared_ptr<V>)`
applied to the pointer `p`; what an operation does is its effect on the state `σ` of the pass. -/
structure HIRVisitor (σ : Type) where
  visit : NodeClass → Ptr → σ → σ

/-- The function `shared_from_this()`: a pointer to the object itself. -/
def shared_from_this (n : HIRNode) : Ptr := some n

/-- The virtual `accept(HIRVisitor *visitor)`: for each class the override in effect, each of
which is `visitor->visit(to<C>(shared_from_this()))` for its own `C`. -/
def accept {σ : Type} (n : HIRNode) (visitor : HIRVisitor σ) (s : σ) : Except String σ :=
  match n with
  | .Program .. => do let p ← to_ .Program (shared_from_this n); pure (visitor.visit .Program p s)
  | .StmtBlock .. => do let p ← to_ .StmtBlock (shared_from_this n); pure (visitor.visit .StmtBlock p s)
  | .RangeIndexSet .. => do let p ← to_ .RangeIndexSet (shared_from_this n); pure (visitor.visit .RangeIndexSet p s)
  | .SetIndexSet .. => do let p ← to_ .SetIndexSet (shared_from_this n); pure (visitor.visit .SetIndexSet p s)
  | .DynamicIndexSet .. => do let p ← to_ .DynamicIndexSet (shared_from_this n); pure (visitor.visit .DynamicIndexSet p s)
  | .ElementType .. => do let p ← to_ .ElementType (shared_from_this n); pure (visitor.visit .ElementType p s)
  | .Endpoint .. => do let p ← to_ .Endpoint (shared_from_this n); pure (visitor.visit .Endpoint p s)
  | .SetType .. => do let p ← to_ .SetType (shared_from_this n); pure (visitor.visit .SetType p s)
  | .TupleLength .. => do let p ← to_ .TupleLength (shared_from_this n); pure (visitor.visit .TupleLength p s)
  | .TupleType .. => do let p ← to_ .TupleType (shared_from_this n); pure (visitor.visit .TupleType p s)
  | .ScalarTensorType .. => do let p ← to_ .ScalarTensorType (shared_from_this n); pure (visitor.visit .ScalarTensorType p s)
  | .NonScalarTensorType .. => do let p ← to_ .NonScalarTensorType (shared_from_this n); pure (visitor.visit .NonScalarTensorType p s)
  | .Identifier .. => do let p ← to_ .Identifier (shared_from_this n); pure (visitor.visit .Identifier p s)
  | .IdentDecl .. => do let p ← to_ .IdentDecl (shared_from_this n); pure (visitor.visit .IdentDecl p s)
  | .Field .. => do let p ← to_ .Field (shared_from_this n); pure (visitor.visit .Field p s)
  | .ElementTypeDecl .. => do let p ← to_ .ElementTypeDecl (shared_from_this n); pure (visitor.visit .ElementTypeDecl p s)
  | .Argument .. => do let p ← to_ .Argument (shared_from_this n); pure (visitor.visit .Argument p s)
  | .ExternDecl .. => do let p ← to_ .ExternDecl (shared_from_this n); pure (visitor.visit .ExternDecl p s)
  | .FuncDecl .. => do let p ← to_ .FuncDecl (shared_from_this n); pure (visitor.visit .FuncDecl p s)
  | .ProcDecl .. => do let p ← to_ .ProcDecl (shared_from_this n); pure (visitor.visit .ProcDecl p s)
  | .VarDecl .. => do let p ← to_ .VarDecl (shared_from_this n); pure (visitor.visit .VarDecl p s)
  | .ConstDecl .. => do let p ← to_ .ConstDecl (shared_from_this n); pure (visitor.visit .ConstDecl p s)
  | .WhileStmt .. => do let p ← to_ .WhileStmt (shared_from_this n); pure (visitor.visit .WhileStmt p s)
  | .DoWhileStmt .. => do let p ← to_ .DoWhileStmt (shared_from_this n); pure (visitor.visit .DoWhileStmt p s)
  | .IfStmt .. => do let p ← to_ .IfStmt (shared_from_this n); pure (visitor.visit .IfStmt p s)
  | .IndexSetDomain .. => do let p ← to_ .IndexSetDomain (shared_from_this n); pure (visitor.visit .IndexSetDomain p s)
  | .RangeDomain .. => do let p ← to_ .RangeDomain (shared_from_this n); pure (visitor.visit .RangeDomain p s)
  | .ForStmt .. => do let p ← to_ .ForStmt (shared_from_this n); pure (visitor.visit .ForStmt p s)
  | .PrintStmt .. => do let p ← to_ .PrintStmt (shared_from_this n); pure (visitor.visit .PrintStmt p s)
  | .ExprStmt .. => do let p ← to_ .ExprStmt (shared_from_this n); pure (visitor.visit .ExprStmt p s)
  | .AssignStmt .. => do let p ← to_ .AssignStmt (shared_from_this n); pure (visitor.visit .AssignStmt p s)
  | .Slice .. => do let p ← to_ .Slice (shared_from_this n); pure (visitor.visit .Slice p s)
  | .ExprParam .. => do let p ← to_ .ExprParam (shared_from_this n); pure (visitor.visit .ExprParam p s)
  | .MapExpr .. => do let p ← to_ .MapExpr (shared_from_this n); pure (visitor.visit .MapExpr p s)
  | .OrExpr .. => do let p ← to_ .OrExpr (shared_from_this n); pure (visitor.visit .OrExpr p s)
  | .AndExpr .. => do let p ← to_ .AndExpr (shared_from_this n); pure (visitor.visit .AndExpr p s)
  | .XorExpr .. => do let p ← to_ .XorExpr (shared_from_this n); pure (visitor.visit .XorExpr p s)
  | .EqExpr .. => do let p ← to_ .EqExpr (shared_from_this n); pure (visitor.visit .EqExpr p s)
  | .NotExpr .. => do let p ← to_ .NotExpr (shared_from_this n); pure (visitor.visit .NotExpr p s)
  | .AddExpr .. => do let p ← to_ .AddExpr (shared_from_this n); pure (visitor.visit .AddExpr p s)
  | .SubExpr .. => do let p ← to_ .SubExpr (shared_from_this n); pure (visitor.visit .SubExpr p s)
  | .MulExpr .. => do let p ← to_ .MulExpr (shared_from_this n); pure (visitor.visit .MulExpr p s)
  | .DivExpr .. => do let p ← to_ .DivExpr (shared_from_this n); pure (visitor.visit .DivExpr p s)
  | .ElwiseMulExpr .. => do let p ← to_ .ElwiseMulExpr (shared_from_this n); pure (visitor.visit .ElwiseMulExpr p s)
  | .ElwiseDivExpr .. => do let p ← to_ .ElwiseDivExpr (shared_from_this n); pure (visitor.visit .ElwiseDivExpr p s)
  | .NegExpr .. => do let p ← to_ .NegExpr (shared_from_this n); pure (visitor.visit .NegExpr p s)
  | .ExpExpr .. => do let p ← to_ .ExpExpr (shared_from_this n); pure (visitor.visit .ExpExpr p s)
  | .TransposeExpr .. => do let p ← to_ .TransposeExpr (shared_from_this n); pure (visitor.visit .TransposeExpr p s)
  | .CallExpr .. => do let p ← to_ .CallExpr (shared_from_this n); pure (visitor.visit .CallExpr p s)
  | .TensorReadExpr .. => do let p ← to_ .TensorReadExpr (shared_from_this n); pure (visitor.visit .TensorReadExpr p s)
  | .TupleReadExpr .. => do let p ← to_ .TupleReadExpr (shared_from_this n); pure (visitor.visit .TupleReadExpr p s)
  | .FieldReadExpr .. => do let p ← to_ .FieldReadExpr (shared_from_this n); pure (visitor.visit .FieldReadExpr p s)
  | .ParenExpr .. => do let p ← to_ .ParenExpr (shared_from_this n); pure (visitor.visit .ParenExpr p s)
  | .VarExpr .. => do let p ← to_ .VarExpr (shared_from_this n); pure (visitor.visit .VarExpr p s)
  | .IntLiteral .. => do let p ← to_ .IntLiteral (shared_from_this n); pure (visitor.visit .IntLiteral p s)
  | .FloatLiteral .. => do let p ← to_ .FloatLiteral (shared_from_this n); pure (visitor.visit .FloatLiteral p s)
  | .BoolLiteral .. => do let p ← to_ .BoolLiteral (shared_from_this n); pure (visitor.visit .BoolLiteral p s)
  | .DenseIntVector .. => do let p ← to_ .DenseIntVector (shared_from_this n); pure (visitor.visit .DenseIntVector p s)
  | .DenseFloatVector .. => do let p ← to_ .DenseFloatVector (shared_from_this n); pure (visitor.visit .DenseFloatVector p s)
  | .DenseNDTensor .. => do let p ← to_ .DenseNDTensor (shared_from_this n); pure (visitor.visit .DenseNDTensor p s)
  | .DenseTensorLiteral .. => do let p ← to_ .DenseTensorLiteral (shared_from_this n); pure (visitor.visit .DenseTensorLiteral p s)
  | .Test .. => do let p ← to_ .Test (shared_from_this n); pure (visitor.visit .Test p s)

/-! ## Static pointer types -/

mutual
/-- Whether every pointer member below `n` points to an object whose class is, or derives from,
the class the member is declared with (`Identifier::Ptr name`, `std::vector<Expr::Ptr> lhs`, ...).
C++ guarantees this of every tree a program can build. Null pointers are allowed everywhere. -/
def wellTyped : HIRNode → Bool
  | .Program _ elems => wellTypedList .HIRNode elems
  | .StmtBlock _ stmts => wellTypedList .Stmt stmts
  | .RangeIndexSet .. | .SetIndexSet .. | .DynamicIndexSet .. | .ElementType .. | .Endpoint ..
    | .TupleLength .. | .ScalarTensorType .. | .Identifier .. | .Slice .. | .VarExpr ..
    | .IntLiteral .. | .FloatLiteral .. | .BoolLiteral .. | .DenseIntVector ..
    | .DenseFloatVector .. => true
  | .SetType _ element endpoints =>
    wellTypedPtr .ElementType element && wellTypedList .Endpoint endpoints
  | .TupleType _ element length =>
    wellTypedPtr .ElementType element && wellTypedPtr .TupleLength length
  | .NonScalarTensorType _ indexSets blockType _ =>
    wellTypedList .IndexSet indexSets && wellTypedPtr .TensorType blockType
  | .IdentDecl _ name type | .Argument _ name type _ =>
    wellTypedPtr .Identifier name && wellTypedPtr .Type_ type
  | .Field _ field => wellTypedPtr .IdentDecl field
  | .ElementTypeDecl _ name fields =>
    wellTypedPtr .Identifier name && wellTypedList .Field fields
  | .ExternDecl _ var => wellTypedPtr .Argument var
  | .FuncDecl _ name args results body | .ProcDecl _ name args results body =>
    wellTypedPtr .Identifier name && wellTypedList .Argument args &&
      wellTypedList .IdentDecl results && wellTypedPtr .StmtBlock body
  | .VarDecl _ var initVal | .ConstDecl _ var initVal =>
    wellTypedPtr .IdentDecl var && wellTypedPtr .Expr initVal
  | .WhileStmt _ cond body | .DoWhileStmt _ cond body =>
    wellTypedPtr .Expr cond && wellTypedPtr .StmtBlock body
  | .IfStmt _ cond ifBody elseBody =>
    wellTypedPtr .Expr cond && wellTypedPtr .Stmt ifBody && wellTypedPtr .Stmt elseBody
  | .IndexSetDomain _ set => wellTypedPtr .SetIndexSet set
  | .RangeDomain _ lower upper => wellTypedPtr .Expr lower && wellTypedPtr .Expr upper
  | .ForStmt _ loopVar domain body =>
    wellTypedPtr .Identifier loopVar && wellTypedPtr .ForDomain domain &&
      wellTypedPtr .StmtBlock body
  | .PrintStmt _ expr | .ExprStmt _ expr | .ExprParam _ expr | .ParenExpr _ _ expr =>
    wellTypedPtr .Expr expr
  | .AssignStmt _ expr lhs => wellTypedPtr .Expr expr && wellTypedList .Expr lhs
  | .MapExpr _ _ func partialActuals target _ =>
    wellTypedPtr .Identifier func && wellTypedList .Expr partialActuals &&
      wellTypedPtr .Identifier target
  | .OrExpr _ _ lhs rhs | .AndExpr _ _ lhs rhs | .XorExpr _ _ lhs rhs | .AddExpr _ _ lhs rhs
    | .SubExpr _ _ lhs rhs | .MulExpr _ _ lhs rhs | .DivExpr _ _ lhs rhs
    | .ElwiseMulExpr _ _ lhs rhs | .ElwiseDivExpr _ _ lhs rhs | .ExpExpr _ _ lhs rhs =>
    wellTypedPtr .Expr lhs && wellTypedPtr .Expr rhs
  | .EqExpr _ _ operands _ => wellTypedList .Expr operands
  | .NotExpr _ _ operand | .NegExpr _ _ operand _ | .TransposeExpr _ _ operand =>
    wellTypedPtr .Expr operand
  | .CallExpr _ _ operands func => wellTypedList .Expr operands && wellTypedPtr .Identifier func
  | .TensorReadExpr _ _ tensor indices =>
    wellTypedPtr .Expr tensor && wellTypedList .ReadParam indices
  | .TupleReadExpr _ _ tuple index => wellTypedPtr .Expr tuple && wellTypedPtr .Expr index
  | .FieldReadExpr _ _ setOrElem field =>
    wellTypedPtr .Expr setOrElem && wellTypedPtr .Identifier field
  | .DenseNDTensor _ elems => wellTypedList .DenseTensorElement elems
  | .DenseTensorLiteral _ _ tensor _ => wellTypedPtr .DenseTensorElement tensor
  | .Test _ func args expected =>
    wellTypedPtr .Identifier func && wellTypedList .Expr args && wellTypedPtr .Expr expected

/-- A `std::shared_ptr<T>`: null, or pointing to a well-typed object of a class deriving from `T`. -/
def wellTypedPtr (T : NodeClass) : Option HIRNode → Bool
  | none => true
  | some n => derivesFrom (classOf n) T && wellTyped n

/-- A `std::vector<std::shared_ptr<T>>`. -/
def wellTypedList (T : NodeClass) : List (Option HIRNode) → Bool
  | [] => true
  | p :: rest => wellTypedPtr T p && wellTypedList T rest
end

/-! ## Source spans -/

/-- The stored span of an object: the protected fields of its `HIRNode` base. -/
def HIRNode.loc : HIRNode → Loc
  | .Program loc .. => loc
  | .StmtBlock loc .. => loc
  | .RangeIndexSet loc .. => loc
  | .SetIndexSet loc .. => loc
  | .DynamicIndexSet loc .. => loc
  | .ElementType loc .. => loc
  | .Endpoint loc .. => loc
  | .SetType loc .. => loc
  | .TupleLength loc .. => loc
  | .TupleType loc .. => loc
  | .ScalarTensorType loc .. => loc
  | .NonScalarTensorType loc .. => loc
  | .Identifier loc .. => loc
  | .IdentDecl loc .. => loc
  | .Field loc .. => loc
  | .ElementTypeDecl loc .. => loc
  | .Argument loc .. => loc
  | .ExternDecl loc .. => loc
  | .FuncDecl loc .. => loc
  | .ProcDecl loc .. => loc
  | .VarDecl loc .. => loc
  | .ConstDecl loc .. => loc
  | .WhileStmt loc .. => loc
  | .DoWhileStmt loc .. => loc
  | .IfStmt loc .. => loc
  | .IndexSetDomain loc .. => loc
  | .RangeDomain loc .. => loc
  | .ForStmt loc .. => loc
  | .PrintStmt loc .. => loc
  | .ExprStmt loc .. => loc
  | .AssignStmt loc .. => loc
  | .Slice loc .. => loc
  | .ExprParam loc .. => loc
  | .MapExpr loc .. => loc
  | .OrExpr loc .. => loc
  | .AndExpr loc .. => loc
  | .XorExpr loc .. => loc
  | .EqExpr loc .. => loc
  | .NotExpr loc .. => loc
  | .AddExpr loc .. => loc
  | .SubExpr loc .. => loc
  | .MulExpr loc .. => loc
  | .DivExpr loc .. => loc
  | .ElwiseMulExpr loc .. => loc
  | .ElwiseDivExpr loc .. => loc
  | .NegExpr loc .. => loc
  | .ExpExpr loc .. => loc
  | .TransposeExpr loc .. => loc
  | .CallExpr loc .. => loc
  | .TensorReadExpr loc .. => loc
  | .TupleReadExpr loc .. => loc
  | .FieldReadExpr loc .. => loc
  | .ParenExpr loc .. => loc
  | .VarExpr loc .. => loc
  | .IntLiteral loc .. => loc
  | .FloatLiteral loc .. => loc
  | .BoolLiteral loc .. => loc
  | .DenseIntVector loc .. => loc
  | .DenseFloatVector loc .. => loc
  | .DenseNDTensor loc .. => loc
  | .DenseTensorLiteral loc .. => loc
  | .Test loc .. => loc

/-- The virtual `getLineBegin()`: for each class the override in effect (`Argument` inherits
`IdentDecl`'s, the ten operator classes inherit `BinaryExpr`'s); every class not listed uses
`HIRNode::getLineBegin`, which returns the stored `lineBegin`. -/
def getLineBegin : HIRNode → Except Fault Nat
  | .IdentDecl _ name _ | .Argument _ name _ _ =>
    match name with
    | none => .error .nullDeref
    | some p => getLineBegin p
  | .Field _ field =>
    match field with
    | none => .error .nullDeref
    | some p => getLineBegin p
  | .IndexSetDomain _ set =>
    match set with
    | none => .error .nullDeref
    | some p => getLineBegin p
  | .RangeDomain _ lower _ =>
    match lower with
    | none => .error .nullDeref
    | some p => getLineBegin p
  | .ExprStmt _ expr =>
    match expr with
    | none => .error .nullDeref
    | some p => getLineBegin p
  | .AssignStmt _ _ lhs =>
    match lhs with
    | [] => .error .emptyVector
    | none :: _ => .error .nullDeref
    | some p :: _ => getLineBegin p
  | .ExprParam _ expr =>
    match expr with
    | none => .error .nullDeref
    | some p => getLineBegin p
  | .OrExpr _ _ lhs _ | .AndExpr _ _ lhs _ | .XorExpr _ _ lhs _ | .AddExpr _ _ lhs _ |
    .SubExpr _ _ lhs _ | .MulExpr _ _ lhs _ | .DivExpr _ _ lhs _ | .ElwiseMulExpr _ _ lhs _ |
    .ElwiseDivExpr _ _ lhs _ | .ExpExpr _ _ lhs _ =>
    match lhs with
    | none => .error .nullDeref
    | some p => getLineBegin p
  | .EqExpr _ _ operands _ =>
    match operands with
    | [] => .error .emptyVector
    | none :: _ => .error .nullDeref
    | some p :: _ => getLineBegin p
  | .TransposeExpr _ _ operand =>
    match operand with
    | none => .error .nullDeref
    | some p => getLineBegin p
  | .CallExpr _ _ _ func =>
    match func with
    | none => .error .nullDeref
    | some p => getLineBegin p
  | .TensorReadExpr _ _ tensor _ =>
    match tensor with
    | none => .error .nullDeref
    | some p => getLineBegin p
  | .TupleReadExpr _ _ tuple _ =>
    match tuple with
    | none => .error .nullDeref
    | some p => getLineBegin p
  | .FieldReadExpr _ _ setOrElem _ =>
    match setOrElem with
    | none => .error .nullDeref
    | some p => getLineBegin p
  | .DenseTensorLiteral _ _ tensor _ =>
    match tensor with
    | none => .error .nullDeref
    | some p => getLineBegin p
  | n => .ok n.loc.lineBegin

/-- The virtual `getColBegin()`: for each class the override in effect (`Argument` inherits
`IdentDecl`'s, the ten operator classes inherit `BinaryExpr`'s); every class not listed uses
`HIRNode::getColBegin`, which returns the stored `colBegin`. -/
def getColBegin : HIRNode → Except Fault Nat
  | .IdentDecl _ name _ | .Argument _ name _ _ =>
    match name with
    | none => .error .nullDeref
    | some p => getColBegin p
  | .Field _ field =>
    match field with
    | none => .error .nullDeref
    | some p => getColBegin p
  | .IndexSetDomain _ set =>
    match set with
    | none => .error .nullDeref
    | some p => getColBegin p
  | .RangeDomain _ lower _ =>
    match lower with
    | none => .error .nullDeref
    | some p => getColBegin p
  | .ExprStmt _ expr =>
    match expr with
    | none => .error .nullDeref
    | some p => getColBegin p
  | .AssignStmt _ _ lhs =>
    match lhs with
    | [] => .error .emptyVector
    | none :: _ => .error .nullDeref
    | some p :: _ => getColBegin p
  | .ExprParam _ expr =>
    match expr with
    | none => .error .nullDeref
    | some p => getColBegin p
  | .OrExpr _ _ lhs _ | .AndExpr _ _ lhs _ | .XorExpr _ _ lhs _ | .AddExpr _ _ lhs _ |
    .SubExpr _ _ lhs _ | .MulExpr _ _ lhs _ | .DivExpr _ _ lhs _ | .ElwiseMulExpr _ _ lhs _ |
    .ElwiseDivExpr _ _ lhs _ | .ExpExpr _ _ lhs _ =>
    match lhs with
    | none => .error .nullDeref
    | some p => getColBegin p
  | .EqExpr _ _ operands _ =>
    match operands with
    | [] => .error .emptyVector
    | none :: _ => .error .nullDeref
    | some p :: _ => getColBegin p
  | .TransposeExpr _ _ operand =>
    match operand with
    | none => .error .nullDeref
    | some p => getColBegin p
  | .CallExpr _ _ _ func =>
    match func with
    | none => .error .nullDeref
    | some p => getColBegin p
  | .TensorReadExpr _ _ tensor _ =>
    match tensor with
    | none => .error .nullDeref
    | some p => getColBegin p
  | .TupleReadExpr _ _ tuple _ =>
    match tuple with
    | none => .error .nullDeref
    | some p => getColBegin p
  | .FieldReadExpr _ _ setOrElem _ =>
    match setOrElem with
    | none => .error .nullDeref
    | some p => getColBegin p
  | .DenseTensorLiteral _ _ tensor _ =>
    match tensor with
    | none => .error .nullDeref
    | some p => getColBegin p
  | n => .ok n.loc.colBegin

mutual
/-- The virtual `getLineEnd()`: for each class the override in effect (`Argument` inherits
`IdentDecl`'s, the ten operator classes inherit `BinaryExpr`'s); every class not listed uses
`HIRNode::getLineEnd`, which returns the stored `lineEnd`. -/
def getLineEnd : HIRNode → Except Fault Nat
  | .IdentDecl _ _ type | .Argument _ _ type _ =>
    match type with
    | none => .error .nullDeref
    | some p => getLineEnd p
  | .DoWhileStmt _ cond _ =>
    match cond with
    | none => .error .nullDeref
    | some p => getLineEnd p
  | .IfStmt loc _ _ elseBody =>
    if loc.lineEnd = 0 then
      match elseBody with
      | none => .error .nullDeref
      | some p => getLineEnd p
    else .ok loc.lineEnd
  | .IndexSetDomain _ set =>
    match set with
    | none => .error .nullDeref
    | some p => getLineEnd p
  | .RangeDomain _ _ upper =>
    match upper with
    | none => .error .nullDeref
    | some p => getLineEnd p
  | .ExprParam _ expr =>
    match expr with
    | none => .error .nullDeref
    | some p => getLineEnd p
  | .MapExpr loc _ _ _ target op =>
    if op = ReductionOp.NONE then
      match target with
      | none => .error .nullDeref
      | some p => getLineEnd p
    else .ok loc.lineEnd
  | .OrExpr _ _ _ rhs | .AndExpr _ _ _ rhs | .XorExpr _ _ _ rhs | .AddExpr _ _ _ rhs |
    .SubExpr _ _ _ rhs | .MulExpr _ _ _ rhs | .DivExpr _ _ _ rhs | .ElwiseMulExpr _ _ _ rhs |
    .ElwiseDivExpr _ _ _ rhs | .ExpExpr _ _ _ rhs =>
    match rhs with
    | none => .error .nullDeref
    | some p => getLineEnd p
  | .EqExpr _ _ operands _ =>
    getLineEnd_back operands
  | .NotExpr _ _ operand =>
    match operand with
    | none => .error .nullDeref
    | some p => getLineEnd p
  | .NegExpr _ _ operand _ =>
    match operand with
    | none => .error .nullDeref
    | some p => getLineEnd p
  | .FieldReadExpr _ _ _ field =>
    match field with
    | none => .error .nullDeref
    | some p => getLineEnd p
  | .DenseTensorLiteral _ _ tensor _ =>
    match tensor with
    | none => .error .nullDeref
    | some p => getLineEnd p
  | n => .ok n.loc.lineEnd

/-- The call `v.back()->getLineEnd()` on a vector `v` of pointers: `getLineEnd` of the last element. -/
def getLineEnd_back : List (Option HIRNode) → Except Fault Nat
  | [] => .error .emptyVector
  | [none] => .error .nullDeref
  | [some p] => getLineEnd p
  | _ :: q :: rest => getLineEnd_back (q :: rest)
end

mutual
/-- The virtual `getColEnd()`: for each class the override in effect (`Argument` inherits
`IdentDecl`'s, the ten operator classes inherit `BinaryExpr`'s); every class not listed uses
`HIRNode::getColEnd`, which returns the stored `colEnd`. -/
def getColEnd : HIRNode → Except Fault Nat
  | .IdentDecl _ _ type | .Argument _ _ type _ =>
    match type with
    | none => .error .nullDeref
    | some p => getColEnd p
  | .DoWhileStmt _ cond _ =>
    match cond with
    | none => .error .nullDeref
    | some p => getColEnd p
  | .IfStmt loc _ _ elseBody =>
    if loc.lineEnd = 0 then
      match elseBody with
      | none => .error .nullDeref
      | some p => getColEnd p
    else .ok loc.colEnd
  | .IndexSetDomain _ set =>
    match set with
    | none => .error .nullDeref
    | some p => getColEnd p
  | .RangeDomain _ _ upper =>
    match upper with
    | none => .error .nullDeref
    | some p => getColEnd p
  | .ExprParam _ expr =>
    match expr with
    | none => .error .nullDeref
    | some p => getColEnd p
  | .MapExpr loc _ _ _ target op =>
    if op = ReductionOp.NONE then
      match target with
      | none => .error .nullDeref
      | some p => getColEnd p
    else .ok loc.colEnd
  | .OrExpr _ _ _ rhs | .AndExpr _ _ _ rhs | .XorExpr _ _ _ rhs | .AddExpr _ _ _ rhs |
    .SubExpr _ _ _ rhs | .MulExpr _ _ _ rhs | .DivExpr _ _ _ rhs | .ElwiseMulExpr _ _ _ rhs |
    .ElwiseDivExpr _ _ _ rhs | .ExpExpr _ _ _ rhs =>
    match rhs with
    | none => .error .nullDeref
    | some p => getColEnd p
  | .EqExpr _ _ operands _ =>
    getColEnd_back operands
  | .NotExpr _ _ operand =>
    match operand with
    | none => .error .nullDeref
    | some p => getColEnd p
  | .NegExpr _ _ operand _ =>
    match operand with
    | none => .error .nullDeref
    | some p => getColEnd p
  | .FieldReadExpr _ _ _ field =>
    match field with
    | none => .error .nullDeref
    | some p => getColEnd p
  | .DenseTensorLiteral _ _ tensor _ =>
    match tensor with
    | none => .error .nullDeref
    | some p => getColEnd p
  | n => .ok n.loc.colEnd

/-- The call `v.back()->getColEnd()` on a vector `v` of pointers: `getColEnd` of the last element. -/
def getColEnd_back : List (Option HIRNode) → Except Fault Nat
  | [] => .error .emptyVector
  | [none] => .error .nullDeref
  | [some p] => getColEnd p
  | _ :: q :: rest => getColEnd_back (q :: rest)
end

/-! ## Auxiliary definitions for the statements -/

/-- The visitor that records, in call order, which operation was invoked on which pointer. -/
def recorder : HIRVisitor (List (NodeClass × Ptr)) where
  visit V p log := log ++ [(V, p)]

/-- The pairs `(V, W)` of distinct instantiable classes in which `V` derives from `W`. -/
def concreteBasePairs : List (NodeClass × NodeClass) :=
  [(.Argument, .IdentDecl), (.ProcDecl, .FuncDecl), (.ConstDecl, .VarDecl),
   (.DoWhileStmt, .WhileStmt), (.AssignStmt, .ExprStmt)]

/-- The members `lhs` and `rhs` of an object whose class derives from `BinaryExpr`. -/
def binaryOperands : HIRNode → Option (Ptr × Ptr)
  | .OrExpr _ _ lhs rhs | .AndExpr _ _ lhs rhs | .XorExpr _ _ lhs rhs | .AddExpr _ _ lhs rhs
    | .SubExpr _ _ lhs rhs | .MulExpr _ _ lhs rhs | .DivExpr _ _ lhs rhs
    | .ElwiseMulExpr _ _ lhs rhs | .ElwiseDivExpr _ _ lhs rhs | .ExpExpr _ _ lhs rhs =>
    some (lhs, rhs)
  | _ => none

/-! ## Stored spans: the setters -/

/-- The object `n` with the four stored span fields replaced by `l` and every other member
kept: the effect of assigning `lineBegin`, `colBegin`, `lineEnd` and `colEnd`. -/
def HIRNode.setStored (l : Loc) : HIRNode → HIRNode
  | .Program _ elems => .Program l elems
  | .StmtBlock _ stmts => .StmtBlock l stmts
  | .RangeIndexSet _ range => .RangeIndexSet l range
  | .SetIndexSet _ setName => .SetIndexSet l setName
  | .DynamicIndexSet _ => .DynamicIndexSet l
  | .ElementType _ ident => .ElementType l ident
  | .Endpoint _ setName => .Endpoint l setName
  | .SetType _ element endpoints => .SetType l element endpoints
  | .TupleLength _ val => .TupleLength l val
  | .TupleType _ element length => .TupleType l element length
  | .ScalarTensorType _ type => .ScalarTensorType l type
  | .NonScalarTensorType _ indexSets blockType transposed => .NonScalarTensorType l indexSets blockType transposed
  | .Identifier _ ident => .Identifier l ident
  | .IdentDecl _ name type => .IdentDecl l name type
  | .Field _ field => .Field l field
  | .ElementTypeDecl _ name fields => .ElementTypeDecl l name fields
  | .Argument _ name type inout => .Argument l name type inout
  | .ExternDecl _ var => .ExternDecl l var
  | .FuncDecl _ name args results body => .FuncDecl l name args results body
  | .ProcDecl _ name args results body => .ProcDecl l name args results body
  | .VarDecl _ var initVal => .VarDecl l var initVal
  | .ConstDecl _ var initVal => .ConstDecl l var initVal
  | .WhileStmt _ cond body => .WhileStmt l cond body
  | .DoWhileStmt _ cond body => .DoWhileStmt l cond body
  | .IfStmt _ cond ifBody elseBody => .IfStmt l cond ifBody elseBody
  | .IndexSetDomain _ set => .IndexSetDomain l set
  | .RangeDomain _ lower upper => .RangeDomain l lower upper
  | .ForStmt _ loopVar domain body => .ForStmt l loopVar domain body
  | .PrintStmt _ expr => .PrintStmt l expr
  | .ExprStmt _ expr => .ExprStmt l expr
  | .AssignStmt _ expr lhs => .AssignStmt l expr lhs
  | .Slice _ => .Slice l
  | .ExprParam _ expr => .ExprParam l expr
  | .MapExpr _ type func partialActuals target op => .MapExpr l type func partialActuals target op
  | .OrExpr _ type lhs rhs => .OrExpr l type lhs rhs
  | .AndExpr _ type lhs rhs => .AndExpr l type lhs rhs
  | .XorExpr _ type lhs rhs => .XorExpr l type lhs rhs
  | .EqExpr _ type operands ops => .EqExpr l type operands ops
  | .NotExpr _ type operand => .NotExpr l type operand
  | .AddExpr _ type lhs rhs => .AddExpr l type lhs rhs
  | .SubExpr _ type lhs rhs => .SubExpr l type lhs rhs
  | .MulExpr _ type lhs rhs => .MulExpr l type lhs rhs
  | .DivExpr _ type lhs rhs => .DivExpr l type lhs rhs
  | .ElwiseMulExpr _ type lhs rhs => .ElwiseMulExpr l type lhs rhs
  | .ElwiseDivExpr _ type lhs rhs => .ElwiseDivExpr l type lhs rhs
  | .NegExpr _ type operand negate => .NegExpr l type operand negate
  | .ExpExpr _ type lhs rhs => .ExpExpr l type lhs rhs
  | .TransposeExpr _ type operand => .TransposeExpr l type operand
  | .CallExpr _ type operands func => .CallExpr l type operands func
  | .TensorReadExpr _ type tensor indices => .TensorReadExpr l type tensor indices
  | .TupleReadExpr _ type tuple index => .TupleReadExpr l type tuple index
  | .FieldReadExpr _ type setOrElem field => .FieldReadExpr l type setOrElem field
  | .ParenExpr _ type expr => .ParenExpr l type expr
  | .VarExpr _ type ident => .VarExpr l type ident
  | .IntLiteral _ type val => .IntLiteral l type val
  | .FloatLiteral _ type val => .FloatLiteral l type val
  | .BoolLiteral _ type val => .BoolLiteral l type val
  | .DenseIntVector _ vals => .DenseIntVector l vals
  | .DenseFloatVector _ vals => .DenseFloatVector l vals
  | .DenseNDTensor _ elems => .DenseNDTensor l elems
  | .DenseTensorLiteral _ type tensor transposed => .DenseTensorLiteral l type tensor transposed
  | .Test _ func args expected => .Test l func args expected

/-- The member `setBeginLoc(const internal::Token &token)`. -/
def setBeginLoc (token : Token) (n : HIRNode) : HIRNode :=
  n.setStored ⟨token.lineBegin, token.colBegin, n.loc.lineEnd, n.loc.colEnd⟩

/-- The member `setEndLoc(const internal::Token &token)`. -/
def setEndLoc (token : Token) (n : HIRNode) : HIRNode :=
  n.setStored ⟨n.loc.lineBegin, n.loc.colBegin, token.lineEnd, token.colEnd⟩

/-- The member `setLoc(const internal::Token &token)`: `setBeginLoc` followed by `setEndLoc`. -/
def setLoc (token : Token) (n : HIRNode) : HIRNode :=
  setEndLoc token (setBeginLoc token n)

/-- The member `setLoc(const HIRNode::Ptr node)`: copies the four fields stored in `*node`,
read directly and not through the accessors. Undefined on a null `node`. -/
def setLoc_Ptr (node : Ptr) (n : HIRNode) : Except Fault HIRNode :=
  match node with
  | none => .error .nullDeref
  | some src => .ok (n.setStored ⟨src.loc.lineBegin, src.loc.colBegin, src.loc.lineEnd,
      src.loc.colEnd⟩)

/-- The classes that themselves declare an override of one of `getLineBegin`, `getColBegin`,
`getLineEnd`, `getColEnd` (`HIRNode` declares the accessors, it overrides none). -/
def declaresSpanOverride : NodeClass → Bool
  | .IdentDecl | .Field | .DoWhileStmt | .IfStmt | .IndexSetDomain | .RangeDomain | .ExprStmt
    | .AssignStmt | .ExprParam | .MapExpr | .BinaryExpr | .EqExpr | .NotExpr | .NegExpr
    | .TransposeExpr | .CallExpr | .TensorReadExpr | .TupleReadExpr | .FieldReadExpr
    | .DenseTensorLiteral => true
  | _ => false

/-- Whether `C` or one of the classes on its chain of bases declares a span override, the chain
being followed for at most `fuel` steps. -/
def hasSpanOverrideAux : Nat → NodeClass → Bool
  | 0, C => declaresSpanOverride C
  | fuel + 1, C =>
    declaresSpanOverride C || (match C.base with
      | none => false
      | some B => hasSpanOverrideAux fuel B)

/-- Whether the span accessors in effect for an object of class `C` are not all the ones of
`HIRNode`: `C` declares or inherits an override. -/
def hasSpanOverride (C : NodeClass) : Bool := hasSpanOverrideAux 75 C

/-! ## The inheritance relation, as the spec words it -/

/-- The class `B` is the direct base of `D`. -/
def directBase (D B : NodeClass) : Prop := D.base = some B

/-- The class `D` is `B` or a transitive descendant of `B` in the inheritance hierarchy. -/
def descendsFrom (D B : NodeClass) : Prop := Relation.ReflTransGen directBase D B

/-! ## Trees of binary operators -/

/-- Whether `n` is an expression tree built only from binary-operator nodes, both operands
present, over leaves that are expressions with the accessors of `HIRNode`. -/
def isBinaryTree : HIRNode → Bool
  | .OrExpr _ _ lhs rhs | .AndExpr _ _ lhs rhs | .XorExpr _ _ lhs rhs | .AddExpr _ _ lhs rhs
    | .SubExpr _ _ lhs rhs | .MulExpr _ _ lhs rhs | .DivExpr _ _ lhs rhs
    | .ElwiseMulExpr _ _ lhs rhs | .ElwiseDivExpr _ _ lhs rhs | .ExpExpr _ _ lhs rhs =>
    match lhs, rhs with
    | some l, some r => isBinaryTree l && isBinaryTree r
    | _, _ => false
  | n => derivesFrom (classOf n) .Expr && !hasSpanOverride (classOf n)

/-- The leaf reached from `n` by following `lhs` through the binary-operator nodes. -/
def leftmostLeaf : HIRNode → HIRNode
  | .OrExpr _ _ (some l) _ | .AndExpr _ _ (some l) _ | .XorExpr _ _ (some l) _
    | .AddExpr _ _ (some l) _ | .SubExpr _ _ (some l) _ | .MulExpr _ _ (some l) _
    | .DivExpr _ _ (some l) _ | .ElwiseMulExpr _ _ (some l) _ | .ElwiseDivExpr _ _ (some l) _
    | .ExpExpr _ _ (some l) _ => leftmostLeaf l
  | n => n

/-- The leaf reached from `n` by following `rhs` through the binary-operator nodes. -/
def rightmostLeaf : HIRNode → HIRNode
  | .OrExpr _ _ _ (some r) | .AndExpr _ _ _ (some r) | .XorExpr _ _ _ (some r)
    | .AddExpr _ _ _ (some r) | .SubExpr _ _ _ (some r) | .MulExpr _ _ _ (some r)
    | .DivExpr _ _ _ (some r) | .ElwiseMulExpr _ _ _ (some r) | .ElwiseDivExpr _ _ _ (some r)
    | .ExpExpr _ _ _ (some r) => rightmostLeaf r
  | n => n

/-! ## The inferred-type annotation of expressions -/

/-- The member `Expr::type` of an object whose class derives from `Expr`; other objects have no
such member. -/
def exprType : HIRNode → Option (List IRType)
  | .MapExpr _ type .. => some type
  | .OrExpr _ type .. => some type
  | .AndExpr _ type .. => some type
  | .XorExpr _ type .. => some type
  | .EqExpr _ type .. => some type
  | .NotExpr _ type .. => some type
  | .AddExpr _ type .. => some type
  | .SubExpr _ type .. => some type
  | .MulExpr _ type .. => some type
  | .DivExpr _ type .. => some type
  | .ElwiseMulExpr _ type .. => some type
  | .ElwiseDivExpr _ type .. => some type
  | .NegExpr _ type .. => some type
  | .ExpExpr _ type .. => some type
  | .TransposeExpr _ type .. => some type
  | .CallExpr _ type .. => some type
  | .TensorReadExpr _ type .. => some type
  | .TupleReadExpr _ type .. => some type
  | .FieldReadExpr _ type .. => some type
  | .ParenExpr _ type .. => some type
  | .VarExpr _ type .. => some type
  | .IntLiteral _ type .. => some type
  | .FloatLiteral _ type .. => some type
  | .BoolLiteral _ type .. => some type
  | .DenseTensorLiteral _ type .. => some type
  | _ => none

/-- The object `n` with the member `Expr::type` replaced by `ty` and every other member kept;
an object without the member is left as it is. -/
def setType (ty : List IRType) : HIRNode → HIRNode
  | .MapExpr loc _ func partialActuals target op => .MapExpr loc ty func partialActuals target op
  | .OrExpr loc _ lhs rhs => .OrExpr loc ty lhs rhs
  | .AndExpr loc _ lhs rhs => .AndExpr loc ty lhs rhs
  | .XorExpr loc _ lhs rhs => .XorExpr loc ty lhs rhs
  | .EqExpr loc _ operands ops => .EqExpr loc ty operands ops
  | .NotExpr loc _ operand => .NotExpr loc ty operand
  | .AddExpr loc _ lhs rhs => .AddExpr loc ty lhs rhs
  | .SubExpr loc _ lhs rhs => .SubExpr loc ty lhs rhs
  | .MulExpr loc _ lhs rhs => .MulExpr loc ty lhs rhs
  | .DivExpr loc _ lhs rhs => .DivExpr loc ty lhs rhs
  | .ElwiseMulExpr loc _ lhs rhs => .ElwiseMulExpr loc ty lhs rhs
  | .ElwiseDivExpr loc _ lhs rhs => .ElwiseDivExpr loc ty lhs rhs
  | .NegExpr loc _ operand negate => .NegExpr loc ty operand negate
  | .ExpExpr loc _ lhs rhs => .ExpExpr loc ty lhs rhs
  | .TransposeExpr loc _ operand => .TransposeExpr loc ty operand
  | .CallExpr loc _ operands func => .CallExpr loc ty operands func
  | .TensorReadExpr loc _ tensor indices => .TensorReadExpr loc ty tensor indices
  | .TupleReadExpr loc _ tuple index => .TupleReadExpr loc ty tuple index
  | .FieldReadExpr loc _ setOrElem field => .FieldReadExpr loc ty setOrElem field
  | .ParenExpr loc _ expr => .ParenExpr loc ty expr
  | .VarExpr loc _ ident => .VarExpr loc ty ident
  | .IntLiteral loc _ val => .IntLiteral loc ty val
  | .FloatLiteral loc _ val => .FloatLiteral loc ty val
  | .BoolLiteral loc _ val => .BoolLiteral loc ty val
  | .DenseTensorLiteral loc _ tensor transposed => .DenseTensorLiteral loc ty tensor transposed
  | n => n

/-- The statement `e->type.push_back(t)`: appends the resolved type `t` to the annotation. -/
def type_push_back (t : IRType) (e : HIRNode) : HIRNode :=
  match exprType e with
  | some old => setType (old ++ [t]) e
  | none => e

/-- The call `std::make_shared<C>()`: an object of the instantiable class `C` built by its
implicit default constructor on top of `HIRNode()`, which stores the span (0,0)-(0,0). Pointer
members are null, vectors and strings are empty, and the scalar members, which have no
initialiser in `hir.h`, hold the zero that value-initialisation gives them. An abstract class
cannot be instantiated. -/
def make_shared : NodeClass → Option HIRNode
  | .Program => some (.Program ⟨0, 0, 0, 0⟩ [])
  | .StmtBlock => some (.StmtBlock ⟨0, 0, 0, 0⟩ [])
  | .RangeIndexSet => some (.RangeIndexSet ⟨0, 0, 0, 0⟩ 0)
  | .SetIndexSet => some (.SetIndexSet ⟨0, 0, 0, 0⟩ "")
  | .DynamicIndexSet => some (.DynamicIndexSet ⟨0, 0, 0, 0⟩)
  | .ElementType => some (.ElementType ⟨0, 0, 0, 0⟩ "")
  | .Endpoint => some (.Endpoint ⟨0, 0, 0, 0⟩ "")
  | .SetType => some (.SetType ⟨0, 0, 0, 0⟩ none [])
  | .TupleLength => some (.TupleLength ⟨0, 0, 0, 0⟩ 0)
  | .TupleType => some (.TupleType ⟨0, 0, 0, 0⟩ none none)
  | .ScalarTensorType => some (.ScalarTensorType ⟨0, 0, 0, 0⟩ .INT)
  | .NonScalarTensorType => some (.NonScalarTensorType ⟨0, 0, 0, 0⟩ [] none false)
  | .Identifier => some (.Identifier ⟨0, 0, 0, 0⟩ "")
  | .IdentDecl => some (.IdentDecl ⟨0, 0, 0, 0⟩ none none)
  | .Field => some (.Field ⟨0, 0, 0, 0⟩ none)
  | .ElementTypeDecl => some (.ElementTypeDecl ⟨0, 0, 0, 0⟩ none [])
  | .Argument => some (.Argument ⟨0, 0, 0, 0⟩ none none false)
  | .ExternDecl => some (.ExternDecl ⟨0, 0, 0, 0⟩ none)
  | .FuncDecl => some (.FuncDecl ⟨0, 0, 0, 0⟩ none [] [] none)
  | .ProcDecl => some (.ProcDecl ⟨0, 0, 0, 0⟩ none [] [] none)
  | .VarDecl => some (.VarDecl ⟨0, 0, 0, 0⟩ none none)
  | .ConstDecl => some (.ConstDecl ⟨0, 0, 0, 0⟩ none none)
  | .WhileStmt => some (.WhileStmt ⟨0, 0, 0, 0⟩ none none)
  | .DoWhileStmt => some (.DoWhileStmt ⟨0, 0, 0, 0⟩ none none)
  | .IfStmt => some (.IfStmt ⟨0, 0, 0, 0⟩ none none none)
  | .IndexSetDomain => some (.IndexSetDomain ⟨0, 0, 0, 0⟩ none)
  | .RangeDomain => some (.RangeDomain ⟨0, 0, 0, 0⟩ none none)
  | .ForStmt => some (.ForStmt ⟨0, 0, 0, 0⟩ none none none)
  | .PrintStmt => some (.PrintStmt ⟨0, 0, 0, 0⟩ none)
  | .ExprStmt => some (.ExprStmt ⟨0, 0, 0, 0⟩ none)
  | .AssignStmt => some (.AssignStmt ⟨0, 0, 0, 0⟩ none [])
  | .Slice => some (.Slice ⟨0, 0, 0, 0⟩)
  | .ExprParam => some (.ExprParam ⟨0, 0, 0, 0⟩ none)
  | .MapExpr => some (.MapExpr ⟨0, 0, 0, 0⟩ [] none [] none .SUM)
  | .OrExpr => some (.OrExpr ⟨0, 0, 0, 0⟩ [] none none)
  | .AndExpr => some (.AndExpr ⟨0, 0, 0, 0⟩ [] none none)
  | .XorExpr => some (.XorExpr ⟨0, 0, 0, 0⟩ [] none none)
  | .EqExpr => some (.EqExpr ⟨0, 0, 0, 0⟩ [] [] [])
  | .NotExpr => some (.NotExpr ⟨0, 0, 0, 0⟩ [] none)
  | .AddExpr => some (.AddExpr ⟨0, 0, 0, 0⟩ [] none none)
  | .SubExpr => some (.SubExpr ⟨0, 0, 0, 0⟩ [] none none)
  | .MulExpr => some (.MulExpr ⟨0, 0, 0, 0⟩ [] none none)
  | .DivExpr => some (.DivExpr ⟨0, 0, 0, 0⟩ [] none none)
  | .ElwiseMulExpr => some (.ElwiseMulExpr ⟨0, 0, 0, 0⟩ [] none none)
  | .ElwiseDivExpr => some (.ElwiseDivExpr ⟨0, 0, 0, 0⟩ [] none none)
  | .NegExpr => some (.NegExpr ⟨0, 0, 0, 0⟩ [] none false)
  | .ExpExpr => some (.ExpExpr ⟨0, 0, 0, 0⟩ [] none none)
  | .TransposeExpr => some (.TransposeExpr ⟨0, 0, 0, 0⟩ [] none)
  | .CallExpr => some (.CallExpr ⟨0, 0, 0, 0⟩ [] [] none)
  | .TensorReadExpr => some (.TensorReadExpr ⟨0, 0, 0, 0⟩ [] none [])
  | .TupleReadExpr => some (.TupleReadExpr ⟨0, 0, 0, 0⟩ [] none none)
  | .FieldReadExpr => some (.FieldReadExpr ⟨0, 0, 0, 0⟩ [] none none)
  | .ParenExpr => some (.ParenExpr ⟨0, 0, 0, 0⟩ [] none)
  | .VarExpr => some (.VarExpr ⟨0, 0, 0, 0⟩ [] "")
  | .IntLiteral => some (.IntLiteral ⟨0, 0, 0, 0⟩ [] 0)
  | .FloatLiteral => some (.FloatLiteral ⟨0, 0, 0, 0⟩ [] 0)
  | .BoolLiteral => some (.BoolLiteral ⟨0, 0, 0, 0⟩ [] false)
  | .DenseIntVector => some (.DenseIntVector ⟨0, 0, 0, 0⟩ [])
  | .DenseFloatVector => some (.DenseFloatVector ⟨0, 0, 0, 0⟩ [])
  | .DenseNDTensor => some (.DenseNDTensor ⟨0, 0, 0, 0⟩ [])
  | .DenseTensorLiteral => some (.DenseTensorLiteral ⟨0, 0, 0, 0⟩ [] none false)
  | .Test => some (.Test ⟨0, 0, 0, 0⟩ none [] none)
  | _ => none

/-! ## Positions in a tree -/

/-- The element `v[j]` of a vector of pointers, null when there is no such element. -/
def elemAt : List (Option HIRNode) → Nat → Option HIRNode
  | [], _ => none
  | p :: _, 0 => p
  | _ :: rest, j + 1 => elemAt rest j

/-- The vector `v` with `g` applied to the object behind `v[j]`, if any. -/
def modifyElem (g : HIRNode → HIRNode) (j : Nat) (v : List (Option HIRNode)) :
    List (Option HIRNode) :=
  match v, j with
  | [], _ => []
  | p :: rest, 0 => p.map g :: rest
  | p :: rest, j + 1 => p :: modifyElem g j rest
termination_by structural v

/-- The object behind the `i`-th pointer or vector member of `n`, members being counted from 0 in
declaration order, inherited ones first; for a vector member it is the object behind element
`j`. There is none when the member does not exist or the pointer is null. -/
def childAt (i j : Nat) : HIRNode → Option HIRNode
  | .Program _ elems =>
    match i with
    | 0 => elemAt elems j
    | _ => none
  | .StmtBlock _ stmts =>
    match i with
    | 0 => elemAt stmts j
    | _ => none
  | .SetType _ element endpoints =>
    match i with
    | 0 => element
    | 1 => elemAt endpoints j
    | _ => none
  | .TupleType _ element length =>
    match i with
    | 0 => element
    | 1 => length
    | _ => none
  | .NonScalarTensorType _ indexSets blockType _ =>
    match i with
    | 0 => elemAt indexSets j
    | 1 => blockType
    | _ => none
  | .IdentDecl _ name type =>
    match i with
    | 0 => name
    | 1 => type
    | _ => none
  | .Field _ field =>
    match i with
    | 0 => field
    | _ => none
  | .ElementTypeDecl _ name fields =>
    match i with
    | 0 => name
    | 1 => elemAt fields j
    | _ => none
  | .Argument _ name type _ =>
    match i with
    | 0 => name
    | 1 => type
    | _ => none
  | .ExternDecl _ var =>
    match i with
    | 0 => var
    | _ => none
  | .FuncDecl _ name args results body =>
    match i with
    | 0 => name
    | 1 => elemAt args j
    | 2 => elemAt results j
    | 3 => body
    | _ => none
  | .ProcDecl _ name args results body =>
    match i with
    | 0 => name
    | 1 => elemAt args j
    | 2 => elemAt results j
    | 3 => body
    | _ => none
  | .VarDecl _ var initVal =>
    match i with
    | 0 => var
    | 1 => initVal
    | _ => none
  | .ConstDecl _ var initVal =>
    match i with
    | 0 => var
    | 1 => initVal
    | _ => none
  | .WhileStmt _ cond body =>
    match i with
    | 0 => cond
    | 1 => body
    | _ => none
  | .DoWhileStmt _ cond body =>
    match i with
    | 0 => cond
    | 1 => body
    | _ => none
  | .IfStmt _ cond ifBody elseBody =>
    match i with
    | 0 => cond
    | 1 => ifBody
    | 2 => elseBody
    | _ => none
  | .IndexSetDomain _ set =>
    match i with
    | 0 => set
    | _ => none
  | .RangeDomain _ lower upper =>
    match i with
    | 0 => lower
    | 1 => upper
    | _ => none
  | .ForStmt _ loopVar domain body =>
    match i with
    | 0 => loopVar
    | 1 => domain
    | 2 => body
    | _ => none
  | .PrintStmt _ expr =>
    match i with
    | 0 => expr
    | _ => none
  | .ExprStmt _ expr =>
    match i with
    | 0 => expr
    | _ => none
  | .AssignStmt _ expr lhs =>
    match i with
    | 0 => expr
    | 1 => elemAt lhs j
    | _ => none
  | .ExprParam _ expr =>
    match i with
    | 0 => expr
    | _ => none
  | .MapExpr _ _ func partialActuals target _ =>
    match i with
    | 0 => func
    | 1 => elemAt partialActuals j
    | 2 => target
    | _ => none
  | .OrExpr _ _ lhs rhs =>
    match i with
    | 0 => lhs
    | 1 => rhs
    | _ => none
  | .AndExpr _ _ lhs rhs =>
    match i with
    | 0 => lhs
    | 1 => rhs
    | _ => none
  | .XorExpr _ _ lhs rhs =>
    match i with
    | 0 => lhs
    | 1 => rhs
    | _ => none
  | .EqExpr _ _ operands _ =>
    match i with
    | 0 => elemAt operands j
    | _ => none
  | .NotExpr _ _ operand =>
    match i with
    | 0 => operand
    | _ => none
  | .AddExpr _ _ lhs rhs =>
    match i with
    | 0 => lhs
    | 1 => rhs
    | _ => none
  | .SubExpr _ _ lhs rhs =>
    match i with
    | 0 => lhs
    | 1 => rhs
    | _ => none
  | .MulExpr _ _ lhs rhs =>
    match i with
    | 0 => lhs
    | 1 => rhs
    | _ => none
  | .DivExpr _ _ lhs rhs =>
    match i with
    | 0 => lhs
    | 1 => rhs
    | _ => none
  | .ElwiseMulExpr _ _ lhs rhs =>
    match i with
    | 0 => lhs
    | 1 => rhs
    | _ => none
  | .ElwiseDivExpr _ _ lhs rhs =>
    match i with
    | 0 => lhs
    | 1 => rhs
    | _ => none
  | .NegExpr _ _ operand _ =>
    match i with
    | 0 => operand
    | _ => none
  | .ExpExpr _ _ lhs rhs =>
    match i with
    | 0 => lhs
    | 1 => rhs
    | _ => none
  | .TransposeExpr _ _ operand =>
    match i with
    | 0 => operand
    | _ => none
  | .CallExpr _ _ operands func =>
    match i with
    | 0 => elemAt operands j
    | 1 => func
    | _ => none
  | .TensorReadExpr _ _ tensor indices =>
    match i with
    | 0 => tensor
    | 1 => elemAt indices j
    | _ => none
  | .TupleReadExpr _ _ tuple index =>
    match i with
    | 0 => tuple
    | 1 => index
    | _ => none
  | .FieldReadExpr _ _ setOrElem field =>
    match i with
    | 0 => setOrElem
    | 1 => field
    | _ => none
  | .ParenExpr _ _ expr =>
    match i with
    | 0 => expr
    | _ => none
  | .DenseNDTensor _ elems =>
    match i with
    | 0 => elemAt elems j
    | _ => none
  | .DenseTensorLiteral _ _ tensor _ =>
    match i with
    | 0 => tensor
    | _ => none
  | .Test _ func args expected =>
    match i with
    | 0 => func
    | 1 => elemAt args j
    | 2 => expected
    | _ => none
  | _ => none

/-- The object `n` with `g` applied to the object behind its `i`-th pointer member, or behind
element `j` of its `i`-th member when that is a vector; `n` itself when there is no such
member. -/
def modifyChild (i j : Nat) (g : HIRNode → HIRNode) : HIRNode → HIRNode
  | .Program loc elems =>
    match i with
    | 0 => .Program loc (modifyElem g j elems)
    | _ => .Program loc elems
  | .StmtBlock loc stmts =>
    match i with
    | 0 => .StmtBlock loc (modifyElem g j stmts)
    | _ => .StmtBlock loc stmts
  | .SetType loc element endpoints =>
    match i with
    | 0 => .SetType loc (element.map g) endpoints
    | 1 => .SetType loc element (modifyElem g j endpoints)
    | _ => .SetType loc element endpoints
  | .TupleType loc element length =>
    match i with
    | 0 => .TupleType loc (element.map g) length
    | 1 => .TupleType loc element (length.map g)
    | _ => .TupleType loc element length
  | .NonScalarTensorType loc indexSets blockType transposed =>
    match i with
    | 0 => .NonScalarTensorType loc (modifyElem g j indexSets) blockType transposed
    | 1 => .NonScalarTensorType loc indexSets (blockType.map g) transposed
    | _ => .NonScalarTensorType loc indexSets blockType transposed
  | .IdentDecl loc name type =>
    match i with
    | 0 => .IdentDecl loc (name.map g) type
    | 1 => .IdentDecl loc name (type.map g)
    | _ => .IdentDecl loc name type
  | .Field loc field =>
    match i with
    | 0 => .Field loc (field.map g)
    | _ => .Field loc field
  | .ElementTypeDecl loc name fields =>
    match i with
    | 0 => .ElementTypeDecl loc (name.map g) fields
    | 1 => .ElementTypeDecl loc name (modifyElem g j fields)
    | _ => .ElementTypeDecl loc name fields
  | .Argument loc name type inout =>
    match i with
    | 0 => .Argument loc (name.map g) type inout
    | 1 => .Argument loc name (type.map g) inout
    | _ => .Argument loc name type inout
  | .ExternDecl loc var =>
    match i with
    | 0 => .ExternDecl loc (var.map g)
    | _ => .ExternDecl loc var
  | .FuncDecl loc name args results body =>
    match i with
    | 0 => .FuncDecl loc (name.map g) args results body
    | 1 => .FuncDecl loc name (modifyElem g j args) results body
    | 2 => .FuncDecl loc name args (modifyElem g j results) body
    | 3 => .FuncDecl loc name args results (body.map g)
    | _ => .FuncDecl loc name args results body
  | .ProcDecl loc name args results body =>
    match i with
    | 0 => .ProcDecl loc (name.map g) args results body
    | 1 => .ProcDecl loc name (modifyElem g j args) results body
    | 2 => .ProcDecl loc name args (modifyElem g j results) body
    | 3 => .ProcDecl loc name args results (body.map g)
    | _ => .ProcDecl loc name args results body
  | .VarDecl loc var initVal =>
    match i with
    | 0 => .VarDecl loc (var.map g) initVal
    | 1 => .VarDecl loc var (initVal.map g)
    | _ => .VarDecl loc var initVal
  | .ConstDecl loc var initVal =>
    match i with
    | 0 => .ConstDecl loc (var.map g) initVal
    | 1 => .ConstDecl loc var (initVal.map g)
    | _ => .ConstDecl loc var initVal
  | .WhileStmt loc cond body =>
    match i with
    | 0 => .WhileStmt loc (cond.map g) body
    | 1 => .WhileStmt loc cond (body.map g)
    | _ => .WhileStmt loc cond body
  | .DoWhileStmt loc cond body =>
    match i with
    | 0 => .DoWhileStmt loc (cond.map g) body
    | 1 => .DoWhileStmt loc cond (body.map g)
    | _ => .DoWhileStmt loc cond body
  | .IfStmt loc cond ifBody elseBody =>
    match i with
    | 0 => .IfStmt loc (cond.map g) ifBody elseBody
    | 1 => .IfStmt loc cond (ifBody.map g) elseBody
    | 2 => .IfStmt loc cond ifBody (elseBody.map g)
    | _ => .IfStmt loc cond ifBody elseBody
  | .IndexSetDomain loc set =>
    match i with
    | 0 => .IndexSetDomain loc (set.map g)
    | _ => .IndexSetDomain loc set
  | .RangeDomain loc lower upper =>
    match i with
    | 0 => .RangeDomain loc (lower.map g) upper
    | 1 => .RangeDomain loc lower (upper.map g)
    | _ => .RangeDomain loc lower upper
  | .ForStmt loc loopVar domain body =>
    match i with
    | 0 => .ForStmt loc (loopVar.map g) domain body
    | 1 => .ForStmt loc loopVar (domain.map g) body
    | 2 => .ForStmt loc loopVar domain (body.map g)
    | _ => .ForStmt loc loopVar domain body
  | .PrintStmt loc expr =>
    match i with
    | 0 => .PrintStmt loc (expr.map g)
    | _ => .PrintStmt loc expr
  | .ExprStmt loc expr =>
    match i with
    | 0 => .ExprStmt loc (expr.map g)
    | _ => .ExprStmt loc expr
  | .AssignStmt loc expr lhs =>
    match i with
    | 0 => .AssignStmt loc (expr.map g) lhs
    | 1 => .AssignStmt loc expr (modifyElem g j lhs)
    | _ => .AssignStmt loc expr lhs
  | .ExprParam loc expr =>
    match i with
    | 0 => .ExprParam loc (expr.map g)
    | _ => .ExprParam loc expr
  | .MapExpr loc type func partialActuals target op =>
    match i with
    | 0 => .MapExpr loc type (func.map g) partialActuals target op
    | 1 => .MapExpr loc type func (modifyElem g j partialActuals) target op
    | 2 => .MapExpr loc type func partialActuals (target.map g) op
    | _ => .MapExpr loc type func partialActuals target op
  | .OrExpr loc type lhs rhs =>
    match i with
    | 0 => .OrExpr loc type (lhs.map g) rhs
    | 1 => .OrExpr loc type lhs (rhs.map g)
    | _ => .OrExpr loc type lhs rhs
  | .AndExpr loc type lhs rhs =>
    match i with
    | 0 => .AndExpr loc type (lhs.map g) rhs
    | 1 => .AndExpr loc type lhs (rhs.map g)
    | _ => .AndExpr loc type lhs rhs
  | .XorExpr loc type lhs rhs =>
    match i with
    | 0 => .XorExpr loc type (lhs.map g) rhs
    | 1 => .XorExpr loc type lhs (rhs.map g)
    | _ => .XorExpr loc type lhs rhs
  | .EqExpr loc type operands ops =>
    match i with
    | 0 => .EqExpr loc type (modifyElem g j operands) ops
    | _ => .EqExpr loc type operands ops
  | .NotExpr loc type operand =>
    match i with
    | 0 => .NotExpr loc type (operand.map g)
    | _ => .NotExpr loc type operand
  | .AddExpr loc type lhs rhs =>
    match i with
    | 0 => .AddExpr loc type (lhs.map g) rhs
    | 1 => .AddExpr loc type lhs (rhs.map g)
    | _ => .AddExpr loc type lhs rhs
  | .SubExpr loc type lhs rhs =>
    match i with
    | 0 => .SubExpr loc type (lhs.map g) rhs
    | 1 => .SubExpr loc type lhs (rhs.map g)
    | _ => .SubExpr loc type lhs rhs
  | .MulExpr loc type lhs rhs =>
    match i with
    | 0 => .MulExpr loc type (lhs.map g) rhs
    | 1 => .MulExpr loc type lhs (rhs.map g)
    | _ => .MulExpr loc type lhs rhs
  | .DivExpr loc type lhs rhs =>
    match i with
    | 0 => .DivExpr loc type (lhs.map g) rhs
    | 1 => .DivExpr loc type lhs (rhs.map g)
    | _ => .DivExpr loc type lhs rhs
  | .ElwiseMulExpr loc type lhs rhs =>
    match i with
    | 0 => .ElwiseMulExpr loc type (lhs.map g) rhs
    | 1 => .ElwiseMulExpr loc type lhs (rhs.map g)
    | _ => .ElwiseMulExpr loc type lhs rhs
  | .ElwiseDivExpr loc type lhs rhs =>
    match i with
    | 0 => .ElwiseDivExpr loc type (lhs.map g) rhs
    | 1 => .ElwiseDivExpr loc type lhs (rhs.map g)
    | _ => .ElwiseDivExpr loc type lhs rhs
  | .NegExpr loc type operand negate =>
    match i with
    | 0 => .NegExpr loc type (operand.map g) negate
    | _ => .NegExpr loc type operand negate
  | .ExpExpr loc type lhs rhs =>
    match i with
    | 0 => .ExpExpr loc type (lhs.map g) rhs
    | 1 => .ExpExpr loc type lhs (rhs.map g)
    | _ => .ExpExpr loc type lhs rhs
  | .TransposeExpr loc type operand =>
    match i with
    | 0 => .TransposeExpr loc type (operand.map g)
    | _ => .TransposeExpr loc type operand
  | .CallExpr loc type operands func =>
    match i with
    | 0 => .CallExpr loc type (modifyElem g j operands) func
    | 1 => .CallExpr loc type operands (func.map g)
    | _ => .CallExpr loc type operands func
  | .TensorReadExpr loc type tensor indices =>
    match i with
    | 0 => .TensorReadExpr loc type (tensor.map g) indices
    | 1 => .TensorReadExpr loc type tensor (modifyElem g j indices)
    | _ => .TensorReadExpr loc type tensor indices
  | .TupleReadExpr loc type tuple index =>
    match i with
    | 0 => .TupleReadExpr loc type (tuple.map g) index
    | 1 => .TupleReadExpr loc type tuple (index.map g)
    | _ => .TupleReadExpr loc type tuple index
  | .FieldReadExpr loc type setOrElem field =>
    match i with
    | 0 => .FieldReadExpr loc type (setOrElem.map g) field
    | 1 => .FieldReadExpr loc type setOrElem (field.map g)
    | _ => .FieldReadExpr loc type setOrElem field
  | .ParenExpr loc type expr =>
    match i with
    | 0 => .ParenExpr loc type (expr.map g)
    | _ => .ParenExpr loc type expr
  | .DenseNDTensor loc elems =>
    match i with
    | 0 => .DenseNDTensor loc (modifyElem g j elems)
    | _ => .DenseNDTensor loc elems
  | .DenseTensorLiteral loc type tensor transposed =>
    match i with
    | 0 => .DenseTensorLiteral loc type (tensor.map g) transposed
    | _ => .DenseTensorLiteral loc type tensor transposed
  | .Test loc func args expected =>
    match i with
    | 0 => .Test loc (func.map g) args expected
    | 1 => .Test loc func (modifyElem g j args) expected
    | 2 => .Test loc func args (expected.map g)
    | _ => .Test loc func args expected
  | n => n

/-- A position in a tree: the steps `(i, j)` to take from the root, each to the child `childAt i j`
of the node reached so far. -/
abbrev Path := List (Nat × Nat)

/-- The node at a position of the tree `n`, if there is one. -/
def nodeAt : Path → HIRNode → Option HIRNode
  | [], n => some n
  | (i, j) :: rest, n =>
    match childAt i j n with
    | none => none
    | some c => nodeAt rest c

/-- The tree `n` after `e->type.push_back(t)` on the node `e` at the given position. -/
def type_push_back_at (t : IRType) : Path → HIRNode → HIRNode
  | [], n => type_push_back t n
  | (i, j) :: rest, n => modifyChild i j (type_push_back_at t rest) n

/-! ## Well-formed trees -/

/-- Whether the vector is non-empty and its first element is present. -/
def frontPresent : List (Option HIRNode) → Bool
  | [] => false
  | p :: _ => p.isSome

/-- Whether the vector is non-empty and its last element is present. -/
def backPresent : List (Option HIRNode) → Bool
  | [] => false
  | [p] => p.isSome
  | _ :: q :: rest => backPresent (q :: rest)

/-- The conditions on one node: every child that a span accessor of its class delegates to is
present; an `AssignStmt` has a non-empty `lhs`, an `EqExpr` a non-empty operand list; an `IfStmt`
has an else body or a non-zero stored end line; a `MapExpr` with `op = NONE` has a target. -/
def delegatesPresent : HIRNode → Bool
  | .IdentDecl _ name type | .Argument _ name type _ => name.isSome && type.isSome
  | .Field _ field => field.isSome
  | .DoWhileStmt _ cond _ => cond.isSome
  | .IfStmt loc _ _ elseBody => elseBody.isSome || decide (loc.lineEnd ≠ 0)
  | .IndexSetDomain _ set => set.isSome
  | .RangeDomain _ lower upper => lower.isSome && upper.isSome
  | .ExprStmt _ expr => expr.isSome
  | .AssignStmt _ _ lhs => frontPresent lhs
  | .ExprParam _ expr => expr.isSome
  | .MapExpr _ _ _ _ target op =>
    match op with
    | .NONE => target.isSome
    | .SUM => true
  | .OrExpr _ _ lhs rhs | .AndExpr _ _ lhs rhs | .XorExpr _ _ lhs rhs | .AddExpr _ _ lhs rhs
    | .SubExpr _ _ lhs rhs | .MulExpr _ _ lhs rhs | .DivExpr _ _ lhs rhs
    | .ElwiseMulExpr _ _ lhs rhs | .ElwiseDivExpr _ _ lhs rhs | .ExpExpr _ _ lhs rhs =>
    lhs.isSome && rhs.isSome
  | .EqExpr _ _ operands _ => frontPresent operands && backPresent operands
  | .NotExpr _ _ operand | .NegExpr _ _ operand _ | .TransposeExpr _ _ operand => operand.isSome
  | .CallExpr _ _ _ func => func.isSome
  | .TensorReadExpr _ _ tensor _ => tensor.isSome
  | .TupleReadExpr _ _ tuple _ => tuple.isSome
  | .FieldReadExpr _ _ setOrElem field => setOrElem.isSome && field.isSome
  | .DenseTensorLiteral _ _ tensor _ => tensor.isSome
  | _ => true

mutual
/-- Whether the tree is well formed: `delegatesPresent` holds of the node and of every node
below it. -/
def wellFormed : HIRNode → Bool
  | .Program loc elems => delegatesPresent (.Program loc elems) && wellFormedList elems
  | .StmtBlock loc stmts => delegatesPresent (.StmtBlock loc stmts) && wellFormedList stmts
  | .RangeIndexSet loc range => delegatesPresent (.RangeIndexSet loc range)
  | .SetIndexSet loc setName => delegatesPresent (.SetIndexSet loc setName)
  | .DynamicIndexSet loc => delegatesPresent (.DynamicIndexSet loc)
  | .ElementType loc ident => delegatesPresent (.ElementType loc ident)
  | .Endpoint loc setName => delegatesPresent (.Endpoint loc setName)
  | .SetType loc element endpoints =>
    delegatesPresent (.SetType loc element endpoints) && wellFormedPtr element &&
      wellFormedList endpoints
  | .TupleLength loc val => delegatesPresent (.TupleLength loc val)
  | .TupleType loc element length =>
    delegatesPresent (.TupleType loc element length) && wellFormedPtr element &&
      wellFormedPtr length
  | .ScalarTensorType loc type => delegatesPresent (.ScalarTensorType loc type)
  | .NonScalarTensorType loc indexSets blockType transposed =>
    delegatesPresent (.NonScalarTensorType loc indexSets blockType transposed) &&
      wellFormedList indexSets && wellFormedPtr blockType
  | .Identifier loc ident => delegatesPresent (.Identifier loc ident)
  | .IdentDecl loc name type =>
    delegatesPresent (.IdentDecl loc name type) && wellFormedPtr name && wellFormedPtr type
  | .Field loc field => delegatesPresent (.Field loc field) && wellFormedPtr field
  | .ElementTypeDecl loc name fields =>
    delegatesPresent (.ElementTypeDecl loc name fields) && wellFormedPtr name &&
      wellFormedList fields
  | .Argument loc name type inout =>
    delegatesPresent (.Argument loc name type inout) && wellFormedPtr name && wellFormedPtr type
  | .ExternDecl loc var => delegatesPresent (.ExternDecl loc var) && wellFormedPtr var
  | .FuncDecl loc name args results body =>
    delegatesPresent (.FuncDecl loc name args results body) && wellFormedPtr name &&
      wellFormedList args && wellFormedList results && wellFormedPtr body
  | .ProcDecl loc name args results body =>
    delegatesPresent (.ProcDecl loc name args results body) && wellFormedPtr name &&
      wellFormedList args && wellFormedList results && wellFormedPtr body
  | .VarDecl loc var initVal =>
    delegatesPresent (.VarDecl loc var initVal) && wellFormedPtr var && wellFormedPtr initVal
  | .ConstDecl loc var initVal =>
    delegatesPresent (.ConstDecl loc var initVal) && wellFormedPtr var && wellFormedPtr initVal
  | .WhileStmt loc cond body =>
    delegatesPresent (.WhileStmt loc cond body) && wellFormedPtr cond && wellFormedPtr body
  | .DoWhileStmt loc cond body =>
    delegatesPresent (.DoWhileStmt loc cond body) && wellFormedPtr cond && wellFormedPtr body
  | .IfStmt loc cond ifBody elseBody =>
    delegatesPresent (.IfStmt loc cond ifBody elseBody) && wellFormedPtr cond &&
      wellFormedPtr ifBody && wellFormedPtr elseBody
  | .IndexSetDomain loc set => delegatesPresent (.IndexSetDomain loc set) && wellFormedPtr set
  | .RangeDomain loc lower upper =>
    delegatesPresent (.RangeDomain loc lower upper) && wellFormedPtr lower && wellFormedPtr upper
  | .ForStmt loc loopVar domain body =>
    delegatesPresent (.ForStmt loc loopVar domain body) && wellFormedPtr loopVar &&
      wellFormedPtr domain && wellFormedPtr body
  | .PrintStmt loc expr => delegatesPresent (.PrintStmt loc expr) && wellFormedPtr expr
  | .ExprStmt loc expr => delegatesPresent (.ExprStmt loc expr) && wellFormedPtr expr
  | .AssignStmt loc expr lhs =>
    delegatesPresent (.AssignStmt loc expr lhs) && wellFormedPtr expr && wellFormedList lhs
  | .Slice loc => delegatesPresent (.Slice loc)
  | .ExprParam loc expr => delegatesPresent (.ExprParam loc expr) && wellFormedPtr expr
  | .MapExpr loc type func partialActuals target op =>
    delegatesPresent (.MapExpr loc type func partialActuals target op) && wellFormedPtr func &&
      wellFormedList partialActuals && wellFormedPtr target
  | .OrExpr loc type lhs rhs =>
    delegatesPresent (.OrExpr loc type lhs rhs) && wellFormedPtr lhs && wellFormedPtr rhs
  | .AndExpr loc type lhs rhs =>
    delegatesPresent (.AndExpr loc type lhs rhs) && wellFormedPtr lhs && wellFormedPtr rhs
  | .XorExpr loc type lhs rhs =>
    delegatesPresent (.XorExpr loc type lhs rhs) && wellFormedPtr lhs && wellFormedPtr rhs
  | .EqExpr loc type operands ops =>
    delegatesPresent (.EqExpr loc type operands ops) && wellFormedList operands
  | .NotExpr loc type operand =>
    delegatesPresent (.NotExpr loc type operand) && wellFormedPtr operand
  | .AddExpr loc type lhs rhs =>
    delegatesPresent (.AddExpr loc type lhs rhs) && wellFormedPtr lhs && wellFormedPtr rhs
  | .SubExpr loc type lhs rhs =>
    delegatesPresent (.SubExpr loc type lhs rhs) && wellFormedPtr lhs && wellFormedPtr rhs
  | .MulExpr loc type lhs rhs =>
    delegatesPresent (.MulExpr loc type lhs rhs) && wellFormedPtr lhs && wellFormedPtr rhs
  | .DivExpr loc type lhs rhs =>
    delegatesPresent (.DivExpr loc type lhs rhs) && wellFormedPtr lhs && wellFormedPtr rhs
  | .ElwiseMulExpr loc type lhs rhs =>
    delegatesPresent (.ElwiseMulExpr loc type lhs rhs) && wellFormedPtr lhs && wellFormedPtr rhs
  | .ElwiseDivExpr loc type lhs rhs =>
    delegatesPresent (.ElwiseDivExpr loc type lhs rhs) && wellFormedPtr lhs && wellFormedPtr rhs
  | .NegExpr loc type operand negate =>
    delegatesPresent (.NegExpr loc type operand negate) && wellFormedPtr operand
  | .ExpExpr loc type lhs rhs =>
    delegatesPresent (.ExpExpr loc type lhs rhs) && wellFormedPtr lhs && wellFormedPtr rhs
  | .TransposeExpr loc type operand =>
    delegatesPresent (.TransposeExpr loc type operand) && wellFormedPtr operand
  | .CallExpr loc type operands func =>
    delegatesPresent (.CallExpr loc type operands func) && wellFormedList operands &&
      wellFormedPtr func
  | .TensorReadExpr loc type tensor indices =>
    delegatesPresent (.TensorReadExpr loc type tensor indices) && wellFormedPtr tensor &&
      wellFormedList indices
  | .TupleReadExpr loc type tuple index =>
    delegatesPresent (.TupleReadExpr loc type tuple index) && wellFormedPtr tuple &&
      wellFormedPtr index
  | .FieldReadExpr loc type setOrElem field =>
    delegatesPresent (.FieldReadExpr loc type setOrElem field) && wellFormedPtr setOrElem &&
      wellFormedPtr field
  | .ParenExpr loc type expr => delegatesPresent (.ParenExpr loc type expr) && wellFormedPtr expr
  | .VarExpr loc type ident => delegatesPresent (.VarExpr loc type ident)
  | .IntLiteral loc type val => delegatesPresent (.IntLiteral loc type val)
  | .FloatLiteral loc type val => delegatesPresent (.FloatLiteral loc type val)
  | .BoolLiteral loc type val => delegatesPresent (.BoolLiteral loc type val)
  | .DenseIntVector loc vals => delegatesPresent (.DenseIntVector loc vals)
  | .DenseFloatVector loc vals => delegatesPresent (.DenseFloatVector loc vals)
  | .DenseNDTensor loc elems =>
    delegatesPresent (.DenseNDTensor loc elems) && wellFormedList elems
  | .DenseTensorLiteral loc type tensor transposed =>
    delegatesPresent (.DenseTensorLiteral loc type tensor transposed) && wellFormedPtr tensor
  | .Test loc func args expected =>
    delegatesPresent (.Test loc func args expected) && wellFormedPtr func && wellFormedList args &&
      wellFormedPtr expected

/-- A pointer: null, or pointing to a well-formed tree. -/
def wellFormedPtr : Option HIRNode → Bool
  | none => true
  | some n => wellFormed n

/-- A vector of pointers, each null or pointing to a well-formed tree. -/
def wellFormedList : List (Option HIRNode) → Bool
  | [] => true
  | p :: rest => wellFormedPtr p && wellFormedList rest
end

/-- The accessor call returns a value: it runs into no null pointer and no empty vector. -/
abbrev ReturnsValue (r : Except Fault Nat) : Prop := ∃ v, r = .ok v

/-- All four span accessors of `n` return a value. -/
abbrev SpanDefined (n : HIRNode) : Prop :=
  ReturnsValue (getLineBegin n) ∧ ReturnsValue (getColBegin n) ∧
    ReturnsValue (getLineEnd n) ∧ ReturnsValue (getColEnd n)

/-! ## Pointers as references into a store -/

/-- The address of an object. -/
abbrev Addr := Nat

/-- The store: the object living at each address, if any. The members of an object are kept as
in `HIRNode`. -/
abbrev Store := Addr → Option HIRNode

/-- A `std::shared_ptr` seen as a reference: the address of the object it points to, `none`
for the null pointer. Two references are the same pointer exactly when they hold the same
address; a copy of an object lives at another address. -/
abbrev Ref := Option Addr

/-- The pointer `r` as `Ptr`: the object it points to in the store. -/
def Store.deref (s : Store) : Ref → Ptr
  | none => none
  | some a => s a

/-- The store after the write `w` to the object that `r` points to: only the object at the
address held by `r` changes. -/
def Store.writeThrough (s : Store) (r : Ref) (w : HIRNode → HIRNode) : Store :=
  match r with
  | none => s
  | some a => fun b => if b = a then (s a).map w else s b

/-- The function `std::dynamic_pointer_cast<T>(ptr)` on references: a pointer to the same
object, at the same address, when `ptr` is non-null and the dynamic type of its object is `T`
or derives from `T`, the null pointer otherwise. -/
def dynamic_pointer_cast_ref (s : Store) (T : NodeClass) (ptr : Ref) : Ref :=
  match s.deref ptr with
  | none => none
  | some n => if derivesFrom (classOf n) T then ptr else none

/-- The function `std::static_pointer_cast<T>(ptr)` on references: a pointer to the same
object, at the same address. -/
def static_pointer_cast_ref (_T : NodeClass) (ptr : Ref) : Ref := ptr

/-- The template `isa<T>(ptr)` on references. -/
def isa_ref (s : Store) (T : NodeClass) (ptr : Ref) : Bool :=
  (dynamic_pointer_cast_ref s T ptr).isSome

/-- The template `to<T>(ptr)` on references: asserts `isa<T>(ptr)`, then returns the pointer
statically cast. It allocates nothing and leaves the store as it is. -/
def to_ref (s : Store) (T : NodeClass) (ptr : Ref) : Except String Ref := do
  iassert (isa_ref s T ptr) "wrong type"
  pure (static_pointer_cast_ref T ptr)

/-! ## Example trees -/

/-- An `Argument` object `x : int` with its `inout` flag set. -/
def argumentNode : HIRNode :=
  .Argument ⟨0, 0, 0, 0⟩ (some (.Identifier ⟨1, 1, 1, 1⟩ "x"))
    (some (.ScalarTensorType ⟨1, 5, 1, 7⟩ .INT)) true

/-- The variable `abc` spanning (1,1)-(1,3). -/
def lhsVar : HIRNode := .VarExpr ⟨1, 1, 1, 3⟩ [] "abc"

/-- The variable `xyz` spanning (1,7)-(1,9). -/
def rhsVar : HIRNode := .VarExpr ⟨1, 7, 1, 9⟩ [] "xyz"

/-- The sum `abc + xyz`, on which an unrelated span (5,5)-(6,6) is stored. -/
def addNode : HIRNode := .AddExpr ⟨5, 5, 6, 6⟩ [] (some lhsVar) (some rhsVar)

/-- The variable `a` at (2,1). -/
def opA : HIRNode := .VarExpr ⟨2, 1, 2, 1⟩ [] "a"

/-- The variable `b` at (2,5). -/
def opB : HIRNode := .VarExpr ⟨2, 5, 2, 5⟩ [] "b"

/-- The variable `c` at (2,10). -/
def opC : HIRNode := .VarExpr ⟨2, 10, 2, 10⟩ [] "c"

/-- The chained comparison `a < b <= c`, with no span stored on the node itself. -/
def eqNode : HIRNode := .EqExpr ⟨0, 0, 0, 0⟩ [] [some opA, some opB, some opC] [.LT, .LE]

/-- The variable `x` at (3,1). -/
def tgtX : HIRNode := .VarExpr ⟨3, 1, 3, 1⟩ [] "x"

/-- The variable `y` at (3,4). -/
def tgtY : HIRNode := .VarExpr ⟨3, 4, 3, 4⟩ [] "y"

/-- The call `f()` spanning (3,8)-(3,10). -/
def callF : HIRNode := .CallExpr ⟨3, 8, 3, 10⟩ [] [] (some (.Identifier ⟨3, 8, 3, 8⟩ "f"))

/-- The assignment `x, y = f()`. -/
def assignNode : HIRNode := .AssignStmt ⟨0, 0, 3, 11⟩ (some callF) [some tgtX, some tgtY]

/-- The target set `verts` of a map, spanning (4,12)-(4,16). -/
def mapTarget : HIRNode := .Identifier ⟨4, 12, 4, 16⟩ "verts"

/-- The map `map f to verts` without reduction, on which the end span (5,30) is stored. -/
def mapNoneNode : HIRNode :=
  .MapExpr ⟨4, 1, 5, 30⟩ [] (some (.Identifier ⟨4, 5, 4, 5⟩ "f")) [] (some mapTarget) .NONE

/-- The map `map f to verts reduce +` on which no end span is stored. -/
def mapSumNode : HIRNode :=
  .MapExpr ⟨4, 1, 0, 0⟩ [] (some (.Identifier ⟨4, 5, 4, 5⟩ "f")) [] (some mapTarget) .SUM

/-- The map `map f to verts reduce +` on which the end span (4,25) of the `+` is stored. -/
def mapSumEndNode : HIRNode :=
  .MapExpr ⟨4, 1, 4, 25⟩ [] (some (.Identifier ⟨4, 5, 4, 5⟩ "f")) [] (some mapTarget) .SUM

/-- An empty statement block spanning (8,1)-(9,3), used as an else body. -/
def elseBlock : HIRNode := .StmtBlock ⟨8, 1, 9, 3⟩ []

/-- An `if` with an else body and no end span stored. -/
def ifElseNode : HIRNode :=
  .IfStmt ⟨6, 1, 0, 0⟩ (some (.BoolLiteral ⟨6, 4, 6, 7⟩ [] true))
    (some (.StmtBlock ⟨6, 9, 7, 3⟩ [])) (some elseBlock)

/-- An `if` without else body on which the end span (7,3) is stored. -/
def ifEndNode : HIRNode :=
  .IfStmt ⟨6, 1, 7, 3⟩ (some (.BoolLiteral ⟨6, 4, 6, 7⟩ [] true))
    (some (.StmtBlock ⟨6, 9, 7, 3⟩ [])) none

/-- An `if` without else body and with no end span stored. -/
def ifBareNode : HIRNode :=
  .IfStmt ⟨6, 1, 0, 0⟩ (some (.BoolLiteral ⟨6, 4, 6, 7⟩ [] true))
    (some (.StmtBlock ⟨6, 9, 7, 3⟩ [])) none

/-- A token spanning (2,3)-(2,7). -/
def sampleToken : Token := ⟨2, 3, 2, 7⟩

/-- A freshly built identifier `v`, with the span (0,0)-(0,0) of the `HIRNode` constructor. -/
def identNode : HIRNode := .Identifier ⟨0, 0, 0, 0⟩ "v"

/-- The sum `abc + xyz` on which no span has been stored. -/
def sumNoSpan : HIRNode := .AddExpr ⟨0, 0, 0, 0⟩ [] (some lhsVar) (some rhsVar)

/-- A `do`-`while` loop with condition `xyz`. -/
def doWhileNode : HIRNode := .DoWhileStmt ⟨1, 1, 3, 3⟩ (some rhsVar) none

/-- The tree `(a + b) * (b - c)` with arbitrary spans stored on its three operator nodes. -/
def nestedTree : HIRNode :=
  .MulExpr ⟨9, 9, 9, 9⟩ [] (some (.AddExpr ⟨7, 7, 7, 7⟩ [] (some opA) (some opB)))
    (some (.SubExpr ⟨8, 8, 8, 8⟩ [] (some opB) (some opC)))

/-- The tree `(a + b) * (b - c)` with no span stored on its operator nodes. -/
def nestedTreeNoSpans : HIRNode :=
  .MulExpr ⟨0, 0, 0, 0⟩ [] (some (.AddExpr ⟨0, 0, 0, 0⟩ [] (some opA) (some opB)))
    (some (.SubExpr ⟨0, 0, 0, 0⟩ [] (some opB) (some opC)))

/-- The expression statement `abc + xyz;`, whose sum has (5,5)-(6,6) stored. -/
def stmtTree : HIRNode := .ExprStmt ⟨0, 0, 1, 10⟩ (some addNode)

/-- The position of `xyz` in `stmtTree`: the expression of the statement, then its `rhs`. -/
def xyzPath : Path := [(0, 0), (1, 0)]

/-- A resolved type. -/
def intType : IRType := ⟨1⟩

/-- The program `func main(x : int) x, y = f(); if true ... end; abc + xyz; end`: one function
whose body holds an assignment, an `if` without else body that has its end stored, and an
expression statement. -/
def programTree : HIRNode :=
  .Program ⟨0, 0, 0, 0⟩
    [some (.FuncDecl ⟨1, 1, 9, 3⟩ (some (.Identifier ⟨1, 6, 1, 9⟩ "main")) [some argumentNode] []
      (some (.StmtBlock ⟨1, 20, 9, 3⟩ [some assignNode, some ifEndNode, some stmtTree])))]

/-- The position of the `if` statement in `programTree`: first element of the program, body of
the function, second statement of the block. -/
def ifPath : Path := [(0, 0), (3, 0), (0, 1)]

/-- A store holding the argument `x : int` at address 7 and a copy of it at address 8. -/
def sampleStore : Store := fun a =>
  if a = 7 then some argumentNode else if a = 8 then some argumentNode else none

/-! ## Lemmas on the class hierarchy and the casts -/

theorem derivesFromAux_self (fuel : Nat) (D : NodeClass) : derivesFromAux fuel D D = true := by
  cases fuel <;> simp [derivesFromAux]

theorem derivesFrom_self (D : NodeClass) : derivesFrom D D = true :=
  derivesFromAux_self 75 D

theorem isa_some (T : NodeClass) (n : HIRNode) : isa T (some n) = derivesFrom (classOf n) T := by
  unfold isa dynamic_pointer_cast
  cases h : derivesFrom (classOf n) T <;> simp [h]

theorem to_some (T : NodeClass) (n : HIRNode) :
    to_ T (some n) =
      if derivesFrom (classOf n) T = true then .ok (some n) else .error "wrong type" := by
  unfold to_ iassert static_pointer_cast
  rw [isa_some]
  cases h : derivesFrom (classOf n) T <;> rfl

theorem derivesFrom_concrete_iff (V W : NodeClass) (hW : W.isConcrete = true) (hne : W ≠ V) :
    derivesFrom V W = true ↔ (V, W) ∈ concreteBasePairs := by
  cases V <;>
    simp only [derivesFrom, derivesFromAux, NodeClass.base, concreteBasePairs, Bool.or_eq_true,
      beq_iff_eq, List.mem_cons, Prod.mk.injEq, List.mem_singleton, Bool.or_false,
      List.not_mem_nil, or_false, false_and, false_or, true_and, reduceCtorEq] <;>
    (constructor <;> intro h <;> (try rcases h with rfl | rfl | rfl | rfl) <;>
      simp_all [NodeClass.isConcrete])

/-! ## Visitor dispatch (C1) -/

/-- C1. For every node `n`, whose class `classOf n` is then one of the instantiable ones,
`n.accept(visitor)` succeeds and its whole effect is that of the single visitor operation
declared for `classOf n`, applied to the pointer to `n` itself. On the recording visitor the
log of the call is exactly that one invocation: no operation of a base or derived class and
no operation on a child of `n` is invoked by `accept`. -/
theorem accept_invokes_own_visit {σ : Type} (n : HIRNode) (visitor : HIRVisitor σ) (s : σ) :
    (classOf n).isConcrete = true ∧
    accept n visitor s = .ok (visitor.visit (classOf n) (some n) s) ∧
    accept n recorder [] = .ok [(classOf n, some n)] := by
  cases n <;> exact ⟨rfl, rfl, rfl⟩

/-! ## Checked conversion (C2, C3) -/

/-- C2, as stated, fails: `Argument` and `IdentDecl` are distinct instantiable classes, yet on a
well-typed `Argument` object `isa<IdentDecl>` is true and `to<IdentDecl>` succeeds. -/
theorem to_IdentDecl_of_Argument_succeeds :
    wellTyped argumentNode = true ∧
    classOf argumentNode = .Argument ∧
    NodeClass.IdentDecl.isConcrete = true ∧
    NodeClass.IdentDecl ≠ classOf argumentNode ∧
    isa .IdentDecl (some argumentNode) = true ∧
    to_ .IdentDecl (some argumentNode) = .ok (some argumentNode) := by
  refine ⟨by decide, rfl, rfl, by decide, by decide, rfl⟩

/-- C2, amended. For a node `n` and an instantiable class `W` other than the class of `n`:
when `W` is no base of the class of `n`, that is for every pair outside
`(Argument, IdentDecl)`, `(ProcDecl, FuncDecl)`, `(ConstDecl, VarDecl)`,
`(DoWhileStmt, WhileStmt)`, `(AssignStmt, ExprStmt)`, `isa<W>(n)` is false and `to<W>(n)`
fails with "wrong type"; for these five pairs `isa<W>(n)` is true and `to<W>(n)` returns `n`. -/
theorem to_other_concrete_class (n : HIRNode) (W : NodeClass)
    (hW : W.isConcrete = true) (hne : W ≠ classOf n) :
    ((classOf n, W) ∉ concreteBasePairs →
      isa W (some n) = false ∧ to_ W (some n) = .error "wrong type") ∧
    ((classOf n, W) ∈ concreteBasePairs →
      isa W (some n) = true ∧ to_ W (some n) = .ok (some n)) := by
  have key := derivesFrom_concrete_iff (classOf n) W hW hne
  rw [isa_some, to_some]
  constructor
  · intro h
    have hd : derivesFrom (classOf n) W = false := by
      cases hc : derivesFrom (classOf n) W
      · rfl
      · exact absurd (key.mp hc) h
    simp [hd]
  · intro h
    simp [key.mpr h]

/-- C2, amended, on an `Argument` object: conversion to the unrelated class `VarDecl` fails,
conversion to its base class `IdentDecl` returns the object. -/
theorem to_other_concrete_class_witness :
    NodeClass.VarDecl.isConcrete = true ∧ NodeClass.VarDecl ≠ classOf argumentNode ∧
    (classOf argumentNode, NodeClass.VarDecl) ∉ concreteBasePairs ∧
    (isa .VarDecl (some argumentNode) = false ∧
      to_ .VarDecl (some argumentNode) = .error "wrong type") ∧
    (classOf argumentNode, NodeClass.IdentDecl) ∈ concreteBasePairs ∧
    (isa .IdentDecl (some argumentNode) = true ∧
      to_ .IdentDecl (some argumentNode) = .ok (some argumentNode)) :=
  ⟨rfl, by decide, by decide,
    (to_other_concrete_class argumentNode .VarDecl rfl (by decide)).1 (by decide),
    by decide,
    (to_other_concrete_class argumentNode .IdentDecl rfl (by decide)).2 (by decide)⟩

theorem isa_ref_eq (s : Store) (T : NodeClass) (ptr : Ref) :
    isa_ref s T ptr = isa T (s.deref ptr) := by
  unfold isa_ref dynamic_pointer_cast_ref isa dynamic_pointer_cast
  cases hd : s.deref ptr with
  | none => rfl
  | some n =>
    cases hc : derivesFrom (classOf n) T with
    | false => simp [hc]
    | true =>
      cases ptr with
      | none => exact absurd hd (by intro hn; cases hn)
      | some a => simp [hc]

theorem to_ref_deref (s : Store) (T : NodeClass) (ptr : Ref) :
    (to_ref s T ptr).map s.deref = to_ T (s.deref ptr) := by
  unfold to_ref to_ iassert static_pointer_cast_ref static_pointer_cast
  rw [isa_ref_eq]
  cases isa T (s.deref ptr) <;> rfl

theorem to_ref_own (s : Store) (a : Addr) (n : HIRNode) (h : s a = some n) :
    isa_ref s (classOf n) (some a) = true ∧
    to_ref s (classOf n) (some a) = .ok (some a) := by
  have hi : isa_ref s (classOf n) (some a) = true := by
    rw [isa_ref_eq]
    show isa (classOf n) (s a) = true
    rw [h, isa_some, derivesFrom_self]
  refine ⟨hi, ?_⟩
  unfold to_ref iassert static_pointer_cast_ref
  rw [hi]
  rfl

/-- C3. For every node `n` of the instantiable class `classOf n`, `isa<classOf n>(n)` is true
and `to<classOf n>(n)` succeeds and returns what it was given, so whatever `f` reads from the
result it reads from `n`. With pointers as references into a store, for every store and address
`a` holding `n`: `isa` is true of the pointer to `a` and `to` returns the pointer to the very
same address `a`, not to a copy at another address. The result `r` therefore points to `n`,
every write `w` through `r` is a write to `n` (reading through the original pointer afterwards
gives `w n`) and to nothing else, whereas a write through a pointer to any other address, a copy
of `n` included, is not seen through the pointer to `n`. -/
theorem to_own_class (n : HIRNode) :
    (classOf n).isConcrete = true ∧
    isa (classOf n) (some n) = true ∧
    to_ (classOf n) (some n) = .ok (some n) ∧
    (∀ {β : Type} (f : HIRNode → β),
      (to_ (classOf n) (some n)).map (Option.map f) = .ok (some (f n))) ∧
    (∀ (s : Store) (a : Addr), s a = some n →
      isa_ref s (classOf n) (some a) = true ∧
      to_ref s (classOf n) (some a) = .ok (some a) ∧
      (∀ r : Ref, to_ref s (classOf n) (some a) = .ok r →
        r = some a ∧
        s.deref r = some n ∧
        (∀ w : HIRNode → HIRNode,
          (s.writeThrough r w).deref (some a) = some (w n) ∧
          (∀ b : Addr, b ≠ a → (s.writeThrough r w) b = s b))) ∧
      (∀ (b : Addr) (w : HIRNode → HIRNode), b ≠ a →
        (s.writeThrough (some b) w).deref (some a) = some n)) := by
  have h1 : isa (classOf n) (some n) = true := by rw [isa_some, derivesFrom_self]
  have h2 : to_ (classOf n) (some n) = .ok (some n) := by
    rw [to_some, derivesFrom_self]; rfl
  refine ⟨?_, h1, h2, ?_, ?_⟩
  · cases n <;> rfl
  · intro β f
    rw [h2]; rfl
  · intro s a h
    have hown := to_ref_own s a n h
    refine ⟨hown.1, hown.2, ?_, ?_⟩
    · intro r hr
      rw [hown.2] at hr
      have hra : r = some a := by
        cases hr
        rfl
      subst hra
      refine ⟨rfl, h, ?_⟩
      intro w
      constructor
      · show (if a = a then (s a).map w else s a) = some (w n)
        rw [if_pos rfl, h]
        rfl
      · intro b hb
        show (if b = a then (s a).map w else s b) = s b
        rw [if_neg hb]
    · intro b w hb
      show (if a = b then (s b).map w else s a) = some n
      rw [if_neg (fun hab => hb hab.symm), h]

/-- C3 on a store with the argument `x : int` at address 7 and a copy of it at address 8:
`to<Argument>` of the pointer to 7 returns the pointer to 7, not the one to the copy; after
`setLoc` through the result the object at 7 has the new span and the copy at 8 is as before;
after `setLoc` through the pointer to the copy the object at 7 is as before. -/
theorem to_own_class_witness :
    sampleStore 7 = some argumentNode ∧ sampleStore 8 = some argumentNode ∧
    to_ref sampleStore .Argument (some 7) = .ok (some 7) ∧
    to_ref sampleStore .Argument (some 7) ≠ .ok (some 8) ∧
    (sampleStore.writeThrough (some 7) (setLoc sampleToken)).deref (some 7) =
      some (setLoc sampleToken argumentNode) ∧
    (sampleStore.writeThrough (some 7) (setLoc sampleToken)).deref (some 8) =
      some argumentNode ∧
    (sampleStore.writeThrough (some 8) (setLoc sampleToken)).deref (some 7) =
      some argumentNode ∧
    (setLoc sampleToken argumentNode).loc ≠ argumentNode.loc :=
  have h := (to_own_class argumentNode).2.2.2.2 sampleStore 7 rfl
  ⟨rfl, rfl, h.2.1, by decide,
    ((h.2.2.1 (some 7) h.2.1).2.2 (setLoc sampleToken)).1,
    (((h.2.2.1 (some 7) h.2.1).2.2 (setLoc sampleToken)).2 8 (by decide)).trans rfl,
    h.2.2.2 8 (setLoc sampleToken) (by decide), by decide⟩

/-! ## Lemmas on the span accessors -/

theorem binaryOperands_isSome (b : HIRNode) :
    (binaryOperands b).isSome = derivesFrom (classOf b) .BinaryExpr := by
  cases b <;> rfl

theorem getLineEnd_back_of_getLast (operands : List (Option HIRNode)) (last : HIRNode)
    (h : operands.getLast? = some (some last)) :
    getLineEnd_back operands = getLineEnd last := by
  induction operands with
  | nil => simp at h
  | cons x xs ih =>
    cases xs with
    | nil =>
      simp at h
      subst h
      rfl
    | cons y ys =>
      have hstep : getLineEnd_back (x :: y :: ys) = getLineEnd_back (y :: ys) := by
        cases x <;> rfl
      rw [hstep]
      apply ih
      simpa [List.getLast?_cons_cons] using h

theorem getColEnd_back_of_getLast (operands : List (Option HIRNode)) (last : HIRNode)
    (h : operands.getLast? = some (some last)) :
    getColEnd_back operands = getColEnd last := by
  induction operands with
  | nil => simp at h
  | cons x xs ih =>
    cases xs with
    | nil =>
      simp at h
      subst h
      rfl
    | cons y ys =>
      have hstep : getColEnd_back (x :: y :: ys) = getColEnd_back (y :: ys) := by
        cases x <;> rfl
      rw [hstep]
      apply ih
      simpa [List.getLast?_cons_cons] using h

/-! ## Derived spans of operators, comparisons and assignments (C4, C5, C6) -/

/-- C4. For every node `b` of one of the ten classes deriving from `BinaryExpr` whose `lhs` and
`rhs` are present, and whatever span is stored on `b` itself, the begin line and column of `b`
are those reported by `lhs` and the end line and column of `b` are those reported by `rhs`. -/
theorem binaryExpr_span (b lhs rhs : HIRNode)
    (hb : binaryOperands b = some (some lhs, some rhs)) :
    derivesFrom (classOf b) .BinaryExpr = true ∧
    getLineBegin b = getLineBegin lhs ∧ getColBegin b = getColBegin lhs ∧
    getLineEnd b = getLineEnd rhs ∧ getColEnd b = getColEnd rhs := by
  cases b <;> simp only [binaryOperands, Option.some.injEq, Prod.mk.injEq, reduceCtorEq] at hb
  all_goals
    obtain ⟨h1, h2⟩ := hb
    subst h1 h2
    exact ⟨rfl, rfl, rfl, rfl, rfl⟩

/-- C4 on `abc + xyz`: operands spanning (1,1)-(1,3) and (1,7)-(1,9) give (1,1)-(1,9), although
(5,5)-(6,6) is stored on the sum. -/
theorem binaryExpr_span_witness :
    binaryOperands addNode = some (some lhsVar, some rhsVar) ∧
    addNode.loc = ⟨5, 5, 6, 6⟩ ∧
    getLineBegin addNode = .ok 1 ∧ getColBegin addNode = .ok 1 ∧
    getLineEnd addNode = .ok 1 ∧ getColEnd addNode = .ok 9 :=
  have h := binaryExpr_span addNode lhsVar rhsVar rfl
  ⟨rfl, rfl, h.2.1.trans rfl, h.2.2.1.trans rfl, h.2.2.2.1.trans rfl, h.2.2.2.2.trans rfl⟩

/-- C5. For every `EqExpr` whose operand list is non-empty with first element `first` and last
element `last` present, the begin line and column are those reported by `first` and the end line
and column are those reported by `last`, whatever the `ops` list and the span stored on the
`EqExpr` are. -/
theorem eqExpr_span (loc : Loc) (type : List IRType) (operands : List (Option HIRNode))
    (ops : List Op) (first last : HIRNode)
    (hfirst : operands.head? = some (some first))
    (hlast : operands.getLast? = some (some last)) :
    getLineBegin (.EqExpr loc type operands ops) = getLineBegin first ∧
    getColBegin (.EqExpr loc type operands ops) = getColBegin first ∧
    getLineEnd (.EqExpr loc type operands ops) = getLineEnd last ∧
    getColEnd (.EqExpr loc type operands ops) = getColEnd last := by
  refine ⟨?_, ?_, ?_, ?_⟩
  · cases operands with
    | nil => simp at hfirst
    | cons x xs =>
      simp at hfirst
      subst hfirst
      rfl
  · cases operands with
    | nil => simp at hfirst
    | cons x xs =>
      simp at hfirst
      subst hfirst
      rfl
  · exact getLineEnd_back_of_getLast operands last hlast
  · exact getColEnd_back_of_getLast operands last hlast

/-- C5 on `a < b <= c`: operands `[a, b, c]` with ops `[LT, LE]`, one operator fewer than
operands, begin where `a` begins, (2,1), and end where `c` ends, (2,10). -/
theorem eqExpr_span_witness :
    [Op.LT, Op.LE].length = [some opA, some opB, some opC].length - 1 ∧
    getLineBegin eqNode = getLineBegin opA ∧ getColBegin eqNode = getColBegin opA ∧
    getLineEnd eqNode = getLineEnd opC ∧ getColEnd eqNode = getColEnd opC ∧
    getLineBegin eqNode = .ok 2 ∧ getColBegin eqNode = .ok 1 ∧
    getLineEnd eqNode = .ok 2 ∧ getColEnd eqNode = .ok 10 :=
  have h := eqExpr_span ⟨0, 0, 0, 0⟩ [] [some opA, some opB, some opC] [.LT, .LE] opA opC rfl rfl
  ⟨rfl, h.1, h.2.1, h.2.2.1, h.2.2.2, rfl, rfl, rfl, rfl⟩

/-- C6. For every `AssignStmt` whose `lhs` list is non-empty with first target `first` present,
the begin line and column are those reported by `first`; they are not taken from the right-hand
side expression `e`, so they differ from the begin of `e` whenever the begin of `first` does.
An `ExprStmt` proper begins where its expression begins. -/
theorem assignStmt_begin (loc : Loc) (expr : Option HIRNode) (lhs : List (Option HIRNode))
    (first : HIRNode) (hfirst : lhs.head? = some (some first)) :
    getLineBegin (.AssignStmt loc expr lhs) = getLineBegin first ∧
    getColBegin (.AssignStmt loc expr lhs) = getColBegin first ∧
    (∀ e, expr = some e → getLineBegin first ≠ getLineBegin e →
      getLineBegin (.AssignStmt loc expr lhs) ≠ getLineBegin e) ∧
    (∀ e, expr = some e → getColBegin first ≠ getColBegin e →
      getColBegin (.AssignStmt loc expr lhs) ≠ getColBegin e) ∧
    (∀ e, getLineBegin (.ExprStmt loc (some e)) = getLineBegin e ∧
      getColBegin (.ExprStmt loc (some e)) = getColBegin e) := by
  cases lhs with
  | nil => simp at hfirst
  | cons x xs =>
    simp at hfirst
    subst hfirst
    refine ⟨rfl, rfl, ?_, ?_, ?_⟩
    · intro e _ hne
      exact hne
    · intro e _ hne
      exact hne
    · intro e
      exact ⟨rfl, rfl⟩

/-- C6 on `x, y = f()`: the assignment begins at `x`, (3,1), not at `f()`, which begins at
(3,8); the expression statement `f()` begins at (3,8). -/
theorem assignStmt_begin_witness :
    assignNode = .AssignStmt ⟨0, 0, 3, 11⟩ (some callF) [some tgtX, some tgtY] ∧
    getLineBegin assignNode = .ok 3 ∧ getColBegin assignNode = .ok 1 ∧
    getColBegin callF = .ok 8 ∧
    getColBegin assignNode ≠ getColBegin callF ∧
    getColBegin (.ExprStmt ⟨0, 0, 3, 11⟩ (some callF)) = .ok 8 :=
  have h := assignStmt_begin ⟨0, 0, 3, 11⟩ (some callF) [some tgtX, some tgtY] tgtX rfl
  ⟨rfl, h.1.trans rfl, h.2.1.trans rfl, rfl, h.2.2.2.1 callF rfl (by decide),
    (h.2.2.2.2 callF).2.trans rfl⟩

/-! ## End span of `MapExpr` (C7, C8) -/

theorem getLineEnd_MapExpr (loc : Loc) (type : List IRType) (func : Option HIRNode)
    (partialActuals : List (Option HIRNode)) (target : Option HIRNode) (op : ReductionOp) :
    getLineEnd (.MapExpr loc type func partialActuals target op) =
      if op = ReductionOp.NONE then
        (match target with
          | none => .error .nullDeref
          | some p => getLineEnd p)
      else .ok loc.lineEnd := by
  cases target <;> rfl

theorem getColEnd_MapExpr (loc : Loc) (type : List IRType) (func : Option HIRNode)
    (partialActuals : List (Option HIRNode)) (target : Option HIRNode) (op : ReductionOp) :
    getColEnd (.MapExpr loc type func partialActuals target op) =
      if op = ReductionOp.NONE then
        (match target with
          | none => .error .nullDeref
          | some p => getColEnd p)
      else .ok loc.colEnd := by
  cases target <;> rfl

/-- C7. For every `MapExpr`: with `op = NONE` and the target `t` present, the end line and
column are those reported by `t`; with `op = SUM` they are the end line and column stored on the
`MapExpr` itself, whatever the target is. -/
theorem mapExpr_end (loc : Loc) (type : List IRType) (func : Option HIRNode)
    (partialActuals : List (Option HIRNode)) :
    (∀ t : HIRNode,
      getLineEnd (.MapExpr loc type func partialActuals (some t) .NONE) = getLineEnd t ∧
      getColEnd (.MapExpr loc type func partialActuals (some t) .NONE) = getColEnd t) ∧
    (∀ target : Option HIRNode,
      getLineEnd (.MapExpr loc type func partialActuals target .SUM) = .ok loc.lineEnd ∧
      getColEnd (.MapExpr loc type func partialActuals target .SUM) = .ok loc.colEnd) :=
  ⟨fun _ => ⟨rfl, rfl⟩, fun target => by cases target <;> exact ⟨rfl, rfl⟩⟩

/-- C7 on `map f to verts` (ends with `verts`, at (4,16)) and on `map f to verts reduce +` with
the end (4,25) stored (ends there). -/
theorem mapExpr_end_witness :
    getLineEnd (.MapExpr ⟨4, 1, 0, 0⟩ [] none [] (some mapTarget) .NONE) = .ok 4 ∧
    getColEnd (.MapExpr ⟨4, 1, 0, 0⟩ [] none [] (some mapTarget) .NONE) = .ok 16 ∧
    getLineEnd mapSumEndNode = .ok 4 ∧ getColEnd mapSumEndNode = .ok 25 :=
  have h := mapExpr_end ⟨4, 1, 0, 0⟩ [] none []
  have h' := mapExpr_end ⟨4, 1, 4, 25⟩ [] (some (.Identifier ⟨4, 5, 4, 5⟩ "f")) []
  ⟨((h.1 mapTarget).1).trans rfl, ((h.1 mapTarget).2).trans rfl,
    (h'.2 (some mapTarget)).1, (h'.2 (some mapTarget)).2⟩

/-- C8, as stated, fails: on a well-typed `MapExpr` with `op = NONE` the non-zero end span
(5,30) is stored, yet the end accessors report the end of the target, (4,16). -/
theorem mapExpr_stored_end_not_reported :
    wellTyped mapNoneNode = true ∧
    mapNoneNode.loc.lineEnd = 5 ∧ mapNoneNode.loc.colEnd = 30 ∧
    getLineEnd mapNoneNode = .ok 4 ∧ getColEnd mapNoneNode = .ok 16 ∧
    getLineEnd mapNoneNode ≠ .ok mapNoneNode.loc.lineEnd ∧
    getColEnd mapNoneNode ≠ .ok mapNoneNode.loc.colEnd := by
  refine ⟨by decide, rfl, rfl, rfl, rfl, by decide, by decide⟩

/-- C8, amended. For every `MapExpr` with its target `t` present, the end accessors are selected
by `op` alone and never by whether an end span is stored: with `op = SUM` they return the stored
end line and column, whatever these are (0 included, without falling back to the target); with
`op = NONE` they return the end reported by `t`, whatever is stored (a non-zero end included). -/
theorem mapExpr_end_selected_by_op (loc : Loc) (type : List IRType) (func : Option HIRNode)
    (partialActuals : List (Option HIRNode)) (t : HIRNode) (op : ReductionOp) :
    getLineEnd (.MapExpr loc type func partialActuals (some t) op) =
      (if op = ReductionOp.SUM then .ok loc.lineEnd else getLineEnd t) ∧
    getColEnd (.MapExpr loc type func partialActuals (some t) op) =
      (if op = ReductionOp.SUM then .ok loc.colEnd else getColEnd t) := by
  cases op <;> exact ⟨rfl, rfl⟩

/-- C8, amended, on `map f to verts reduce +` with no end span stored: the end accessors return
the stored (0,0) although the target ends at (4,16). -/
theorem mapExpr_end_selected_by_op_witness :
    wellTyped mapSumNode = true ∧ mapSumNode.loc.lineEnd = 0 ∧
    getLineEnd mapTarget = .ok 4 ∧ getColEnd mapTarget = .ok 16 ∧
    getLineEnd mapSumNode = .ok 0 ∧ getColEnd mapSumNode = .ok 0 :=
  have h := mapExpr_end_selected_by_op ⟨4, 1, 0, 0⟩ [] (some (.Identifier ⟨4, 5, 4, 5⟩ "f")) []
    mapTarget .SUM
  ⟨by decide, rfl, rfl, rfl, h.1, h.2⟩

/-! ## End span of `IfStmt` (C9, C10) -/

theorem getLineEnd_IfStmt (loc : Loc) (cond ifBody elseBody : Option HIRNode) :
    getLineEnd (.IfStmt loc cond ifBody elseBody) =
      if loc.lineEnd = 0 then
        (match elseBody with
          | none => .error .nullDeref
          | some p => getLineEnd p)
      else .ok loc.lineEnd := by
  cases elseBody <;> rfl

theorem getColEnd_IfStmt (loc : Loc) (cond ifBody elseBody : Option HIRNode) :
    getColEnd (.IfStmt loc cond ifBody elseBody) =
      if loc.lineEnd = 0 then
        (match elseBody with
          | none => .error .nullDeref
          | some p => getColEnd p)
      else .ok loc.colEnd := by
  cases elseBody <;> rfl

/-- C9. For every `IfStmt`: when the stored end line is non-zero, the end line and end column
are the stored ones, whether or not there is an else body; when the stored end line is 0 and the
else body `e` is present, they are the end line and end column reported by `e`. -/
theorem ifStmt_end (loc : Loc) (cond ifBody elseBody : Option HIRNode) :
    (loc.lineEnd ≠ 0 →
      getLineEnd (.IfStmt loc cond ifBody elseBody) = .ok loc.lineEnd ∧
      getColEnd (.IfStmt loc cond ifBody elseBody) = .ok loc.colEnd) ∧
    (loc.lineEnd = 0 → ∀ e : HIRNode, elseBody = some e →
      getLineEnd (.IfStmt loc cond ifBody elseBody) = getLineEnd e ∧
      getColEnd (.IfStmt loc cond ifBody elseBody) = getColEnd e) := by
  constructor
  · intro h
    rw [getLineEnd_IfStmt, getColEnd_IfStmt, if_neg h, if_neg h]
    exact ⟨rfl, rfl⟩
  · intro h e he
    subst he
    rw [getLineEnd_IfStmt, getColEnd_IfStmt, if_pos h, if_pos h]
    exact ⟨rfl, rfl⟩

/-- C9 on three `if` statements: end (7,3) stored and no else body gives (7,3); end (7,3) stored
and an else body ending at (9,3) gives (7,3); nothing stored and that else body gives (9,3). -/
theorem ifStmt_end_witness :
    getLineEnd ifEndNode = .ok 7 ∧ getColEnd ifEndNode = .ok 3 ∧
    getLineEnd (.IfStmt ⟨6, 1, 7, 3⟩ none none (some elseBlock)) = .ok 7 ∧
    getColEnd (.IfStmt ⟨6, 1, 7, 3⟩ none none (some elseBlock)) = .ok 3 ∧
    getLineEnd ifElseNode = .ok 9 ∧ getColEnd ifElseNode = .ok 3 :=
  have h1 := (ifStmt_end ⟨6, 1, 7, 3⟩ (some (.BoolLiteral ⟨6, 4, 6, 7⟩ [] true))
    (some (.StmtBlock ⟨6, 9, 7, 3⟩ [])) none).1 (by decide)
  have h2 := (ifStmt_end ⟨6, 1, 7, 3⟩ none none (some elseBlock)).1 (by decide)
  have h3 := (ifStmt_end ⟨6, 1, 0, 0⟩ (some (.BoolLiteral ⟨6, 4, 6, 7⟩ [] true))
    (some (.StmtBlock ⟨6, 9, 7, 3⟩ [])) (some elseBlock)).2 rfl elseBlock rfl
  ⟨h1.1, h1.2, h2.1, h2.2, h3.1.trans rfl, h3.2.trans rfl⟩

/-- C10. For every `IfStmt` without else body whose stored end line is 0, the end-line and the
end-column accessor both dereference the null `elseBody` and fail. Whenever the stored end line
is non-zero, both accessors succeed and their results do not depend on `elseBody`: they are the
same with any else body as with none. -/
theorem ifStmt_end_without_else (loc : Loc) (cond ifBody : Option HIRNode) :
    (loc.lineEnd = 0 →
      getLineEnd (.IfStmt loc cond ifBody none) = .error .nullDeref ∧
      getColEnd (.IfStmt loc cond ifBody none) = .error .nullDeref) ∧
    (loc.lineEnd ≠ 0 → ∀ elseBody : Option HIRNode,
      getLineEnd (.IfStmt loc cond ifBody elseBody) = getLineEnd (.IfStmt loc cond ifBody none) ∧
      getColEnd (.IfStmt loc cond ifBody elseBody) = getColEnd (.IfStmt loc cond ifBody none) ∧
      (∃ v, getLineEnd (.IfStmt loc cond ifBody none) = .ok v) ∧
      (∃ v, getColEnd (.IfStmt loc cond ifBody none) = .ok v)) := by
  constructor
  · intro h
    rw [getLineEnd_IfStmt, getColEnd_IfStmt, if_pos h, if_pos h]
    exact ⟨rfl, rfl⟩
  · intro h elseBody
    simp only [getLineEnd_IfStmt, getColEnd_IfStmt, if_neg h]
    exact ⟨trivial, trivial, ⟨_, rfl⟩, ⟨_, rfl⟩⟩

/-- C10 on an `if` without else body: with no end span stored both end accessors fail on the
null pointer; with the end (7,3) stored they return (7,3). -/
theorem ifStmt_end_without_else_witness :
    wellTyped ifBareNode = true ∧
    getLineEnd ifBareNode = .error .nullDeref ∧ getColEnd ifBareNode = .error .nullDeref ∧
    (∃ v, getLineEnd ifEndNode = .ok v) ∧ (∃ v, getColEnd ifEndNode = .ok v) :=
  have h0 := (ifStmt_end_without_else ⟨6, 1, 0, 0⟩ (some (.BoolLiteral ⟨6, 4, 6, 7⟩ [] true))
    (some (.StmtBlock ⟨6, 9, 7, 3⟩ []))).1 rfl
  have h1 := (ifStmt_end_without_else ⟨6, 1, 7, 3⟩ (some (.BoolLiteral ⟨6, 4, 6, 7⟩ [] true))
    (some (.StmtBlock ⟨6, 9, 7, 3⟩ []))).2 (by decide) none
  ⟨by decide, h0.1, h0.2, h1.2.2.1, h1.2.2.2⟩

/-! ## Derived spans of declarations and unary expressions (C11, C12) -/

/-- C11. For every `IdentDecl` with `name` and `type` present, and likewise for every `Argument`,
the begin line and column are those reported by the name identifier and the end line and column
are those reported by the type, whatever span is stored on the declaration (and whatever the
`inout` flag is). A `Field` whose wrapped declaration, an `IdentDecl` or an `Argument`, has its
name present begins where that name begins. -/
theorem identDecl_span (loc : Loc) (name type : HIRNode) :
    (getLineBegin (.IdentDecl loc (some name) (some type)) = getLineBegin name ∧
      getColBegin (.IdentDecl loc (some name) (some type)) = getColBegin name ∧
      getLineEnd (.IdentDecl loc (some name) (some type)) = getLineEnd type ∧
      getColEnd (.IdentDecl loc (some name) (some type)) = getColEnd type) ∧
    (∀ inout : Bool,
      getLineBegin (.Argument loc (some name) (some type) inout) = getLineBegin name ∧
      getColBegin (.Argument loc (some name) (some type) inout) = getColBegin name ∧
      getLineEnd (.Argument loc (some name) (some type) inout) = getLineEnd type ∧
      getColEnd (.Argument loc (some name) (some type) inout) = getColEnd type) ∧
    (∀ (floc : Loc) (ty : Option HIRNode),
      getLineBegin (.Field floc (some (.IdentDecl loc (some name) ty))) = getLineBegin name ∧
      getColBegin (.Field floc (some (.IdentDecl loc (some name) ty))) = getColBegin name) ∧
    (∀ (floc : Loc) (ty : Option HIRNode) (inout : Bool),
      getLineBegin (.Field floc (some (.Argument loc (some name) ty inout))) =
        getLineBegin name ∧
      getColBegin (.Field floc (some (.Argument loc (some name) ty inout))) =
        getColBegin name) :=
  ⟨⟨rfl, rfl, rfl, rfl⟩, fun _ => ⟨rfl, rfl, rfl, rfl⟩, fun _ _ => ⟨rfl, rfl⟩,
    fun _ _ _ => ⟨rfl, rfl⟩⟩

/-- C11 on the argument `x : int`, on which the span (0,0)-(0,0) is stored: it spans from the
begin of `x`, (1,1), to the end of `int`, (1,7); a field wrapping `x : int` begins at (1,1). -/
theorem identDecl_span_witness :
    argumentNode.loc = ⟨0, 0, 0, 0⟩ ∧
    getLineBegin argumentNode = .ok 1 ∧ getColBegin argumentNode = .ok 1 ∧
    getLineEnd argumentNode = .ok 1 ∧ getColEnd argumentNode = .ok 7 ∧
    getColBegin (.Field ⟨9, 9, 9, 9⟩ (some (.IdentDecl ⟨0, 0, 0, 0⟩
      (some (.Identifier ⟨1, 1, 1, 1⟩ "x")) none))) = .ok 1 :=
  have h := identDecl_span ⟨0, 0, 0, 0⟩ (.Identifier ⟨1, 1, 1, 1⟩ "x")
    (.ScalarTensorType ⟨1, 5, 1, 7⟩ .INT)
  ⟨rfl, (h.2.1 true).1.trans rfl, (h.2.1 true).2.1.trans rfl, (h.2.1 true).2.2.1.trans rfl,
    (h.2.1 true).2.2.2.trans rfl, (h.2.2.1 ⟨9, 9, 9, 9⟩ none).2.trans rfl⟩

/-- C12. For every `NotExpr` and every `NegExpr` with the operand present, the end line and
column are those reported by the operand while the begin line and column are the ones stored on
the node itself. For every `TransposeExpr` with the operand present, the begin line and column
are those reported by the operand while the end line and column are the ones stored on the node
itself. -/
theorem unaryExpr_span (loc : Loc) (type : List IRType) (operand : HIRNode) :
    (getLineEnd (.NotExpr loc type (some operand)) = getLineEnd operand ∧
      getColEnd (.NotExpr loc type (some operand)) = getColEnd operand ∧
      getLineBegin (.NotExpr loc type (some operand)) = .ok loc.lineBegin ∧
      getColBegin (.NotExpr loc type (some operand)) = .ok loc.colBegin) ∧
    (∀ negate : Bool,
      getLineEnd (.NegExpr loc type (some operand) negate) = getLineEnd operand ∧
      getColEnd (.NegExpr loc type (some operand) negate) = getColEnd operand ∧
      getLineBegin (.NegExpr loc type (some operand) negate) = .ok loc.lineBegin ∧
      getColBegin (.NegExpr loc type (some operand) negate) = .ok loc.colBegin) ∧
    (getLineBegin (.TransposeExpr loc type (some operand)) = getLineBegin operand ∧
      getColBegin (.TransposeExpr loc type (some operand)) = getColBegin operand ∧
      getLineEnd (.TransposeExpr loc type (some operand)) = .ok loc.lineEnd ∧
      getColEnd (.TransposeExpr loc type (some operand)) = .ok loc.colEnd) :=
  ⟨⟨rfl, rfl, rfl, rfl⟩, fun _ => ⟨rfl, rfl, rfl, rfl⟩, ⟨rfl, rfl, rfl, rfl⟩⟩

/-- C12 on `-abc` and on `abc'`, with (1,1)-(1,3) the span of `abc`: the negation, on which
(1,0)-(0,0) is stored, spans (1,0)-(1,3); the transpose, on which (0,0)-(1,4) is stored, spans
(1,1)-(1,4). -/
theorem unaryExpr_span_witness :
    (getLineBegin (.NegExpr ⟨1, 0, 0, 0⟩ [] (some lhsVar) true) = .ok 1 ∧
      getColBegin (.NegExpr ⟨1, 0, 0, 0⟩ [] (some lhsVar) true) = .ok 0 ∧
      getLineEnd (.NegExpr ⟨1, 0, 0, 0⟩ [] (some lhsVar) true) = .ok 1 ∧
      getColEnd (.NegExpr ⟨1, 0, 0, 0⟩ [] (some lhsVar) true) = .ok 3) ∧
    (getLineBegin (.TransposeExpr ⟨0, 0, 1, 4⟩ [] (some lhsVar)) = .ok 1 ∧
      getColBegin (.TransposeExpr ⟨0, 0, 1, 4⟩ [] (some lhsVar)) = .ok 1 ∧
      getLineEnd (.TransposeExpr ⟨0, 0, 1, 4⟩ [] (some lhsVar)) = .ok 1 ∧
      getColEnd (.TransposeExpr ⟨0, 0, 1, 4⟩ [] (some lhsVar)) = .ok 4) :=
  have hn := (unaryExpr_span ⟨1, 0, 0, 0⟩ [] lhsVar).2.1 true
  have ht := (unaryExpr_span ⟨0, 0, 1, 4⟩ [] lhsVar).2.2
  ⟨⟨hn.2.2.1, hn.2.2.2, hn.1.trans rfl, hn.2.1.trans rfl⟩,
    ⟨ht.1.trans rfl, ht.2.1.trans rfl, ht.2.2.1, ht.2.2.2⟩⟩

/-! ## Derived spans of calls, reads, loops, literals and domains (C13, C14, C15) -/

/-- C13. A `CallExpr` with its function identifier `func` present begins where `func` begins,
not where its first argument does: its begin differs from that of the first argument whenever
the begin of `func` does. A `TensorReadExpr`, a `TupleReadExpr` and a `FieldReadExpr` begin where
the base expression (`tensor`, `tuple`, `setOrElem`) begins. A `FieldReadExpr` ends where its
field identifier ends, while a `CallExpr`, a `TensorReadExpr` and a `TupleReadExpr` end at the end
line and column stored on the node itself. -/
theorem callExpr_and_reads_span (loc : Loc) (type : List IRType) (base ident : HIRNode) :
    (∀ operands : List (Option HIRNode),
      getLineBegin (.CallExpr loc type operands (some ident)) = getLineBegin ident ∧
      getColBegin (.CallExpr loc type operands (some ident)) = getColBegin ident ∧
      (∀ a, operands.head? = some (some a) → getLineBegin ident ≠ getLineBegin a →
        getLineBegin (.CallExpr loc type operands (some ident)) ≠ getLineBegin a) ∧
      (∀ a, operands.head? = some (some a) → getColBegin ident ≠ getColBegin a →
        getColBegin (.CallExpr loc type operands (some ident)) ≠ getColBegin a)) ∧
    (∀ indices : List (Option HIRNode),
      getLineBegin (.TensorReadExpr loc type (some base) indices) = getLineBegin base ∧
      getColBegin (.TensorReadExpr loc type (some base) indices) = getColBegin base) ∧
    (∀ index : Option HIRNode,
      getLineBegin (.TupleReadExpr loc type (some base) index) = getLineBegin base ∧
      getColBegin (.TupleReadExpr loc type (some base) index) = getColBegin base) ∧
    (∀ field : Option HIRNode,
      getLineBegin (.FieldReadExpr loc type (some base) field) = getLineBegin base ∧
      getColBegin (.FieldReadExpr loc type (some base) field) = getColBegin base) ∧
    (∀ setOrElem : Option HIRNode,
      getLineEnd (.FieldReadExpr loc type setOrElem (some ident)) = getLineEnd ident ∧
      getColEnd (.FieldReadExpr loc type setOrElem (some ident)) = getColEnd ident) ∧
    (∀ (operands : List (Option HIRNode)) (func : Option HIRNode),
      getLineEnd (.CallExpr loc type operands func) = .ok loc.lineEnd ∧
      getColEnd (.CallExpr loc type operands func) = .ok loc.colEnd) ∧
    (∀ (tensor : Option HIRNode) (indices : List (Option HIRNode)),
      getLineEnd (.TensorReadExpr loc type tensor indices) = .ok loc.lineEnd ∧
      getColEnd (.TensorReadExpr loc type tensor indices) = .ok loc.colEnd) ∧
    (∀ tuple index : Option HIRNode,
      getLineEnd (.TupleReadExpr loc type tuple index) = .ok loc.lineEnd ∧
      getColEnd (.TupleReadExpr loc type tuple index) = .ok loc.colEnd) :=
  ⟨fun _ => ⟨rfl, rfl, fun _ _ h => h, fun _ _ h => h⟩, fun _ => ⟨rfl, rfl⟩,
    fun _ => ⟨rfl, rfl⟩, fun _ => ⟨rfl, rfl⟩, fun _ => ⟨rfl, rfl⟩, fun _ _ => ⟨rfl, rfl⟩,
    fun _ _ => ⟨rfl, rfl⟩, fun _ _ => ⟨rfl, rfl⟩⟩

/-- C13 on the call `g(abc)` with `g` at (1,10) and the argument `abc` at (1,1)-(1,3), the end
(1,16) being stored on the call: the call spans (1,10)-(1,16), and its begin column is not the
argument's. On the field read `abc.g` the span is (1,1)-(1,10). -/
theorem callExpr_and_reads_span_witness :
    getLineBegin (.CallExpr ⟨0, 0, 1, 16⟩ [] [some lhsVar]
      (some (.Identifier ⟨1, 10, 1, 10⟩ "g"))) = .ok 1 ∧
    getColBegin (.CallExpr ⟨0, 0, 1, 16⟩ [] [some lhsVar]
      (some (.Identifier ⟨1, 10, 1, 10⟩ "g"))) = .ok 10 ∧
    getColBegin (.CallExpr ⟨0, 0, 1, 16⟩ [] [some lhsVar]
      (some (.Identifier ⟨1, 10, 1, 10⟩ "g"))) ≠ getColBegin lhsVar ∧
    getColEnd (.CallExpr ⟨0, 0, 1, 16⟩ [] [some lhsVar]
      (some (.Identifier ⟨1, 10, 1, 10⟩ "g"))) = .ok 16 ∧
    getColBegin (.FieldReadExpr ⟨0, 0, 1, 16⟩ [] (some lhsVar)
      (some (.Identifier ⟨1, 10, 1, 10⟩ "g"))) = .ok 1 ∧
    getColEnd (.FieldReadExpr ⟨0, 0, 1, 16⟩ [] (some lhsVar)
      (some (.Identifier ⟨1, 10, 1, 10⟩ "g"))) = .ok 10 :=
  have h := callExpr_and_reads_span ⟨0, 0, 1, 16⟩ [] lhsVar (.Identifier ⟨1, 10, 1, 10⟩ "g")
  ⟨(h.1 [some lhsVar]).1.trans rfl, (h.1 [some lhsVar]).2.1.trans rfl,
    (h.1 [some lhsVar]).2.2.2 lhsVar rfl (by decide),
    (h.2.2.2.2.2.1 [some lhsVar] _).2,
    (h.2.2.2.1 _).2.trans rfl, (h.2.2.2.2.1 (some lhsVar)).2.trans rfl⟩

/-- C14. For every `DoWhileStmt` with `cond` present, the end line and column are those reported
by the condition. A `WhileStmt` and a `DoWhileStmt` with the same stored span, `cond` and `body`
report the same begin line and column, the stored ones; the `WhileStmt` reports the stored end
line and column, so the two differ in the end span only. -/
theorem doWhileStmt_span (loc : Loc) (cond body : Option HIRNode) :
    (∀ c : HIRNode,
      getLineEnd (.DoWhileStmt loc (some c) body) = getLineEnd c ∧
      getColEnd (.DoWhileStmt loc (some c) body) = getColEnd c) ∧
    getLineBegin (.DoWhileStmt loc cond body) = getLineBegin (.WhileStmt loc cond body) ∧
    getColBegin (.DoWhileStmt loc cond body) = getColBegin (.WhileStmt loc cond body) ∧
    getLineBegin (.WhileStmt loc cond body) = .ok loc.lineBegin ∧
    getColBegin (.WhileStmt loc cond body) = .ok loc.colBegin ∧
    getLineEnd (.WhileStmt loc cond body) = .ok loc.lineEnd ∧
    getColEnd (.WhileStmt loc cond body) = .ok loc.colEnd :=
  ⟨fun _ => ⟨rfl, rfl⟩, rfl, rfl, rfl, rfl, rfl, rfl⟩

/-- C14 on two loops with the stored span (1,1)-(3,3) and the condition `xyz` ending at (1,9):
both begin at (1,1); the `do`-`while` ends at (1,9), the `while` at (3,3). -/
theorem doWhileStmt_span_witness :
    getLineBegin (.DoWhileStmt ⟨1, 1, 3, 3⟩ (some rhsVar) none) = .ok 1 ∧
    getColBegin (.DoWhileStmt ⟨1, 1, 3, 3⟩ (some rhsVar) none) = .ok 1 ∧
    getLineEnd (.DoWhileStmt ⟨1, 1, 3, 3⟩ (some rhsVar) none) = .ok 1 ∧
    getColEnd (.DoWhileStmt ⟨1, 1, 3, 3⟩ (some rhsVar) none) = .ok 9 ∧
    getLineEnd (.WhileStmt ⟨1, 1, 3, 3⟩ (some rhsVar) none) = .ok 3 ∧
    getColEnd (.WhileStmt ⟨1, 1, 3, 3⟩ (some rhsVar) none) = .ok 3 :=
  have h := doWhileStmt_span ⟨1, 1, 3, 3⟩ (some rhsVar) none
  ⟨h.2.1.trans h.2.2.2.1, h.2.2.1.trans h.2.2.2.2.1, (h.1 rhsVar).1.trans rfl,
    (h.1 rhsVar).2.trans rfl, h.2.2.2.2.2.1, h.2.2.2.2.2.2⟩

/-- C15. For every `DenseTensorLiteral` with `tensor` present all four span accessors are those
of the tensor-element tree; for every `IndexSetDomain` with `set` present all four are those of
the set; for every `RangeDomain` with `lower` and `upper` present the begin is the begin reported
by `lower` and the end is the end reported by `upper`. The span stored on the node, the
annotation and the `transposed` flag have no influence. -/
theorem delegating_span (loc : Loc) (child child2 : HIRNode) :
    (∀ (type : List IRType) (transposed : Bool),
      getLineBegin (.DenseTensorLiteral loc type (some child) transposed) = getLineBegin child ∧
      getColBegin (.DenseTensorLiteral loc type (some child) transposed) = getColBegin child ∧
      getLineEnd (.DenseTensorLiteral loc type (some child) transposed) = getLineEnd child ∧
      getColEnd (.DenseTensorLiteral loc type (some child) transposed) = getColEnd child) ∧
    (getLineBegin (.IndexSetDomain loc (some child)) = getLineBegin child ∧
      getColBegin (.IndexSetDomain loc (some child)) = getColBegin child ∧
      getLineEnd (.IndexSetDomain loc (some child)) = getLineEnd child ∧
      getColEnd (.IndexSetDomain loc (some child)) = getColEnd child) ∧
    (getLineBegin (.RangeDomain loc (some child) (some child2)) = getLineBegin child ∧
      getColBegin (.RangeDomain loc (some child) (some child2)) = getColBegin child ∧
      getLineEnd (.RangeDomain loc (some child) (some child2)) = getLineEnd child2 ∧
      getColEnd (.RangeDomain loc (some child) (some child2)) = getColEnd child2) :=
  ⟨fun _ _ => ⟨rfl, rfl, rfl, rfl⟩, ⟨rfl, rfl, rfl, rfl⟩, ⟨rfl, rfl, rfl, rfl⟩⟩

/-- C15 on the range `abc : xyz`, on which (5,5)-(6,6) is stored: it spans (1,1)-(1,9); and on a
transposed literal over the vector `[1, 2]` spanning (2,1)-(2,6): it spans (2,1)-(2,6). -/
theorem delegating_span_witness :
    (getLineBegin (.RangeDomain ⟨5, 5, 6, 6⟩ (some lhsVar) (some rhsVar)) = .ok 1 ∧
      getColBegin (.RangeDomain ⟨5, 5, 6, 6⟩ (some lhsVar) (some rhsVar)) = .ok 1 ∧
      getLineEnd (.RangeDomain ⟨5, 5, 6, 6⟩ (some lhsVar) (some rhsVar)) = .ok 1 ∧
      getColEnd (.RangeDomain ⟨5, 5, 6, 6⟩ (some lhsVar) (some rhsVar)) = .ok 9) ∧
    (getColBegin (.DenseTensorLiteral ⟨5, 5, 6, 6⟩ []
        (some (.DenseIntVector ⟨2, 1, 2, 6⟩ [1, 2])) true) = .ok 1 ∧
      getColEnd (.DenseTensorLiteral ⟨5, 5, 6, 6⟩ []
        (some (.DenseIntVector ⟨2, 1, 2, 6⟩ [1, 2])) true) = .ok 6) :=
  have h := delegating_span ⟨5, 5, 6, 6⟩ lhsVar rhsVar
  have h' := (delegating_span ⟨5, 5, 6, 6⟩ (.DenseIntVector ⟨2, 1, 2, 6⟩ [1, 2]) rhsVar).1 [] true
  ⟨⟨h.2.2.1.trans rfl, h.2.2.2.1.trans rfl, h.2.2.2.2.1.trans rfl, h.2.2.2.2.2.trans rfl⟩,
    ⟨h'.2.1.trans rfl, h'.2.2.2.trans rfl⟩⟩

/-! ## Setters of the stored span (C16, C19) -/

theorem classOf_setStored (l : Loc) (n : HIRNode) : classOf (n.setStored l) = classOf n := by
  cases n <;> rfl

theorem loc_setStored (l : Loc) (n : HIRNode) : (n.setStored l).loc = l := by
  cases n <;> rfl

theorem setStored_setStored (l l' : Loc) (n : HIRNode) :
    (n.setStored l).setStored l' = n.setStored l' := by
  cases n <;> rfl

theorem setStored_loc (n : HIRNode) : n.setStored n.loc = n := by
  cases n <;> rfl

theorem base_accessors_of_no_override (n : HIRNode) (h : hasSpanOverride (classOf n) = false) :
    getLineBegin n = .ok n.loc.lineBegin ∧ getColBegin n = .ok n.loc.colBegin ∧
    getLineEnd n = .ok n.loc.lineEnd ∧ getColEnd n = .ok n.loc.colEnd := by
  cases n <;> first
    | exact ⟨rfl, rfl, rfl, rfl⟩
    | exact absurd (show true = false from h) (by decide)

theorem hasSpanOverride_of_derived_accessor (n : HIRNode)
    (h : getLineBegin n ≠ .ok n.loc.lineBegin ∨ getColBegin n ≠ .ok n.loc.colBegin ∨
      getLineEnd n ≠ .ok n.loc.lineEnd ∨ getColEnd n ≠ .ok n.loc.colEnd) :
    hasSpanOverride (classOf n) = true := by
  cases hc : hasSpanOverride (classOf n)
  · have hb := base_accessors_of_no_override n hc
    rcases h with h | h | h | h
    · exact absurd hb.1 h
    · exact absurd hb.2.1 h
    · exact absurd hb.2.2.1 h
    · exact absurd hb.2.2.2 h
  · rfl

/-- C16. For every node `n` and token `tok`: when the class of `n` neither declares nor inherits
an override of a span accessor, the four accessors of `n` after `n.setLoc(tok)` return
`tok.lineBegin`, `tok.colBegin`, `tok.lineEnd`, `tok.colEnd`. For every `n`, `setBeginLoc(tok)`
writes the stored begin line and column and leaves the stored end, and every other member,
unchanged (writing the old span back restores `n`); `setEndLoc(tok)` writes the stored end line
and column and leaves the stored begin, and every other member, unchanged. -/
theorem setLoc_token (n : HIRNode) (tok : Token) :
    (hasSpanOverride (classOf n) = false →
      getLineBegin (setLoc tok n) = .ok tok.lineBegin ∧
      getColBegin (setLoc tok n) = .ok tok.colBegin ∧
      getLineEnd (setLoc tok n) = .ok tok.lineEnd ∧
      getColEnd (setLoc tok n) = .ok tok.colEnd) ∧
    ((setBeginLoc tok n).loc = ⟨tok.lineBegin, tok.colBegin, n.loc.lineEnd, n.loc.colEnd⟩ ∧
      (setBeginLoc tok n).setStored n.loc = n) ∧
    ((setEndLoc tok n).loc = ⟨n.loc.lineBegin, n.loc.colBegin, tok.lineEnd, tok.colEnd⟩ ∧
      (setEndLoc tok n).setStored n.loc = n) := by
  refine ⟨?_, ⟨?_, ?_⟩, ⟨?_, ?_⟩⟩
  · intro h
    have hc : hasSpanOverride (classOf (setLoc tok n)) = false := by
      unfold setLoc setEndLoc setBeginLoc
      rw [classOf_setStored, classOf_setStored]
      exact h
    have hb := base_accessors_of_no_override (setLoc tok n) hc
    have hl : (setLoc tok n).loc = ⟨tok.lineBegin, tok.colBegin, tok.lineEnd, tok.colEnd⟩ := by
      unfold setLoc setEndLoc setBeginLoc
      rw [loc_setStored, loc_setStored]
    rw [hl] at hb
    exact hb
  · unfold setBeginLoc
    rw [loc_setStored]
  · unfold setBeginLoc
    rw [setStored_setStored, setStored_loc]
  · unfold setEndLoc
    rw [loc_setStored]
  · unfold setEndLoc
    rw [setStored_setStored, setStored_loc]

/-- C16 on a fresh identifier and the token (2,3)-(2,7): after `setLoc` the accessors return
(2,3)-(2,7); after `setBeginLoc` alone the stored span is (2,3)-(0,0), after `setEndLoc` alone
it is (0,0)-(2,7). -/
theorem setLoc_token_witness :
    hasSpanOverride (classOf identNode) = false ∧
    (hasSpanOverride .VarExpr = false ∧ hasSpanOverride .IntLiteral = false ∧
      hasSpanOverride .ElementType = false ∧ hasSpanOverride .Argument = true) ∧
    (getLineBegin (setLoc sampleToken identNode) = .ok 2 ∧
      getColBegin (setLoc sampleToken identNode) = .ok 3 ∧
      getLineEnd (setLoc sampleToken identNode) = .ok 2 ∧
      getColEnd (setLoc sampleToken identNode) = .ok 7) ∧
    (setBeginLoc sampleToken identNode).loc = ⟨2, 3, 0, 0⟩ ∧
    (setEndLoc sampleToken identNode).loc = ⟨0, 0, 2, 7⟩ :=
  have h := setLoc_token identNode sampleToken
  ⟨rfl, ⟨rfl, rfl, rfl, rfl⟩, h.1 rfl, h.2.1.1, h.2.2.1⟩

/-- C19. For every destination `d` whose class has the accessors of `HIRNode` and every source
`s`: `d.setLoc(s)` stores in `d` the four fields stored in `s`. When the class of `s` has the
accessors of `HIRNode` too, the four accessors of `d` afterwards equal those of `s`. When `s` is
the sum `abc + xyz` with no span stored, which reports (1,1)-(1,9) through its derived
accessors, `d` reports (0,0)-(0,0) afterwards. -/
theorem setLoc_node_copies_stored (d s : HIRNode) (hd : hasSpanOverride (classOf d) = false) :
    setLoc_Ptr (some s) d = .ok (d.setStored s.loc) ∧
    (hasSpanOverride (classOf s) = false →
      getLineBegin (d.setStored s.loc) = getLineBegin s ∧
      getColBegin (d.setStored s.loc) = getColBegin s ∧
      getLineEnd (d.setStored s.loc) = getLineEnd s ∧
      getColEnd (d.setStored s.loc) = getColEnd s) ∧
    (hasSpanOverride (classOf sumNoSpan) = true ∧
      setLoc_Ptr (some sumNoSpan) d = .ok (d.setStored ⟨0, 0, 0, 0⟩) ∧
      (getLineBegin sumNoSpan = .ok 1 ∧ getColBegin sumNoSpan = .ok 1 ∧
        getLineEnd sumNoSpan = .ok 1 ∧ getColEnd sumNoSpan = .ok 9) ∧
      (getLineBegin (d.setStored ⟨0, 0, 0, 0⟩) = .ok 0 ∧
        getColBegin (d.setStored ⟨0, 0, 0, 0⟩) = .ok 0 ∧
        getLineEnd (d.setStored ⟨0, 0, 0, 0⟩) = .ok 0 ∧
        getColEnd (d.setStored ⟨0, 0, 0, 0⟩) = .ok 0)) := by
  have hbase : ∀ l : Loc,
      getLineBegin (d.setStored l) = .ok l.lineBegin ∧
      getColBegin (d.setStored l) = .ok l.colBegin ∧
      getLineEnd (d.setStored l) = .ok l.lineEnd ∧
      getColEnd (d.setStored l) = .ok l.colEnd := by
    intro l
    have hc : hasSpanOverride (classOf (d.setStored l)) = false := by
      rw [classOf_setStored]; exact hd
    have hb := base_accessors_of_no_override (d.setStored l) hc
    rw [loc_setStored] at hb
    exact hb
  refine ⟨rfl, ?_, rfl, rfl, ⟨rfl, rfl, rfl, rfl⟩, hbase ⟨0, 0, 0, 0⟩⟩
  intro hs
  have hsb := base_accessors_of_no_override s hs
  have hdb := hbase s.loc
  exact ⟨hdb.1.trans hsb.1.symm, hdb.2.1.trans hsb.2.1.symm, hdb.2.2.1.trans hsb.2.2.1.symm,
    hdb.2.2.2.trans hsb.2.2.2.symm⟩

/-- C19 on the fresh identifier `v` as destination: from the variable `xyz`, spanning
(1,7)-(1,9), it takes the span (1,7)-(1,9); from the sum `abc + xyz` with no span stored, which
reports (1,1)-(1,9), it takes (0,0)-(0,0). -/
theorem setLoc_node_copies_stored_witness :
    hasSpanOverride (classOf identNode) = false ∧
    hasSpanOverride (classOf rhsVar) = false ∧
    setLoc_Ptr (some rhsVar) identNode = .ok (.Identifier ⟨1, 7, 1, 9⟩ "v") ∧
    getColBegin (identNode.setStored rhsVar.loc) = .ok 7 ∧
    getColEnd (identNode.setStored rhsVar.loc) = .ok 9 ∧
    setLoc_Ptr (some sumNoSpan) identNode = .ok (.Identifier ⟨0, 0, 0, 0⟩ "v") ∧
    getColEnd sumNoSpan = .ok 9 ∧
    getColEnd (identNode.setStored ⟨0, 0, 0, 0⟩) = .ok 0 :=
  have h := setLoc_node_copies_stored identNode rhsVar rfl
  ⟨rfl, rfl, h.1, (h.2.1 rfl).2.1.trans rfl, (h.2.1 rfl).2.2.2.trans rfl, h.2.2.2.1,
    h.2.2.2.2.1.2.2.2, h.2.2.2.2.2.2.2.2⟩

/-! ## `isa` and `to` against the inheritance relation (C18) -/

theorem derivesFromAux_sound (fuel : Nat) :
    ∀ D B : NodeClass, derivesFromAux fuel D B = true → descendsFrom D B := by
  induction fuel with
  | zero =>
    intro D B h
    simp only [derivesFromAux, beq_iff_eq] at h
    subst h
    exact Relation.ReflTransGen.refl
  | succ k ih =>
    intro D B h
    simp only [derivesFromAux, Bool.or_eq_true, beq_iff_eq] at h
    rcases h with h | h
    · subst h
      exact Relation.ReflTransGen.refl
    · cases hb : D.base with
      | none => rw [hb] at h; exact absurd h (by simp)
      | some D' =>
        rw [hb] at h
        exact Relation.ReflTransGen.head hb (ih D' B h)

theorem derivesFromAux_fuel (D B : NodeClass) :
    derivesFromAux 74 D B = derivesFromAux 75 D B := by
  cases D <;> simp only [derivesFromAux, NodeClass.base]

theorem derivesFrom_of_directBase (D D' B : NodeClass) (hb : directBase D D')
    (h : derivesFrom D' B = true) : derivesFrom D B = true := by
  unfold derivesFrom at h ⊢
  rw [← derivesFromAux_fuel] at h
  have hstep : derivesFromAux 75 D B =
      (D == B || (match D.base with
        | none => false
        | some D' => derivesFromAux 74 D' B)) := rfl
  rw [hstep]
  unfold directBase at hb
  rw [hb]
  simp [h]

theorem derivesFrom_iff_descendsFrom (D B : NodeClass) :
    derivesFrom D B = true ↔ descendsFrom D B := by
  constructor
  · exact derivesFromAux_sound 75 D B
  · intro h
    induction h using Relation.ReflTransGen.head_induction_on with
    | refl => exact derivesFrom_self B
    | head hb _ ih => exact derivesFrom_of_directBase _ _ _ hb ih

theorem derivesFrom_of_mem_concreteBasePairs (V W : NodeClass)
    (h : (V, W) ∈ concreteBasePairs) : derivesFrom V W = true := by
  simp only [concreteBasePairs, List.mem_cons, Prod.mk.injEq, List.mem_singleton,
    List.not_mem_nil, or_false] at h
  rcases h with ⟨rfl, rfl⟩ | ⟨rfl, rfl⟩ | ⟨rfl, rfl⟩ | ⟨rfl, rfl⟩ | ⟨rfl, rfl⟩ <;> decide

/-- C18. For every class `T` and pointer `ptr`: `isa<T>(ptr)` is true exactly when `ptr` is
non-null and the class of its object is `T` or a transitive descendant of `T`; `to<T>(ptr)`
succeeds exactly when `isa<T>(ptr)` is true, and then returns `ptr`; `isa<T>` of the null pointer
is false. Hence `to<IdentDecl>` succeeds on an `Argument`, `to<FuncDecl>` on a `ProcDecl`,
`to<VarDecl>` on a `ConstDecl`, `to<WhileStmt>` on a `DoWhileStmt` and `to<ExprStmt>` on an
`AssignStmt`. -/
theorem isa_iff_descendsFrom (T : NodeClass) (ptr : Ptr) :
    (isa T ptr = true ↔ ∃ n, ptr = some n ∧ descendsFrom (classOf n) T) ∧
    ((∃ r, to_ T ptr = .ok r) ↔ isa T ptr = true) ∧
    (isa T ptr = true → to_ T ptr = .ok ptr) ∧
    isa T none = false ∧
    (∀ n, ptr = some n → (classOf n, T) ∈ concreteBasePairs →
      isa T ptr = true ∧ to_ T ptr = .ok (some n)) := by
  have hto : isa T ptr = true → to_ T ptr = .ok ptr := by
    intro h
    unfold to_ iassert static_pointer_cast
    rw [h]
    rfl
  refine ⟨?_, ⟨?_, ?_⟩, hto, rfl, ?_⟩
  · cases ptr with
    | none =>
      constructor
      · intro h; exact absurd (show false = true from h) (by decide)
      · rintro ⟨n, hn, _⟩; exact absurd hn (by simp)
    | some n =>
      rw [isa_some, derivesFrom_iff_descendsFrom]
      constructor
      · intro h; exact ⟨n, rfl, h⟩
      · rintro ⟨m, hm, h⟩
        cases hm
        exact h
  · rintro ⟨r, hr⟩
    cases hi : isa T ptr
    · unfold to_ iassert at hr
      rw [hi] at hr
      exact absurd hr (by intro hc; cases hc)
    · rfl
  · intro h
    exact ⟨ptr, hto h⟩
  · intro n hn hmem
    subst hn
    have hd := derivesFrom_of_mem_concreteBasePairs _ _ hmem
    have hi : isa T (some n) = true := by rw [isa_some]; exact hd
    exact ⟨hi, hto hi⟩

/-- C18 on a `do`-`while` loop and on an argument: `WhileStmt` is the direct base of
`DoWhileStmt`, so `isa<WhileStmt>` holds and `to<WhileStmt>` returns the loop; `to<IdentDecl>`
returns the argument; `isa<Stmt>` holds of the loop, `isa<Expr>` does not; on the null pointer
`isa` is false and `to` fails. -/
theorem isa_iff_descendsFrom_witness :
    isa .WhileStmt (some doWhileNode) = true ∧
    to_ .WhileStmt (some doWhileNode) = .ok (some doWhileNode) ∧
    to_ .IdentDecl (some argumentNode) = .ok (some argumentNode) ∧
    isa .Stmt (some doWhileNode) = true ∧
    isa .Expr (some doWhileNode) = false ∧
    isa .WhileStmt none = false ∧
    to_ .WhileStmt none = .error "wrong type" :=
  have hw : isa .WhileStmt (some doWhileNode) = true :=
    (isa_iff_descendsFrom .WhileStmt (some doWhileNode)).1.mpr
      ⟨doWhileNode, rfl, Relation.ReflTransGen.single rfl⟩
  ⟨hw, (isa_iff_descendsFrom .WhileStmt (some doWhileNode)).2.2.1 hw,
    ((isa_iff_descendsFrom .IdentDecl (some argumentNode)).2.2.2.2 argumentNode rfl
      (by decide)).2,
    by decide, by decide, (isa_iff_descendsFrom .WhileStmt none).2.2.2.1, rfl⟩

/-! ## Trees of binary operators (C20) -/

theorem and_true_split (a b : Bool) (h : (a && b) = true) : a = true ∧ b = true := by
  simpa using h

theorem binaryTree_span_aux : ∀ n : HIRNode, isBinaryTree n = true →
    (getLineBegin n = .ok (leftmostLeaf n).loc.lineBegin ∧
      getColBegin n = .ok (leftmostLeaf n).loc.colBegin ∧
      getLineEnd n = .ok (rightmostLeaf n).loc.lineEnd ∧
      getColEnd n = .ok (rightmostLeaf n).loc.colEnd) ∧
    (derivesFrom (classOf (leftmostLeaf n)) .Expr = true ∧
      hasSpanOverride (classOf (leftmostLeaf n)) = false) ∧
    (derivesFrom (classOf (rightmostLeaf n)) .Expr = true ∧
      hasSpanOverride (classOf (rightmostLeaf n)) = false)
  | .Program .., h => absurd (show false = true from h) (by decide)
  | .StmtBlock .., h => absurd (show false = true from h) (by decide)
  | .RangeIndexSet .., h => absurd (show false = true from h) (by decide)
  | .SetIndexSet .., h => absurd (show false = true from h) (by decide)
  | .DynamicIndexSet .., h => absurd (show false = true from h) (by decide)
  | .ElementType .., h => absurd (show false = true from h) (by decide)
  | .Endpoint .., h => absurd (show false = true from h) (by decide)
  | .SetType .., h => absurd (show false = true from h) (by decide)
  | .TupleLength .., h => absurd (show false = true from h) (by decide)
  | .TupleType .., h => absurd (show false = true from h) (by decide)
  | .ScalarTensorType .., h => absurd (show false = true from h) (by decide)
  | .NonScalarTensorType .., h => absurd (show false = true from h) (by decide)
  | .Identifier .., h => absurd (show false = true from h) (by decide)
  | .IdentDecl .., h => absurd (show false = true from h) (by decide)
  | .Field .., h => absurd (show false = true from h) (by decide)
  | .ElementTypeDecl .., h => absurd (show false = true from h) (by decide)
  | .Argument .., h => absurd (show false = true from h) (by decide)
  | .ExternDecl .., h => absurd (show false = true from h) (by decide)
  | .FuncDecl .., h => absurd (show false = true from h) (by decide)
  | .ProcDecl .., h => absurd (show false = true from h) (by decide)
  | .VarDecl .., h => absurd (show false = true from h) (by decide)
  | .ConstDecl .., h => absurd (show false = true from h) (by decide)
  | .WhileStmt .., h => absurd (show false = true from h) (by decide)
  | .DoWhileStmt .., h => absurd (show false = true from h) (by decide)
  | .IfStmt .., h => absurd (show false = true from h) (by decide)
  | .IndexSetDomain .., h => absurd (show false = true from h) (by decide)
  | .RangeDomain .., h => absurd (show false = true from h) (by decide)
  | .ForStmt .., h => absurd (show false = true from h) (by decide)
  | .PrintStmt .., h => absurd (show false = true from h) (by decide)
  | .ExprStmt .., h => absurd (show false = true from h) (by decide)
  | .AssignStmt .., h => absurd (show false = true from h) (by decide)
  | .Slice .., h => absurd (show false = true from h) (by decide)
  | .ExprParam .., h => absurd (show false = true from h) (by decide)
  | .MapExpr .., h => absurd (show false = true from h) (by decide)
  | .OrExpr _ _ (some l) (some r), h =>
    have hl := binaryTree_span_aux l (and_true_split _ _ h).1
    have hr := binaryTree_span_aux r (and_true_split _ _ h).2
    ⟨⟨hl.1.1, hl.1.2.1, hr.1.2.2.1, hr.1.2.2.2⟩, hl.2.1, hr.2.2⟩
  | .OrExpr _ _ none _, h => absurd (show false = true from h) (by decide)
  | .OrExpr _ _ (some _) none, h => absurd (show false = true from h) (by decide)
  | .AndExpr _ _ (some l) (some r), h =>
    have hl := binaryTree_span_aux l (and_true_split _ _ h).1
    have hr := binaryTree_span_aux r (and_true_split _ _ h).2
    ⟨⟨hl.1.1, hl.1.2.1, hr.1.2.2.1, hr.1.2.2.2⟩, hl.2.1, hr.2.2⟩
  | .AndExpr _ _ none _, h => absurd (show false = true from h) (by decide)
  | .AndExpr _ _ (some _) none, h => absurd (show false = true from h) (by decide)
  | .XorExpr _ _ (some l) (some r), h =>
    have hl := binaryTree_span_aux l (and_true_split _ _ h).1
    have hr := binaryTree_span_aux r (and_true_split _ _ h).2
    ⟨⟨hl.1.1, hl.1.2.1, hr.1.2.2.1, hr.1.2.2.2⟩, hl.2.1, hr.2.2⟩
  | .XorExpr _ _ none _, h => absurd (show false = true from h) (by decide)
  | .XorExpr _ _ (some _) none, h => absurd (show false = true from h) (by decide)
  | .EqExpr .., h => absurd (show false = true from h) (by decide)
  | .NotExpr .., h => absurd (show false = true from h) (by decide)
  | .AddExpr _ _ (some l) (some r), h =>
    have hl := binaryTree_span_aux l (and_true_split _ _ h).1
    have hr := binaryTree_span_aux r (and_true_split _ _ h).2
    ⟨⟨hl.1.1, hl.1.2.1, hr.1.2.2.1, hr.1.2.2.2⟩, hl.2.1, hr.2.2⟩
  | .AddExpr _ _ none _, h => absurd (show false = true from h) (by decide)
  | .AddExpr _ _ (some _) none, h => absurd (show false = true from h) (by decide)
  | .SubExpr _ _ (some l) (some r), h =>
    have hl := binaryTree_span_aux l (and_true_split _ _ h).1
    have hr := binaryTree_span_aux r (and_true_split _ _ h).2
    ⟨⟨hl.1.1, hl.1.2.1, hr.1.2.2.1, hr.1.2.2.2⟩, hl.2.1, hr.2.2⟩
  | .SubExpr _ _ none _, h => absurd (show false = true from h) (by decide)
  | .SubExpr _ _ (some _) none, h => absurd (show false = true from h) (by decide)
  | .MulExpr _ _ (some l) (some r), h =>
    have hl := binaryTree_span_aux l (and_true_split _ _ h).1
    have hr := binaryTree_span_aux r (and_true_split _ _ h).2
    ⟨⟨hl.1.1, hl.1.2.1, hr.1.2.2.1, hr.1.2.2.2⟩, hl.2.1, hr.2.2⟩
  | .MulExpr _ _ none _, h => absurd (show false = true from h) (by decide)
  | .MulExpr _ _ (some _) none, h => absurd (show false = true from h) (by decide)
  | .DivExpr _ _ (some l) (some r), h =>
    have hl := binaryTree_span_aux l (and_true_split _ _ h).1
    have hr := binaryTree_span_aux r (and_true_split _ _ h).2
    ⟨⟨hl.1.1, hl.1.2.1, hr.1.2.2.1, hr.1.2.2.2⟩, hl.2.1, hr.2.2⟩
  | .DivExpr _ _ none _, h => absurd (show false = true from h) (by decide)
  | .DivExpr _ _ (some _) none, h => absurd (show false = true from h) (by decide)
  | .ElwiseMulExpr _ _ (some l) (some r), h =>
    have hl := binaryTree_span_aux l (and_true_split _ _ h).1
    have hr := binaryTree_span_aux r (and_true_split _ _ h).2
    ⟨⟨hl.1.1, hl.1.2.1, hr.1.2.2.1, hr.1.2.2.2⟩, hl.2.1, hr.2.2⟩
  | .ElwiseMulExpr _ _ none _, h => absurd (show false = true from h) (by decide)
  | .ElwiseMulExpr _ _ (some _) none, h => absurd (show false = true from h) (by decide)
  | .ElwiseDivExpr _ _ (some l) (some r), h =>
    have hl := binaryTree_span_aux l (and_true_split _ _ h).1
    have hr := binaryTree_span_aux r (and_true_split _ _ h).2
    ⟨⟨hl.1.1, hl.1.2.1, hr.1.2.2.1, hr.1.2.2.2⟩, hl.2.1, hr.2.2⟩
  | .ElwiseDivExpr _ _ none _, h => absurd (show false = true from h) (by decide)
  | .ElwiseDivExpr _ _ (some _) none, h => absurd (show false = true from h) (by decide)
  | .NegExpr .., h => absurd (show false = true from h) (by decide)
  | .ExpExpr _ _ (some l) (some r), h =>
    have hl := binaryTree_span_aux l (and_true_split _ _ h).1
    have hr := binaryTree_span_aux r (and_true_split _ _ h).2
    ⟨⟨hl.1.1, hl.1.2.1, hr.1.2.2.1, hr.1.2.2.2⟩, hl.2.1, hr.2.2⟩
  | .ExpExpr _ _ none _, h => absurd (show false = true from h) (by decide)
  | .ExpExpr _ _ (some _) none, h => absurd (show false = true from h) (by decide)
  | .TransposeExpr .., h => absurd (show false = true from h) (by decide)
  | .CallExpr .., h => absurd (show false = true from h) (by decide)
  | .TensorReadExpr .., h => absurd (show false = true from h) (by decide)
  | .TupleReadExpr .., h => absurd (show false = true from h) (by decide)
  | .FieldReadExpr .., h => absurd (show false = true from h) (by decide)
  | .ParenExpr .., _ => ⟨⟨rfl, rfl, rfl, rfl⟩, ⟨rfl, rfl⟩, ⟨rfl, rfl⟩⟩
  | .VarExpr .., _ => ⟨⟨rfl, rfl, rfl, rfl⟩, ⟨rfl, rfl⟩, ⟨rfl, rfl⟩⟩
  | .IntLiteral .., _ => ⟨⟨rfl, rfl, rfl, rfl⟩, ⟨rfl, rfl⟩, ⟨rfl, rfl⟩⟩
  | .FloatLiteral .., _ => ⟨⟨rfl, rfl, rfl, rfl⟩, ⟨rfl, rfl⟩, ⟨rfl, rfl⟩⟩
  | .BoolLiteral .., _ => ⟨⟨rfl, rfl, rfl, rfl⟩, ⟨rfl, rfl⟩, ⟨rfl, rfl⟩⟩
  | .DenseIntVector .., h => absurd (show false = true from h) (by decide)
  | .DenseFloatVector .., h => absurd (show false = true from h) (by decide)
  | .DenseNDTensor .., h => absurd (show false = true from h) (by decide)
  | .DenseTensorLiteral .., h => absurd (show false = true from h) (by decide)
  | .Test .., h => absurd (show false = true from h) (by decide)

/-- C20. For every expression tree `n` built only from binary-operator nodes over leaf
expressions with the accessors of `HIRNode`, of any depth and shape: the begin line and column
of `n` are the stored begin of its leftmost leaf, the end line and column of `n` are the stored
end of its rightmost leaf, and both are leaves, expressions with the accessors of `HIRNode`.
The spans stored on the operator nodes have no influence: every such tree with the same
leftmost and rightmost leaf reports the same span. -/
theorem binaryTree_span (n : HIRNode) (h : isBinaryTree n = true) :
    (getLineBegin n = .ok (leftmostLeaf n).loc.lineBegin ∧
      getColBegin n = .ok (leftmostLeaf n).loc.colBegin ∧
      getLineEnd n = .ok (rightmostLeaf n).loc.lineEnd ∧
      getColEnd n = .ok (rightmostLeaf n).loc.colEnd) ∧
    (derivesFrom (classOf (leftmostLeaf n)) .Expr = true ∧
      hasSpanOverride (classOf (leftmostLeaf n)) = false) ∧
    (derivesFrom (classOf (rightmostLeaf n)) .Expr = true ∧
      hasSpanOverride (classOf (rightmostLeaf n)) = false) ∧
    (∀ n' : HIRNode, isBinaryTree n' = true → leftmostLeaf n' = leftmostLeaf n →
      rightmostLeaf n' = rightmostLeaf n →
      getLineBegin n' = getLineBegin n ∧ getColBegin n' = getColBegin n ∧
      getLineEnd n' = getLineEnd n ∧ getColEnd n' = getColEnd n) := by
  have hn := binaryTree_span_aux n h
  refine ⟨hn.1, hn.2.1, hn.2.2, ?_⟩
  intro n' h' hl hr
  have hn' := binaryTree_span_aux n' h'
  rw [hl, hr] at hn'
  exact ⟨hn'.1.1.trans hn.1.1.symm, hn'.1.2.1.trans hn.1.2.1.symm,
    hn'.1.2.2.1.trans hn.1.2.2.1.symm, hn'.1.2.2.2.trans hn.1.2.2.2.symm⟩

/-- C20 on `(a + b) * (b - c)` with `a` at (2,1) and `c` at (2,10): the tree spans
(2,1)-(2,10) with (9,9)-(9,9), (7,7)-(7,7) and (8,8)-(8,8) stored on its operator nodes, as it
does with nothing stored on them. -/
theorem binaryTree_span_witness :
    isBinaryTree nestedTree = true ∧
    leftmostLeaf nestedTree = opA ∧ rightmostLeaf nestedTree = opC ∧
    (getLineBegin nestedTree = .ok 2 ∧ getColBegin nestedTree = .ok 1 ∧
      getLineEnd nestedTree = .ok 2 ∧ getColEnd nestedTree = .ok 10) ∧
    (getLineBegin nestedTreeNoSpans = getLineBegin nestedTree ∧
      getColBegin nestedTreeNoSpans = getColBegin nestedTree ∧
      getLineEnd nestedTreeNoSpans = getLineEnd nestedTree ∧
      getColEnd nestedTreeNoSpans = getColEnd nestedTree) :=
  have h := binaryTree_span nestedTree rfl
  ⟨rfl, rfl, rfl, h.1, h.2.2.2 nestedTreeNoSpans rfl rfl rfl⟩

/-! ## The type annotation and the spans (C17) -/

theorem getLineEnd_back_cons_cons (p q : Option HIRNode) (r : List (Option HIRNode)) :
    getLineEnd_back (p :: q :: r) = getLineEnd_back (q :: r) := by
  cases p <;> rfl

theorem getColEnd_back_cons_cons (p q : Option HIRNode) (r : List (Option HIRNode)) :
    getColEnd_back (p :: q :: r) = getColEnd_back (q :: r) := by
  cases p <;> rfl

theorem getLineEnd_back_modifyElem (g : HIRNode → HIRNode)
    (hg : ∀ c : HIRNode, getLineEnd (g c) = getLineEnd c) (j : Nat)
    (v : List (Option HIRNode)) :
    getLineEnd_back (modifyElem g j v) = getLineEnd_back v := by
  induction v generalizing j with
  | nil => rfl
  | cons p tl ih =>
    cases tl with
    | nil =>
      cases j with
      | zero => cases p with
        | none => rfl
        | some c => exact hg c
      | succ j => rfl
    | cons q r =>
      cases j with
      | zero =>
        show getLineEnd_back (p.map g :: q :: r) = getLineEnd_back (p :: q :: r)
        rw [getLineEnd_back_cons_cons, getLineEnd_back_cons_cons]
      | succ j =>
        have h := ih j
        cases j with
        | zero =>
          show getLineEnd_back (p :: q.map g :: r) = getLineEnd_back (p :: q :: r)
          rw [getLineEnd_back_cons_cons, getLineEnd_back_cons_cons]
          exact h
        | succ j =>
          show getLineEnd_back (p :: q :: modifyElem g j r) = getLineEnd_back (p :: q :: r)
          rw [getLineEnd_back_cons_cons, getLineEnd_back_cons_cons]
          exact h

theorem getColEnd_back_modifyElem (g : HIRNode → HIRNode)
    (hg : ∀ c : HIRNode, getColEnd (g c) = getColEnd c) (j : Nat)
    (v : List (Option HIRNode)) :
    getColEnd_back (modifyElem g j v) = getColEnd_back v := by
  induction v generalizing j with
  | nil => rfl
  | cons p tl ih =>
    cases tl with
    | nil =>
      cases j with
      | zero => cases p with
        | none => rfl
        | some c => exact hg c
      | succ j => rfl
    | cons q r =>
      cases j with
      | zero =>
        show getColEnd_back (p.map g :: q :: r) = getColEnd_back (p :: q :: r)
        rw [getColEnd_back_cons_cons, getColEnd_back_cons_cons]
      | succ j =>
        have h := ih j
        cases j with
        | zero =>
          show getColEnd_back (p :: q.map g :: r) = getColEnd_back (p :: q :: r)
          rw [getColEnd_back_cons_cons, getColEnd_back_cons_cons]
          exact h
        | succ j =>
          show getColEnd_back (p :: q :: modifyElem g j r) = getColEnd_back (p :: q :: r)
          rw [getColEnd_back_cons_cons, getColEnd_back_cons_cons]
          exact h

theorem getLineEnd_IfStmt_congr (loc : Loc) (cond ifBody cond' ifBody' : Option HIRNode)
    (p p' : HIRNode) (h : getLineEnd p' = getLineEnd p) :
    getLineEnd (.IfStmt loc cond' ifBody' (some p')) =
      getLineEnd (.IfStmt loc cond ifBody (some p)) := by
  rw [getLineEnd_IfStmt, getLineEnd_IfStmt]
  simp only [h]

theorem getColEnd_IfStmt_congr (loc : Loc) (cond ifBody cond' ifBody' : Option HIRNode)
    (p p' : HIRNode) (h : getColEnd p' = getColEnd p) :
    getColEnd (.IfStmt loc cond' ifBody' (some p')) =
      getColEnd (.IfStmt loc cond ifBody (some p)) := by
  rw [getColEnd_IfStmt, getColEnd_IfStmt]
  simp only [h]

theorem getLineBegin_modifyChild (g : HIRNode → HIRNode)
    (hg : ∀ c : HIRNode, getLineBegin (g c) = getLineBegin c) (i j : Nat) (n : HIRNode) :
    getLineBegin (modifyChild i j g n) = getLineBegin n := by
  cases n with
  | Program loc elems => rcases i with _ | _ | _ | _ | _ <;> rfl
  | StmtBlock loc stmts => rcases i with _ | _ | _ | _ | _ <;> rfl
  | RangeIndexSet loc range => rcases i with _ | _ | _ | _ | _ <;> rfl
  | SetIndexSet loc setName => rcases i with _ | _ | _ | _ | _ <;> rfl
  | DynamicIndexSet loc => rcases i with _ | _ | _ | _ | _ <;> rfl
  | ElementType loc ident => rcases i with _ | _ | _ | _ | _ <;> rfl
  | Endpoint loc setName => rcases i with _ | _ | _ | _ | _ <;> rfl
  | SetType loc element endpoints => rcases i with _ | _ | _ | _ | _ <;> rfl
  | TupleLength loc val => rcases i with _ | _ | _ | _ | _ <;> rfl
  | TupleType loc element length => rcases i with _ | _ | _ | _ | _ <;> rfl
  | ScalarTensorType loc type => rcases i with _ | _ | _ | _ | _ <;> rfl
  | NonScalarTensorType loc indexSets blockType transposed => rcases i with _ | _ | _ | _ | _ <;> rfl
  | Identifier loc ident => rcases i with _ | _ | _ | _ | _ <;> rfl
  | IdentDecl loc name type =>
    rcases i with _ | _ | _ | _ | _ <;> first
      | rfl
      | (cases name <;> first | rfl | exact hg _)
  | Field loc field =>
    rcases i with _ | _ | _ | _ | _ <;> first
      | rfl
      | (cases field <;> first | rfl | exact hg _)
  | ElementTypeDecl loc name fields => rcases i with _ | _ | _ | _ | _ <;> rfl
  | Argument loc name type inout =>
    rcases i with _ | _ | _ | _ | _ <;> first
      | rfl
      | (cases name <;> first | rfl | exact hg _)
  | ExternDecl loc var => rcases i with _ | _ | _ | _ | _ <;> rfl
  | FuncDecl loc name args results body => rcases i with _ | _ | _ | _ | _ <;> rfl
  | ProcDecl loc name args results body => rcases i with _ | _ | _ | _ | _ <;> rfl
  | VarDecl loc var initVal => rcases i with _ | _ | _ | _ | _ <;> rfl
  | ConstDecl loc var initVal => rcases i with _ | _ | _ | _ | _ <;> rfl
  | WhileStmt loc cond body => rcases i with _ | _ | _ | _ | _ <;> rfl
  | DoWhileStmt loc cond body => rcases i with _ | _ | _ | _ | _ <;> rfl
  | IfStmt loc cond ifBody elseBody => rcases i with _ | _ | _ | _ | _ <;> rfl
  | IndexSetDomain loc set =>
    rcases i with _ | _ | _ | _ | _ <;> first
      | rfl
      | (cases set <;> first | rfl | exact hg _)
  | RangeDomain loc lower upper =>
    rcases i with _ | _ | _ | _ | _ <;> first
      | rfl
      | (cases lower <;> first | rfl | exact hg _)
  | ForStmt loc loopVar domain body => rcases i with _ | _ | _ | _ | _ <;> rfl
  | PrintStmt loc expr => rcases i with _ | _ | _ | _ | _ <;> rfl
  | ExprStmt loc expr =>
    rcases i with _ | _ | _ | _ | _ <;> first
      | rfl
      | (cases expr <;> first | rfl | exact hg _)
  | AssignStmt loc expr lhs =>
    rcases i with _ | _ | _ | _ | _ <;> first
      | rfl
      | (cases lhs with
        | nil => rfl
        | cons p r => cases j <;> cases p <;> first | rfl | exact hg _)
  | Slice loc => rcases i with _ | _ | _ | _ | _ <;> rfl
  | ExprParam loc expr =>
    rcases i with _ | _ | _ | _ | _ <;> first
      | rfl
      | (cases expr <;> first | rfl | exact hg _)
  | MapExpr loc type func partialActuals target op => rcases i with _ | _ | _ | _ | _ <;> rfl
  | OrExpr loc type lhs rhs =>
    rcases i with _ | _ | _ | _ | _ <;> first
      | rfl
      | (cases lhs <;> first | rfl | exact hg _)
  | AndExpr loc type lhs rhs =>
    rcases i with _ | _ | _ | _ | _ <;> first
      | rfl
      | (cases lhs <;> first | rfl | exact hg _)
  | XorExpr loc type lhs rhs =>
    rcases i with _ | _ | _ | _ | _ <;> first
      | rfl
      | (cases lhs <;> first | rfl | exact hg _)
  | EqExpr loc type operands ops =>
    rcases i with _ | _ | _ | _ | _ <;> first
      | rfl
      | (cases operands with
        | nil => rfl
        | cons p r => cases j <;> cases p <;> first | rfl | exact hg _)
  | NotExpr loc type operand => rcases i with _ | _ | _ | _ | _ <;> rfl
  | AddExpr loc type lhs rhs =>
    rcases i with _ | _ | _ | _ | _ <;> first
      | rfl
      | (cases lhs <;> first | rfl | exact hg _)
  | SubExpr loc type lhs rhs =>
    rcases i with _ | _ | _ | _ | _ <;> first
      | rfl
      | (cases lhs <;> first | rfl | exact hg _)
  | MulExpr loc type lhs rhs =>
    rcases i with _ | _ | _ | _ | _ <;> first
      | rfl
      | (cases lhs <;> first | rfl | exact hg _)
  | DivExpr loc type lhs rhs =>
    rcases i with _ | _ | _ | _ | _ <;> first
      | rfl
      | (cases lhs <;> first | rfl | exact hg _)
  | ElwiseMulExpr loc type lhs rhs =>
    rcases i with _ | _ | _ | _ | _ <;> first
      | rfl
      | (cases lhs <;> first | rfl | exact hg _)
  | ElwiseDivExpr loc type lhs rhs =>
    rcases i with _ | _ | _ | _ | _ <;> first
      | rfl
      | (cases lhs <;> first | rfl | exact hg _)
  | NegExpr loc type operand negate => rcases i with _ | _ | _ | _ | _ <;> rfl
  | ExpExpr loc type lhs rhs =>
    rcases i with _ | _ | _ | _ | _ <;> first
      | rfl
      | (cases lhs <;> first | rfl | exact hg _)
  | TransposeExpr loc type operand =>
    rcases i with _ | _ | _ | _ | _ <;> first
      | rfl
      | (cases operand <;> first | rfl | exact hg _)
  | CallExpr loc type operands func =>
    rcases i with _ | _ | _ | _ | _ <;> first
      | rfl
      | (cases func <;> first | rfl | exact hg _)
  | TensorReadExpr loc type tensor indices =>
    rcases i with _ | _ | _ | _ | _ <;> first
      | rfl
      | (cases tensor <;> first | rfl | exact hg _)
  | TupleReadExpr loc type tuple index =>
    rcases i with _ | _ | _ | _ | _ <;> first
      | rfl
      | (cases tuple <;> first | rfl | exact hg _)
  | FieldReadExpr loc type setOrElem field =>
    rcases i with _ | _ | _ | _ | _ <;> first
      | rfl
      | (cases setOrElem <;> first | rfl | exact hg _)
  | ParenExpr loc type expr => rcases i with _ | _ | _ | _ | _ <;> rfl
  | VarExpr loc type ident => rcases i with _ | _ | _ | _ | _ <;> rfl
  | IntLiteral loc type val => rcases i with _ | _ | _ | _ | _ <;> rfl
  | FloatLiteral loc type val => rcases i with _ | _ | _ | _ | _ <;> rfl
  | BoolLiteral loc type val => rcases i with _ | _ | _ | _ | _ <;> rfl
  | DenseIntVector loc vals => rcases i with _ | _ | _ | _ | _ <;> rfl
  | DenseFloatVector loc vals => rcases i with _ | _ | _ | _ | _ <;> rfl
  | DenseNDTensor loc elems => rcases i with _ | _ | _ | _ | _ <;> rfl
  | DenseTensorLiteral loc type tensor transposed =>
    rcases i with _ | _ | _ | _ | _ <;> first
      | rfl
      | (cases tensor <;> first | rfl | exact hg _)
  | Test loc func args expected => rcases i with _ | _ | _ | _ | _ <;> rfl

theorem getColBegin_modifyChild (g : HIRNode → HIRNode)
    (hg : ∀ c : HIRNode, getColBegin (g c) = getColBegin c) (i j : Nat) (n : HIRNode) :
    getColBegin (modifyChild i j g n) = getColBegin n := by
  cases n with
  | Program loc elems => rcases i with _ | _ | _ | _ | _ <;> rfl
  | StmtBlock loc stmts => rcases i with _ | _ | _ | _ | _ <;> rfl
  | RangeIndexSet loc range => rcases i with _ | _ | _ | _ | _ <;> rfl
  | SetIndexSet loc setName => rcases i with _ | _ | _ | _ | _ <;> rfl
  | DynamicIndexSet loc => rcases i with _ | _ | _ | _ | _ <;> rfl
  | ElementType loc ident => rcases i with _ | _ | _ | _ | _ <;> rfl
  | Endpoint loc setName => rcases i with _ | _ | _ | _ | _ <;> rfl
  | SetType loc element endpoints => rcases i with _ | _ | _ | _ | _ <;> rfl
  | TupleLength loc val => rcases i with _ | _ | _ | _ | _ <;> rfl
  | TupleType loc element length => rcases i with _ | _ | _ | _ | _ <;> rfl
  | ScalarTensorType loc type => rcases i with _ | _ | _ | _ | _ <;> rfl
  | NonScalarTensorType loc indexSets blockType transposed => rcases i with _ | _ | _ | _ | _ <;> rfl
  | Identifier loc ident => rcases i with _ | _ | _ | _ | _ <;> rfl
  | IdentDecl loc name type =>
    rcases i with _ | _ | _ | _ | _ <;> first
      | rfl
      | (cases name <;> first | rfl | exact hg _)
  | Field loc field =>
    rcases i with _ | _ | _ | _ | _ <;> first
      | rfl
      | (cases field <;> first | rfl | exact hg _)
  | ElementTypeDecl loc name fields => rcases i with _ | _ | _ | _ | _ <;> rfl
  | Argument loc name type inout =>
    rcases i with _ | _ | _ | _ | _ <;> first
      | rfl
      | (cases name <;> first | rfl | exact hg _)
  | ExternDecl loc var => rcases i with _ | _ | _ | _ | _ <;> rfl
  | FuncDecl loc name args results body => rcases i with _ | _ | _ | _ | _ <;> rfl
  | ProcDecl loc name args results body => rcases i with _ | _ | _ | _ | _ <;> rfl
  | VarDecl loc var initVal => rcases i with _ | _ | _ | _ | _ <;> rfl
  | ConstDecl loc var initVal => rcases i with _ | _ | _ | _ | _ <;> rfl
  | WhileStmt loc cond body => rcases i with _ | _ | _ | _ | _ <;> rfl
  | DoWhileStmt loc cond body => rcases i with _ | _ | _ | _ | _ <;> rfl
  | IfStmt loc cond ifBody elseBody => rcases i with _ | _ | _ | _ | _ <;> rfl
  | IndexSetDomain loc set =>
    rcases i with _ | _ | _ | _ | _ <;> first
      | rfl
      | (cases set <;> first | rfl | exact hg _)
  | RangeDomain loc lower upper =>
    rcases i with _ | _ | _ | _ | _ <;> first
      | rfl
      | (cases lower <;> first | rfl | exact hg _)
  | ForStmt loc loopVar domain body => rcases i with _ | _ | _ | _ | _ <;> rfl
  | PrintStmt loc expr => rcases i with _ | _ | _ | _ | _ <;> rfl
  | ExprStmt loc expr =>
    rcases i with _ | _ | _ | _ | _ <;> first
      | rfl
      | (cases expr <;> first | rfl | exact hg _)
  | AssignStmt loc expr lhs =>
    rcases i with _ | _ | _ | _ | _ <;> first
      | rfl
      | (cases lhs with
        | nil => rfl
        | cons p r => cases j <;> cases p <;> first | rfl | exact hg _)
  | Slice loc => rcases i with _ | _ | _ | _ | _ <;> rfl
  | ExprParam loc expr =>
    rcases i with _ | _ | _ | _ | _ <;> first
      | rfl
      | (cases expr <;> first | rfl | exact hg _)
  | MapExpr loc type func partialActuals target op => rcases i with _ | _ | _ | _ | _ <;> rfl
  | OrExpr loc type lhs rhs =>
    rcases i with _ | _ | _ | _ | _ <;> first
      | rfl
      | (cases lhs <;> first | rfl | exact hg _)
  | AndExpr loc type lhs rhs =>
    rcases i with _ | _ | _ | _ | _ <;> first
      | rfl
      | (cases lhs <;> first | rfl | exact hg _)
  | XorExpr loc type lhs rhs =>
    rcases i with _ | _ | _ | _ | _ <;> first
      | rfl
      | (cases lhs <;> first | rfl | exact hg _)
  | EqExpr loc type operands ops =>
    rcases i with _ | _ | _ | _ | _ <;> first
      | rfl
      | (cases operands with
        | nil => rfl
        | cons p r => cases j <;> cases p <;> first | rfl | exact hg _)
  | NotExpr loc type operand => rcases i with _ | _ | _ | _ | _ <;> rfl
  | AddExpr loc type lhs rhs =>
    rcases i with _ | _ | _ | _ | _ <;> first
      | rfl
      | (cases lhs <;> first | rfl | exact hg _)
  | SubExpr loc type lhs rhs =>
    rcases i with _ | _ | _ | _ | _ <;> first
      | rfl
      | (cases lhs <;> first | rfl | exact hg _)
  | MulExpr loc type lhs rhs =>
    rcases i with _ | _ | _ | _ | _ <;> first
      | rfl
      | (cases lhs <;> first | rfl | exact hg _)
  | DivExpr loc type lhs rhs =>
    rcases i with _ | _ | _ | _ | _ <;> first
      | rfl
      | (cases lhs <;> first | rfl | exact hg _)
  | ElwiseMulExpr loc type lhs rhs =>
    rcases i with _ | _ | _ | _ | _ <;> first
      | rfl
      | (cases lhs <;> first | rfl | exact hg _)
  | ElwiseDivExpr loc type lhs rhs =>
    rcases i with _ | _ | _ | _ | _ <;> first
      | rfl
      | (cases lhs <;> first | rfl | exact hg _)
  | NegExpr loc type operand negate => rcases i with _ | _ | _ | _ | _ <;> rfl
  | ExpExpr loc type lhs rhs =>
    rcases i with _ | _ | _ | _ | _ <;> first
      | rfl
      | (cases lhs <;> first | rfl | exact hg _)
  | TransposeExpr loc type operand =>
    rcases i with _ | _ | _ | _ | _ <;> first
      | rfl
      | (cases operand <;> first | rfl | exact hg _)
  | CallExpr loc type operands func =>
    rcases i with _ | _ | _ | _ | _ <;> first
      | rfl
      | (cases func <;> first | rfl | exact hg _)
  | TensorReadExpr loc type tensor indices =>
    rcases i with _ | _ | _ | _ | _ <;> first
      | rfl
      | (cases tensor <;> first | rfl | exact hg _)
  | TupleReadExpr loc type tuple index =>
    rcases i with _ | _ | _ | _ | _ <;> first
      | rfl
      | (cases tuple <;> first | rfl | exact hg _)
  | FieldReadExpr loc type setOrElem field =>
    rcases i with _ | _ | _ | _ | _ <;> first
      | rfl
      | (cases setOrElem <;> first | rfl | exact hg _)
  | ParenExpr loc type expr => rcases i with _ | _ | _ | _ | _ <;> rfl
  | VarExpr loc type ident => rcases i with _ | _ | _ | _ | _ <;> rfl
  | IntLiteral loc type val => rcases i with _ | _ | _ | _ | _ <;> rfl
  | FloatLiteral loc type val => rcases i with _ | _ | _ | _ | _ <;> rfl
  | BoolLiteral loc type val => rcases i with _ | _ | _ | _ | _ <;> rfl
  | DenseIntVector loc vals => rcases i with _ | _ | _ | _ | _ <;> rfl
  | DenseFloatVector loc vals => rcases i with _ | _ | _ | _ | _ <;> rfl
  | DenseNDTensor loc elems => rcases i with _ | _ | _ | _ | _ <;> rfl
  | DenseTensorLiteral loc type tensor transposed =>
    rcases i with _ | _ | _ | _ | _ <;> first
      | rfl
      | (cases tensor <;> first | rfl | exact hg _)
  | Test loc func args expected => rcases i with _ | _ | _ | _ | _ <;> rfl

theorem getLineEnd_modifyChild (g : HIRNode → HIRNode)
    (hg : ∀ c : HIRNode, getLineEnd (g c) = getLineEnd c) (i j : Nat) (n : HIRNode) :
    getLineEnd (modifyChild i j g n) = getLineEnd n := by
  cases n with
  | Program loc elems => rcases i with _ | _ | _ | _ | _ <;> rfl
  | StmtBlock loc stmts => rcases i with _ | _ | _ | _ | _ <;> rfl
  | RangeIndexSet loc range => rcases i with _ | _ | _ | _ | _ <;> rfl
  | SetIndexSet loc setName => rcases i with _ | _ | _ | _ | _ <;> rfl
  | DynamicIndexSet loc => rcases i with _ | _ | _ | _ | _ <;> rfl
  | ElementType loc ident => rcases i with _ | _ | _ | _ | _ <;> rfl
  | Endpoint loc setName => rcases i with _ | _ | _ | _ | _ <;> rfl
  | SetType loc element endpoints => rcases i with _ | _ | _ | _ | _ <;> rfl
  | TupleLength loc val => rcases i with _ | _ | _ | _ | _ <;> rfl
  | TupleType loc element length => rcases i with _ | _ | _ | _ | _ <;> rfl
  | ScalarTensorType loc type => rcases i with _ | _ | _ | _ | _ <;> rfl
  | NonScalarTensorType loc indexSets blockType transposed => rcases i with _ | _ | _ | _ | _ <;> rfl
  | Identifier loc ident => rcases i with _ | _ | _ | _ | _ <;> rfl
  | IdentDecl loc name type =>
    rcases i with _ | _ | _ | _ | _ <;> first
      | rfl
      | (cases type <;> first | rfl | exact hg _)
  | Field loc field => rcases i with _ | _ | _ | _ | _ <;> rfl
  | ElementTypeDecl loc name fields => rcases i with _ | _ | _ | _ | _ <;> rfl
  | Argument loc name type inout =>
    rcases i with _ | _ | _ | _ | _ <;> first
      | rfl
      | (cases type <;> first | rfl | exact hg _)
  | ExternDecl loc var => rcases i with _ | _ | _ | _ | _ <;> rfl
  | FuncDecl loc name args results body => rcases i with _ | _ | _ | _ | _ <;> rfl
  | ProcDecl loc name args results body => rcases i with _ | _ | _ | _ | _ <;> rfl
  | VarDecl loc var initVal => rcases i with _ | _ | _ | _ | _ <;> rfl
  | ConstDecl loc var initVal => rcases i with _ | _ | _ | _ | _ <;> rfl
  | WhileStmt loc cond body => rcases i with _ | _ | _ | _ | _ <;> rfl
  | DoWhileStmt loc cond body =>
    rcases i with _ | _ | _ | _ | _ <;> first
      | rfl
      | (cases cond <;> first | rfl | exact hg _)
  | IfStmt loc cond ifBody elseBody =>
    cases elseBody with
    | none => rcases i with _ | _ | _ | _ | _ <;> rfl
    | some p =>
      rcases i with _ | _ | _ | _ | _ <;> first
        | rfl
        | exact getLineEnd_IfStmt_congr loc _ _ _ _ _ _ (hg p)
  | IndexSetDomain loc set =>
    rcases i with _ | _ | _ | _ | _ <;> first
      | rfl
      | (cases set <;> first | rfl | exact hg _)
  | RangeDomain loc lower upper =>
    rcases i with _ | _ | _ | _ | _ <;> first
      | rfl
      | (cases upper <;> first | rfl | exact hg _)
  | ForStmt loc loopVar domain body => rcases i with _ | _ | _ | _ | _ <;> rfl
  | PrintStmt loc expr => rcases i with _ | _ | _ | _ | _ <;> rfl
  | ExprStmt loc expr => rcases i with _ | _ | _ | _ | _ <;> rfl
  | AssignStmt loc expr lhs => rcases i with _ | _ | _ | _ | _ <;> rfl
  | Slice loc => rcases i with _ | _ | _ | _ | _ <;> rfl
  | ExprParam loc expr =>
    rcases i with _ | _ | _ | _ | _ <;> first
      | rfl
      | (cases expr <;> first | rfl | exact hg _)
  | MapExpr loc type func partialActuals target op =>
    cases op <;> rcases i with _ | _ | _ | _ | _ <;> first
      | rfl
      | (cases target <;> first | rfl | exact hg _)
  | OrExpr loc type lhs rhs =>
    rcases i with _ | _ | _ | _ | _ <;> first
      | rfl
      | (cases rhs <;> first | rfl | exact hg _)
  | AndExpr loc type lhs rhs =>
    rcases i with _ | _ | _ | _ | _ <;> first
      | rfl
      | (cases rhs <;> first | rfl | exact hg _)
  | XorExpr loc type lhs rhs =>
    rcases i with _ | _ | _ | _ | _ <;> first
      | rfl
      | (cases rhs <;> first | rfl | exact hg _)
  | EqExpr loc type operands ops =>
    rcases i with _ | _ | _ | _ | _ <;> first
      | rfl
      | exact getLineEnd_back_modifyElem g hg j operands
  | NotExpr loc type operand =>
    rcases i with _ | _ | _ | _ | _ <;> first
      | rfl
      | (cases operand <;> first | rfl | exact hg _)
  | AddExpr loc type lhs rhs =>
    rcases i with _ | _ | _ | _ | _ <;> first
      | rfl
      | (cases rhs <;> first | rfl | exact hg _)
  | SubExpr loc type lhs rhs =>
    rcases i with _ | _ | _ | _ | _ <;> first
      | rfl
      | (cases rhs <;> first | rfl | exact hg _)
  | MulExpr loc type lhs rhs =>
    rcases i with _ | _ | _ | _ | _ <;> first
      | rfl
      | (cases rhs <;> first | rfl | exact hg _)
  | DivExpr loc type lhs rhs =>
    rcases i with _ | _ | _ | _ | _ <;> first
      | rfl
      | (cases rhs <;> first | rfl | exact hg _)
  | ElwiseMulExpr loc type lhs rhs =>
    rcases i with _ | _ | _ | _ | _ <;> first
      | rfl
      | (cases rhs <;> first | rfl | exact hg _)
  | ElwiseDivExpr loc type lhs rhs =>
    rcases i with _ | _ | _ | _ | _ <;> first
      | rfl
      | (cases rhs <;> first | rfl | exact hg _)
  | NegExpr loc type operand negate =>
    rcases i with _ | _ | _ | _ | _ <;> first
      | rfl
      | (cases operand <;> first | rfl | exact hg _)
  | ExpExpr loc type lhs rhs =>
    rcases i with _ | _ | _ | _ | _ <;> first
      | rfl
      | (cases rhs <;> first | rfl | exact hg _)
  | TransposeExpr loc type operand => rcases i with _ | _ | _ | _ | _ <;> rfl
  | CallExpr loc type operands func => rcases i with _ | _ | _ | _ | _ <;> rfl
  | TensorReadExpr loc type tensor indices => rcases i with _ | _ | _ | _ | _ <;> rfl
  | TupleReadExpr loc type tuple index => rcases i with _ | _ | _ | _ | _ <;> rfl
  | FieldReadExpr loc type setOrElem field =>
    rcases i with _ | _ | _ | _ | _ <;> first
      | rfl
      | (cases field <;> first | rfl | exact hg _)
  | ParenExpr loc type expr => rcases i with _ | _ | _ | _ | _ <;> rfl
  | VarExpr loc type ident => rcases i with _ | _ | _ | _ | _ <;> rfl
  | IntLiteral loc type val => rcases i with _ | _ | _ | _ | _ <;> rfl
  | FloatLiteral loc type val => rcases i with _ | _ | _ | _ | _ <;> rfl
  | BoolLiteral loc type val => rcases i with _ | _ | _ | _ | _ <;> rfl
  | DenseIntVector loc vals => rcases i with _ | _ | _ | _ | _ <;> rfl
  | DenseFloatVector loc vals => rcases i with _ | _ | _ | _ | _ <;> rfl
  | DenseNDTensor loc elems => rcases i with _ | _ | _ | _ | _ <;> rfl
  | DenseTensorLiteral loc type tensor transposed =>
    rcases i with _ | _ | _ | _ | _ <;> first
      | rfl
      | (cases tensor <;> first | rfl | exact hg _)
  | Test loc func args expected => rcases i with _ | _ | _ | _ | _ <;> rfl

theorem getColEnd_modifyChild (g : HIRNode → HIRNode)
    (hg : ∀ c : HIRNode, getColEnd (g c) = getColEnd c) (i j : Nat) (n : HIRNode) :
    getColEnd (modifyChild i j g n) = getColEnd n := by
  cases n with
  | Program loc elems => rcases i with _ | _ | _ | _ | _ <;> rfl
  | StmtBlock loc stmts => rcases i with _ | _ | _ | _ | _ <;> rfl
  | RangeIndexSet loc range => rcases i with _ | _ | _ | _ | _ <;> rfl
  | SetIndexSet loc setName => rcases i with _ | _ | _ | _ | _ <;> rfl
  | DynamicIndexSet loc => rcases i with _ | _ | _ | _ | _ <;> rfl
  | ElementType loc ident => rcases i with _ | _ | _ | _ | _ <;> rfl
  | Endpoint loc setName => rcases i with _ | _ | _ | _ | _ <;> rfl
  | SetType loc element endpoints => rcases i with _ | _ | _ | _ | _ <;> rfl
  | TupleLength loc val => rcases i with _ | _ | _ | _ | _ <;> rfl
  | TupleType loc element length => rcases i with _ | _ | _ | _ | _ <;> rfl
  | ScalarTensorType loc type => rcases i with _ | _ | _ | _ | _ <;> rfl
  | NonScalarTensorType loc indexSets blockType transposed => rcases i with _ | _ | _ | _ | _ <;> rfl
  | Identifier loc ident => rcases i with _ | _ | _ | _ | _ <;> rfl
  | IdentDecl loc name type =>
    rcases i with _ | _ | _ | _ | _ <;> first
      | rfl
      | (cases type <;> first | rfl | exact hg _)
  | Field loc field => rcases i with _ | _ | _ | _ | _ <;> rfl
  | ElementTypeDecl loc name fields => rcases i with _ | _ | _ | _ | _ <;> rfl
  | Argument loc name type inout =>
    rcases i with _ | _ | _ | _ | _ <;> first
      | rfl
      | (cases type <;> first | rfl | exact hg _)
  | ExternDecl loc var => rcases i with _ | _ | _ | _ | _ <;> rfl
  | FuncDecl loc name args results body => rcases i with _ | _ | _ | _ | _ <;> rfl
  | ProcDecl loc name args results body => rcases i with _ | _ | _ | _ | _ <;> rfl
  | VarDecl loc var initVal => rcases i with _ | _ | _ | _ | _ <;> rfl
  | ConstDecl loc var initVal => rcases i with _ | _ | _ | _ | _ <;> rfl
  | WhileStmt loc cond body => rcases i with _ | _ | _ | _ | _ <;> rfl
  | DoWhileStmt loc cond body =>
    rcases i with _ | _ | _ | _ | _ <;> first
      | rfl
      | (cases cond <;> first | rfl | exact hg _)
  | IfStmt loc cond ifBody elseBody =>
    cases elseBody with
    | none => rcases i with _ | _ | _ | _ | _ <;> rfl
    | some p =>
      rcases i with _ | _ | _ | _ | _ <;> first
        | rfl
        | exact getColEnd_IfStmt_congr loc _ _ _ _ _ _ (hg p)
  | IndexSetDomain loc set =>
    rcases i with _ | _ | _ | _ | _ <;> first
      | rfl
      | (cases set <;> first | rfl | exact hg _)
  | RangeDomain loc lower upper =>
    rcases i with _ | _ | _ | _ | _ <;> first
      | rfl
      | (cases upper <;> first | rfl | exact hg _)
  | ForStmt loc loopVar domain body => rcases i with _ | _ | _ | _ | _ <;> rfl
  | PrintStmt loc expr => rcases i with _ | _ | _ | _ | _ <;> rfl
  | ExprStmt loc expr => rcases i with _ | _ | _ | _ | _ <;> rfl
  | AssignStmt loc expr lhs => rcases i with _ | _ | _ | _ | _ <;> rfl
  | Slice loc => rcases i with _ | _ | _ | _ | _ <;> rfl
  | ExprParam loc expr =>
    rcases i with _ | _ | _ | _ | _ <;> first
      | rfl
      | (cases expr <;> first | rfl | exact hg _)
  | MapExpr loc type func partialActuals target op =>
    cases op <;> rcases i with _ | _ | _ | _ | _ <;> first
      | rfl
      | (cases target <;> first | rfl | exact hg _)
  | OrExpr loc type lhs rhs =>
    rcases i with _ | _ | _ | _ | _ <;> first
      | rfl
      | (cases rhs <;> first | rfl | exact hg _)
  | AndExpr loc type lhs rhs =>
    rcases i with _ | _ | _ | _ | _ <;> first
      | rfl
      | (cases rhs <;> first | rfl | exact hg _)
  | XorExpr loc type lhs rhs =>
    rcases i with _ | _ | _ | _ | _ <;> first
      | rfl
      | (cases rhs <;> first | rfl | exact hg _)
  | EqExpr loc type operands ops =>
    rcases i with _ | _ | _ | _ | _ <;> first
      | rfl
      | exact getColEnd_back_modifyElem g hg j operands
  | NotExpr loc type operand =>
    rcases i with _ | _ | _ | _ | _ <;> first
      | rfl
      | (cases operand <;> first | rfl | exact hg _)
  | AddExpr loc type lhs rhs =>
    rcases i with _ | _ | _ | _ | _ <;> first
      | rfl
      | (cases rhs <;> first | rfl | exact hg _)
  | SubExpr loc type lhs rhs =>
    rcases i with _ | _ | _ | _ | _ <;> first
      | rfl
      | (cases rhs <;> first | rfl | exact hg _)
  | MulExpr loc type lhs rhs =>
    rcases i with _ | _ | _ | _ | _ <;> first
      | rfl
      | (cases rhs <;> first | rfl | exact hg _)
  | DivExpr loc type lhs rhs =>
    rcases i with _ | _ | _ | _ | _ <;> first
      | rfl
      | (cases rhs <;> first | rfl | exact hg _)
  | ElwiseMulExpr loc type lhs rhs =>
    rcases i with _ | _ | _ | _ | _ <;> first
      | rfl
      | (cases rhs <;> first | rfl | exact hg _)
  | ElwiseDivExpr loc type lhs rhs =>
    rcases i with _ | _ | _ | _ | _ <;> first
      | rfl
      | (cases rhs <;> first | rfl | exact hg _)
  | NegExpr loc type operand negate =>
    rcases i with _ | _ | _ | _ | _ <;> first
      | rfl
      | (cases operand <;> first | rfl | exact hg _)
  | ExpExpr loc type lhs rhs =>
    rcases i with _ | _ | _ | _ | _ <;> first
      | rfl
      | (cases rhs <;> first | rfl | exact hg _)
  | TransposeExpr loc type operand => rcases i with _ | _ | _ | _ | _ <;> rfl
  | CallExpr loc type operands func => rcases i with _ | _ | _ | _ | _ <;> rfl
  | TensorReadExpr loc type tensor indices => rcases i with _ | _ | _ | _ | _ <;> rfl
  | TupleReadExpr loc type tuple index => rcases i with _ | _ | _ | _ | _ <;> rfl
  | FieldReadExpr loc type setOrElem field =>
    rcases i with _ | _ | _ | _ | _ <;> first
      | rfl
      | (cases field <;> first | rfl | exact hg _)
  | ParenExpr loc type expr => rcases i with _ | _ | _ | _ | _ <;> rfl
  | VarExpr loc type ident => rcases i with _ | _ | _ | _ | _ <;> rfl
  | IntLiteral loc type val => rcases i with _ | _ | _ | _ | _ <;> rfl
  | FloatLiteral loc type val => rcases i with _ | _ | _ | _ | _ <;> rfl
  | BoolLiteral loc type val => rcases i with _ | _ | _ | _ | _ <;> rfl
  | DenseIntVector loc vals => rcases i with _ | _ | _ | _ | _ <;> rfl
  | DenseFloatVector loc vals => rcases i with _ | _ | _ | _ | _ <;> rfl
  | DenseNDTensor loc elems => rcases i with _ | _ | _ | _ | _ <;> rfl
  | DenseTensorLiteral loc type tensor transposed =>
    rcases i with _ | _ | _ | _ | _ <;> first
      | rfl
      | (cases tensor <;> first | rfl | exact hg _)
  | Test loc func args expected => rcases i with _ | _ | _ | _ | _ <;> rfl

theorem span_type_push_back (t : IRType) (n : HIRNode) :
    getLineBegin (type_push_back t n) = getLineBegin n ∧
    getColBegin (type_push_back t n) = getColBegin n ∧
    getLineEnd (type_push_back t n) = getLineEnd n ∧
    getColEnd (type_push_back t n) = getColEnd n := by
  cases n with
  | Program loc elems => exact ⟨rfl, rfl, rfl, rfl⟩
  | StmtBlock loc stmts => exact ⟨rfl, rfl, rfl, rfl⟩
  | RangeIndexSet loc range => exact ⟨rfl, rfl, rfl, rfl⟩
  | SetIndexSet loc setName => exact ⟨rfl, rfl, rfl, rfl⟩
  | DynamicIndexSet loc => exact ⟨rfl, rfl, rfl, rfl⟩
  | ElementType loc ident => exact ⟨rfl, rfl, rfl, rfl⟩
  | Endpoint loc setName => exact ⟨rfl, rfl, rfl, rfl⟩
  | SetType loc element endpoints => exact ⟨rfl, rfl, rfl, rfl⟩
  | TupleLength loc val => exact ⟨rfl, rfl, rfl, rfl⟩
  | TupleType loc element length => exact ⟨rfl, rfl, rfl, rfl⟩
  | ScalarTensorType loc type => exact ⟨rfl, rfl, rfl, rfl⟩
  | NonScalarTensorType loc indexSets blockType transposed => exact ⟨rfl, rfl, rfl, rfl⟩
  | Identifier loc ident => exact ⟨rfl, rfl, rfl, rfl⟩
  | IdentDecl loc name type => exact ⟨rfl, rfl, rfl, rfl⟩
  | Field loc field => exact ⟨rfl, rfl, rfl, rfl⟩
  | ElementTypeDecl loc name fields => exact ⟨rfl, rfl, rfl, rfl⟩
  | Argument loc name type inout => exact ⟨rfl, rfl, rfl, rfl⟩
  | ExternDecl loc var => exact ⟨rfl, rfl, rfl, rfl⟩
  | FuncDecl loc name args results body => exact ⟨rfl, rfl, rfl, rfl⟩
  | ProcDecl loc name args results body => exact ⟨rfl, rfl, rfl, rfl⟩
  | VarDecl loc var initVal => exact ⟨rfl, rfl, rfl, rfl⟩
  | ConstDecl loc var initVal => exact ⟨rfl, rfl, rfl, rfl⟩
  | WhileStmt loc cond body => exact ⟨rfl, rfl, rfl, rfl⟩
  | DoWhileStmt loc cond body => exact ⟨rfl, rfl, rfl, rfl⟩
  | IfStmt loc cond ifBody elseBody => exact ⟨rfl, rfl, rfl, rfl⟩
  | IndexSetDomain loc set => exact ⟨rfl, rfl, rfl, rfl⟩
  | RangeDomain loc lower upper => exact ⟨rfl, rfl, rfl, rfl⟩
  | ForStmt loc loopVar domain body => exact ⟨rfl, rfl, rfl, rfl⟩
  | PrintStmt loc expr => exact ⟨rfl, rfl, rfl, rfl⟩
  | ExprStmt loc expr => exact ⟨rfl, rfl, rfl, rfl⟩
  | AssignStmt loc expr lhs => exact ⟨rfl, rfl, rfl, rfl⟩
  | Slice loc => exact ⟨rfl, rfl, rfl, rfl⟩
  | ExprParam loc expr => exact ⟨rfl, rfl, rfl, rfl⟩
  | MapExpr loc type func partialActuals target op => cases op <;> cases target <;> exact ⟨rfl, rfl, rfl, rfl⟩
  | OrExpr loc type lhs rhs => cases lhs <;> cases rhs <;> exact ⟨rfl, rfl, rfl, rfl⟩
  | AndExpr loc type lhs rhs => cases lhs <;> cases rhs <;> exact ⟨rfl, rfl, rfl, rfl⟩
  | XorExpr loc type lhs rhs => cases lhs <;> cases rhs <;> exact ⟨rfl, rfl, rfl, rfl⟩
  | EqExpr loc type operands ops =>
    cases operands with
    | nil => exact ⟨rfl, rfl, rfl, rfl⟩
    | cons p r => cases p <;> exact ⟨rfl, rfl, rfl, rfl⟩
  | NotExpr loc type operand => cases operand <;> exact ⟨rfl, rfl, rfl, rfl⟩
  | AddExpr loc type lhs rhs => cases lhs <;> cases rhs <;> exact ⟨rfl, rfl, rfl, rfl⟩
  | SubExpr loc type lhs rhs => cases lhs <;> cases rhs <;> exact ⟨rfl, rfl, rfl, rfl⟩
  | MulExpr loc type lhs rhs => cases lhs <;> cases rhs <;> exact ⟨rfl, rfl, rfl, rfl⟩
  | DivExpr loc type lhs rhs => cases lhs <;> cases rhs <;> exact ⟨rfl, rfl, rfl, rfl⟩
  | ElwiseMulExpr loc type lhs rhs => cases lhs <;> cases rhs <;> exact ⟨rfl, rfl, rfl, rfl⟩
  | ElwiseDivExpr loc type lhs rhs => cases lhs <;> cases rhs <;> exact ⟨rfl, rfl, rfl, rfl⟩
  | NegExpr loc type operand negate => cases operand <;> exact ⟨rfl, rfl, rfl, rfl⟩
  | ExpExpr loc type lhs rhs => cases lhs <;> cases rhs <;> exact ⟨rfl, rfl, rfl, rfl⟩
  | TransposeExpr loc type operand => cases operand <;> exact ⟨rfl, rfl, rfl, rfl⟩
  | CallExpr loc type operands func => cases func <;> exact ⟨rfl, rfl, rfl, rfl⟩
  | TensorReadExpr loc type tensor indices => cases tensor <;> exact ⟨rfl, rfl, rfl, rfl⟩
  | TupleReadExpr loc type tuple index => cases tuple <;> exact ⟨rfl, rfl, rfl, rfl⟩
  | FieldReadExpr loc type setOrElem field => cases setOrElem <;> cases field <;> exact ⟨rfl, rfl, rfl, rfl⟩
  | ParenExpr loc type expr => exact ⟨rfl, rfl, rfl, rfl⟩
  | VarExpr loc type ident => exact ⟨rfl, rfl, rfl, rfl⟩
  | IntLiteral loc type val => exact ⟨rfl, rfl, rfl, rfl⟩
  | FloatLiteral loc type val => exact ⟨rfl, rfl, rfl, rfl⟩
  | BoolLiteral loc type val => exact ⟨rfl, rfl, rfl, rfl⟩
  | DenseIntVector loc vals => exact ⟨rfl, rfl, rfl, rfl⟩
  | DenseFloatVector loc vals => exact ⟨rfl, rfl, rfl, rfl⟩
  | DenseNDTensor loc elems => exact ⟨rfl, rfl, rfl, rfl⟩
  | DenseTensorLiteral loc type tensor transposed => cases tensor <;> exact ⟨rfl, rfl, rfl, rfl⟩
  | Test loc func args expected => exact ⟨rfl, rfl, rfl, rfl⟩

theorem span_type_push_back_at (t : IRType) (path : Path) :
    ∀ n : HIRNode,
      getLineBegin (type_push_back_at t path n) = getLineBegin n ∧
      getColBegin (type_push_back_at t path n) = getColBegin n ∧
      getLineEnd (type_push_back_at t path n) = getLineEnd n ∧
      getColEnd (type_push_back_at t path n) = getColEnd n := by
  induction path with
  | nil => exact span_type_push_back t
  | cons step rest ih =>
    intro n
    obtain ⟨i, j⟩ := step
    exact ⟨getLineBegin_modifyChild _ (fun c => (ih c).1) i j n,
      getColBegin_modifyChild _ (fun c => (ih c).2.1) i j n,
      getLineEnd_modifyChild _ (fun c => (ih c).2.2.1) i j n,
      getColEnd_modifyChild _ (fun c => (ih c).2.2.2) i j n⟩

theorem elemAt_modifyElem_same (g : HIRNode → HIRNode) (v : List (Option HIRNode)) :
    ∀ j : Nat, elemAt (modifyElem g j v) j = (elemAt v j).map g := by
  induction v with
  | nil => intro j; rfl
  | cons p rest ih =>
    intro j
    cases j with
    | zero => rfl
    | succ j => exact ih j

theorem elemAt_modifyElem (g : HIRNode → HIRNode) (v : List (Option HIRNode)) :
    ∀ j k : Nat, elemAt (modifyElem g j v) k = elemAt v k ∨
      elemAt (modifyElem g j v) k = (elemAt v k).map g := by
  induction v with
  | nil => intro j k; exact Or.inl rfl
  | cons p rest ih =>
    intro j k
    cases j with
    | zero =>
      cases k with
      | zero => exact Or.inr rfl
      | succ k => exact Or.inl rfl
    | succ j =>
      cases k with
      | zero => exact Or.inl rfl
      | succ k => exact ih j k

theorem childAt_modifyChild_same (g : HIRNode → HIRNode) (i j : Nat) (n : HIRNode) :
    childAt i j (modifyChild i j g n) = (childAt i j n).map g := by
  cases n <;> rcases i with _ | _ | _ | _ | _ <;> first
    | rfl
    | exact elemAt_modifyElem_same g _ j

theorem childAt_modifyChild (g : HIRNode → HIRNode) (i j i' j' : Nat) (n : HIRNode) :
    childAt i' j' (modifyChild i j g n) = childAt i' j' n ∨
      childAt i' j' (modifyChild i j g n) = (childAt i' j' n).map g := by
  cases n <;> rcases i with _ | _ | _ | _ | _ <;> rcases i' with _ | _ | _ | _ | _ <;> first
    | exact Or.inl rfl
    | exact Or.inr rfl
    | exact elemAt_modifyElem g _ j j'

theorem nodeAt_type_push_back_at (t : IRType) (path : Path) :
    ∀ n : HIRNode,
      nodeAt path (type_push_back_at t path n) = (nodeAt path n).map (type_push_back t) := by
  induction path with
  | nil => intro n; rfl
  | cons step rest ih =>
    intro n
    obtain ⟨i, j⟩ := step
    show (match childAt i j (modifyChild i j (type_push_back_at t rest) n) with
      | none => none
      | some c => nodeAt rest c) = _
    rw [childAt_modifyChild_same]
    show _ = Option.map (type_push_back t) (match childAt i j n with
      | none => none
      | some c => nodeAt rest c)
    cases childAt i j n with
    | none => rfl
    | some c => exact ih c

theorem nodeAt_span_type_push_back_at {β : Type} (f : HIRNode → β) (t : IRType)
    (hf : ∀ (path : Path) (n : HIRNode), f (type_push_back_at t path n) = f n) (q : Path) :
    ∀ (path : Path) (n : HIRNode),
      (nodeAt q (type_push_back_at t path n)).map f = (nodeAt q n).map f := by
  induction q with
  | nil =>
    intro path n
    show some (f (type_push_back_at t path n)) = some (f n)
    rw [hf]
  | cons step rest ih =>
    intro path n
    obtain ⟨i', j'⟩ := step
    cases path with
    | nil =>
      have hc : childAt i' j' (type_push_back t n) = childAt i' j' n := by
        cases n <;> rfl
      show (match childAt i' j' (type_push_back t n) with
        | none => none
        | some c => nodeAt rest c).map f = _
      rw [hc]
      rfl
    | cons step' path' =>
      obtain ⟨i, j⟩ := step'
      show (match childAt i' j' (modifyChild i j (type_push_back_at t path') n) with
        | none => none
        | some c => nodeAt rest c).map f =
        (match childAt i' j' n with
        | none => none
        | some c => nodeAt rest c).map f
      rcases childAt_modifyChild (type_push_back_at t path') i j i' j' n with h | h
      · rw [h]
      · rw [h]
        cases childAt i' j' n with
        | none => rfl
        | some c => exact ih path' c

theorem exprType_isSome (n : HIRNode) :
    (exprType n).isSome = derivesFrom (classOf n) .Expr := by
  cases n <;> rfl

theorem make_shared_isSome (C : NodeClass) : (make_shared C).isSome = C.isConcrete := by
  cases C <;> rfl

/-- C17. (1) An object of any instantiable class deriving from `Expr` is built with the empty
annotation. (2) For every expression node `e` with annotation `old`, after
`e->type.push_back(t)` the annotation reads `old` followed by `t`; writing `old` back restores
`e`, so no other member (child, flag, operator, stored span) has changed; the class, the
children and the four span accessors of `e` are unchanged. (3) In every tree `root`, after the
`push_back` on the node at position `path`, that position holds the annotated node, and at every
position `q` of the tree there is a node exactly when there was one before, reporting the same
four span accessors as before. -/
theorem type_annotation_frame (t : IRType) :
    (∀ C : NodeClass, C.isConcrete = true → derivesFrom C .Expr = true →
      ∃ e, make_shared C = some e ∧ classOf e = C ∧ exprType e = some []) ∧
    (∀ (e : HIRNode) (old : List IRType), exprType e = some old →
      exprType (type_push_back t e) = some (old ++ [t]) ∧
      setType old (type_push_back t e) = e ∧
      classOf (type_push_back t e) = classOf e ∧
      (type_push_back t e).loc = e.loc ∧
      (∀ i j : Nat, childAt i j (type_push_back t e) = childAt i j e) ∧
      getLineBegin (type_push_back t e) = getLineBegin e ∧
      getColBegin (type_push_back t e) = getColBegin e ∧
      getLineEnd (type_push_back t e) = getLineEnd e ∧
      getColEnd (type_push_back t e) = getColEnd e) ∧
    (∀ (root : HIRNode) (path : Path),
      nodeAt path (type_push_back_at t path root) =
        (nodeAt path root).map (type_push_back t) ∧
      ∀ q : Path,
        (nodeAt q (type_push_back_at t path root)).map getLineBegin =
          (nodeAt q root).map getLineBegin ∧
        (nodeAt q (type_push_back_at t path root)).map getColBegin =
          (nodeAt q root).map getColBegin ∧
        (nodeAt q (type_push_back_at t path root)).map getLineEnd =
          (nodeAt q root).map getLineEnd ∧
        (nodeAt q (type_push_back_at t path root)).map getColEnd =
          (nodeAt q root).map getColEnd) := by
  refine ⟨?_, ?_, ?_⟩
  · intro C h1 h2
    cases C <;> first
      | exact ⟨_, rfl, rfl, rfl⟩
      | exact absurd h1 (by decide)
      | exact absurd h2 (by decide)
  · intro e old h
    cases e <;> cases h <;>
      exact ⟨rfl, rfl, rfl, rfl, fun _ _ => rfl, span_type_push_back t _⟩
  · intro root path
    refine ⟨nodeAt_type_push_back_at t path root, fun q => ⟨?_, ?_, ?_, ?_⟩⟩
    · exact nodeAt_span_type_push_back_at getLineBegin t
        (fun p n => (span_type_push_back_at t p n).1) q path root
    · exact nodeAt_span_type_push_back_at getColBegin t
        (fun p n => (span_type_push_back_at t p n).2.1) q path root
    · exact nodeAt_span_type_push_back_at getLineEnd t
        (fun p n => (span_type_push_back_at t p n).2.2.1) q path root
    · exact nodeAt_span_type_push_back_at getColEnd t
        (fun p n => (span_type_push_back_at t p n).2.2.2) q path root

/-- C17 on the statement `abc + xyz;`: a fresh `VarExpr` has the empty annotation; after the
`push_back` of a type on `xyz` the node at its position is `xyz` annotated with that type, and
the sum, at position `[(0, 0)]`, still reports the end column 9 of `xyz`, as the statement still
reports the begin column 1. -/
theorem type_annotation_frame_witness :
    make_shared .VarExpr = some (.VarExpr ⟨0, 0, 0, 0⟩ [] "") ∧
    nodeAt xyzPath stmtTree = some rhsVar ∧
    exprType rhsVar = some [] ∧
    nodeAt xyzPath (type_push_back_at intType xyzPath stmtTree) =
      some (.VarExpr ⟨1, 7, 1, 9⟩ [intType] "xyz") ∧
    (nodeAt [(0, 0)] (type_push_back_at intType xyzPath stmtTree)).map getColEnd =
      some (.ok 9) ∧
    (nodeAt [] (type_push_back_at intType xyzPath stmtTree)).map getColBegin =
      some (.ok 1) :=
  have h := type_annotation_frame intType
  ⟨rfl, rfl, rfl, (h.2.2 stmtTree xyzPath).1,
    ((h.2.2 stmtTree xyzPath).2 [(0, 0)]).2.2.2, ((h.2.2 stmtTree xyzPath).2 []).2.1⟩

/-! ## Totality of the span accessors on well-formed trees (C21) -/

theorem getLineEnd_IfStmt_returns (loc : Loc) (cond ifBody : Option HIRNode) (e : HIRNode)
    (h : ReturnsValue (getLineEnd e)) :
    ReturnsValue (getLineEnd (.IfStmt loc cond ifBody (some e))) := by
  unfold ReturnsValue
  rw [getLineEnd_IfStmt]
  by_cases h0 : loc.lineEnd = 0
  · rw [if_pos h0]; exact h
  · rw [if_neg h0]; exact ⟨_, rfl⟩

theorem getColEnd_IfStmt_returns (loc : Loc) (cond ifBody : Option HIRNode) (e : HIRNode)
    (h : ReturnsValue (getColEnd e)) :
    ReturnsValue (getColEnd (.IfStmt loc cond ifBody (some e))) := by
  unfold ReturnsValue
  rw [getColEnd_IfStmt]
  by_cases h0 : loc.lineEnd = 0
  · rw [if_pos h0]; exact h
  · rw [if_neg h0]; exact ⟨_, rfl⟩

theorem getLineEnd_IfStmt_stored (loc : Loc) (cond ifBody elseBody : Option HIRNode)
    (h : loc.lineEnd ≠ 0) : ReturnsValue (getLineEnd (.IfStmt loc cond ifBody elseBody)) :=
  ⟨loc.lineEnd, by rw [getLineEnd_IfStmt, if_neg h]⟩

theorem getColEnd_IfStmt_stored (loc : Loc) (cond ifBody elseBody : Option HIRNode)
    (h : loc.lineEnd ≠ 0) : ReturnsValue (getColEnd (.IfStmt loc cond ifBody elseBody)) :=
  ⟨loc.colEnd, by rw [getColEnd_IfStmt, if_neg h]⟩

mutual
theorem spanDefined_of_wellFormed : ∀ n : HIRNode, wellFormed n = true → SpanDefined n
  | .Program .., _ => ⟨⟨_, rfl⟩, ⟨_, rfl⟩, ⟨_, rfl⟩, ⟨_, rfl⟩⟩
  | .StmtBlock .., _ => ⟨⟨_, rfl⟩, ⟨_, rfl⟩, ⟨_, rfl⟩, ⟨_, rfl⟩⟩
  | .RangeIndexSet .., _ => ⟨⟨_, rfl⟩, ⟨_, rfl⟩, ⟨_, rfl⟩, ⟨_, rfl⟩⟩
  | .SetIndexSet .., _ => ⟨⟨_, rfl⟩, ⟨_, rfl⟩, ⟨_, rfl⟩, ⟨_, rfl⟩⟩
  | .DynamicIndexSet .., _ => ⟨⟨_, rfl⟩, ⟨_, rfl⟩, ⟨_, rfl⟩, ⟨_, rfl⟩⟩
  | .ElementType .., _ => ⟨⟨_, rfl⟩, ⟨_, rfl⟩, ⟨_, rfl⟩, ⟨_, rfl⟩⟩
  | .Endpoint .., _ => ⟨⟨_, rfl⟩, ⟨_, rfl⟩, ⟨_, rfl⟩, ⟨_, rfl⟩⟩
  | .SetType .., _ => ⟨⟨_, rfl⟩, ⟨_, rfl⟩, ⟨_, rfl⟩, ⟨_, rfl⟩⟩
  | .TupleLength .., _ => ⟨⟨_, rfl⟩, ⟨_, rfl⟩, ⟨_, rfl⟩, ⟨_, rfl⟩⟩
  | .TupleType .., _ => ⟨⟨_, rfl⟩, ⟨_, rfl⟩, ⟨_, rfl⟩, ⟨_, rfl⟩⟩
  | .ScalarTensorType .., _ => ⟨⟨_, rfl⟩, ⟨_, rfl⟩, ⟨_, rfl⟩, ⟨_, rfl⟩⟩
  | .NonScalarTensorType .., _ => ⟨⟨_, rfl⟩, ⟨_, rfl⟩, ⟨_, rfl⟩, ⟨_, rfl⟩⟩
  | .Identifier .., _ => ⟨⟨_, rfl⟩, ⟨_, rfl⟩, ⟨_, rfl⟩, ⟨_, rfl⟩⟩
  | .IdentDecl loc (some x_name) (some x_type), h =>
    have h_name := spanDefined_of_wellFormed x_name (and_true_split (delegatesPresent (.IdentDecl
        loc (some x_name) (some x_type))) (wellFormedPtr (some x_name)) (and_true_split
        (delegatesPresent (.IdentDecl loc (some x_name) (some x_type)) && wellFormedPtr (some
        x_name)) (wellFormedPtr (some x_type)) h).1).2
    have h_type := spanDefined_of_wellFormed x_type (and_true_split (delegatesPresent (.IdentDecl
        loc (some x_name) (some x_type)) && wellFormedPtr (some x_name)) (wellFormedPtr (some
        x_type)) h).2
    ⟨h_name.1, h_name.2.1, h_type.2.2.1, h_type.2.2.2⟩
  | .IdentDecl _ none _, h => absurd (show false = true from h) (by decide)
  | .IdentDecl _ (some _) none, h => absurd (show false = true from h) (by decide)
  | .Field loc (some x_field), h =>
    have h_field := spanDefined_of_wellFormed x_field (and_true_split (delegatesPresent (.Field
        loc (some x_field))) (wellFormedPtr (some x_field)) h).2
    ⟨h_field.1, h_field.2.1, ⟨_, rfl⟩, ⟨_, rfl⟩⟩
  | .Field _ none, h => absurd (show false = true from h) (by decide)
  | .ElementTypeDecl .., _ => ⟨⟨_, rfl⟩, ⟨_, rfl⟩, ⟨_, rfl⟩, ⟨_, rfl⟩⟩
  | .Argument loc (some x_name) (some x_type) inout, h =>
    have h_name := spanDefined_of_wellFormed x_name (and_true_split (delegatesPresent (.Argument
        loc (some x_name) (some x_type) inout)) (wellFormedPtr (some x_name)) (and_true_split
        (delegatesPresent (.Argument loc (some x_name) (some x_type) inout) && wellFormedPtr
        (some x_name)) (wellFormedPtr (some x_type)) h).1).2
    have h_type := spanDefined_of_wellFormed x_type (and_true_split (delegatesPresent (.Argument
        loc (some x_name) (some x_type) inout) && wellFormedPtr (some x_name)) (wellFormedPtr
        (some x_type)) h).2
    ⟨h_name.1, h_name.2.1, h_type.2.2.1, h_type.2.2.2⟩
  | .Argument _ none _ _, h => absurd (show false = true from h) (by decide)
  | .Argument _ (some _) none _, h => absurd (show false = true from h) (by decide)
  | .ExternDecl .., _ => ⟨⟨_, rfl⟩, ⟨_, rfl⟩, ⟨_, rfl⟩, ⟨_, rfl⟩⟩
  | .FuncDecl .., _ => ⟨⟨_, rfl⟩, ⟨_, rfl⟩, ⟨_, rfl⟩, ⟨_, rfl⟩⟩
  | .ProcDecl .., _ => ⟨⟨_, rfl⟩, ⟨_, rfl⟩, ⟨_, rfl⟩, ⟨_, rfl⟩⟩
  | .VarDecl .., _ => ⟨⟨_, rfl⟩, ⟨_, rfl⟩, ⟨_, rfl⟩, ⟨_, rfl⟩⟩
  | .ConstDecl .., _ => ⟨⟨_, rfl⟩, ⟨_, rfl⟩, ⟨_, rfl⟩, ⟨_, rfl⟩⟩
  | .WhileStmt .., _ => ⟨⟨_, rfl⟩, ⟨_, rfl⟩, ⟨_, rfl⟩, ⟨_, rfl⟩⟩
  | .DoWhileStmt loc (some x_cond) body, h =>
    have h_cond := spanDefined_of_wellFormed x_cond (and_true_split (delegatesPresent
        (.DoWhileStmt loc (some x_cond) body)) (wellFormedPtr (some x_cond)) (and_true_split
        (delegatesPresent (.DoWhileStmt loc (some x_cond) body) && wellFormedPtr (some x_cond))
        (wellFormedPtr body) h).1).2
    ⟨⟨_, rfl⟩, ⟨_, rfl⟩, h_cond.2.2.1, h_cond.2.2.2⟩
  | .DoWhileStmt _ none _, h => absurd (show false = true from h) (by decide)
  | .IfStmt loc cond ifBody (some e), h =>
    have he := spanDefined_of_wellFormed e (and_true_split (delegatesPresent (.IfStmt loc cond
        ifBody (some e)) && wellFormedPtr cond && wellFormedPtr ifBody) (wellFormedPtr (some e))
        h).2
    ⟨⟨_, rfl⟩, ⟨_, rfl⟩, getLineEnd_IfStmt_returns loc cond ifBody e he.2.2.1,
      getColEnd_IfStmt_returns loc cond ifBody e he.2.2.2⟩
  | .IfStmt loc cond ifBody none, h =>
    have hne : loc.lineEnd ≠ 0 := of_decide_eq_true (and_true_split (delegatesPresent (.IfStmt
        loc cond ifBody none)) (wellFormedPtr cond) (and_true_split (delegatesPresent (.IfStmt
        loc cond ifBody none) && wellFormedPtr cond) (wellFormedPtr ifBody) (and_true_split
        (delegatesPresent (.IfStmt loc cond ifBody none) && wellFormedPtr cond && wellFormedPtr
        ifBody) (wellFormedPtr none) h).1).1).1
    ⟨⟨_, rfl⟩, ⟨_, rfl⟩, getLineEnd_IfStmt_stored loc cond ifBody none hne,
      getColEnd_IfStmt_stored loc cond ifBody none hne⟩
  | .IndexSetDomain loc (some x_set), h =>
    have h_set := spanDefined_of_wellFormed x_set (and_true_split (delegatesPresent
        (.IndexSetDomain loc (some x_set))) (wellFormedPtr (some x_set)) h).2
    ⟨h_set.1, h_set.2.1, h_set.2.2.1, h_set.2.2.2⟩
  | .IndexSetDomain _ none, h => absurd (show false = true from h) (by decide)
  | .RangeDomain loc (some x_lower) (some x_upper), h =>
    have h_lower := spanDefined_of_wellFormed x_lower (and_true_split (delegatesPresent
        (.RangeDomain loc (some x_lower) (some x_upper))) (wellFormedPtr (some x_lower))
        (and_true_split (delegatesPresent (.RangeDomain loc (some x_lower) (some x_upper)) &&
        wellFormedPtr (some x_lower)) (wellFormedPtr (some x_upper)) h).1).2
    have h_upper := spanDefined_of_wellFormed x_upper (and_true_split (delegatesPresent
        (.RangeDomain loc (some x_lower) (some x_upper)) && wellFormedPtr (some x_lower))
        (wellFormedPtr (some x_upper)) h).2
    ⟨h_lower.1, h_lower.2.1, h_upper.2.2.1, h_upper.2.2.2⟩
  | .RangeDomain _ none _, h => absurd (show false = true from h) (by decide)
  | .RangeDomain _ (some _) none, h => absurd (show false = true from h) (by decide)
  | .ForStmt .., _ => ⟨⟨_, rfl⟩, ⟨_, rfl⟩, ⟨_, rfl⟩, ⟨_, rfl⟩⟩
  | .PrintStmt .., _ => ⟨⟨_, rfl⟩, ⟨_, rfl⟩, ⟨_, rfl⟩, ⟨_, rfl⟩⟩
  | .ExprStmt loc (some x_expr), h =>
    have h_expr := spanDefined_of_wellFormed x_expr (and_true_split (delegatesPresent (.ExprStmt
        loc (some x_expr))) (wellFormedPtr (some x_expr)) h).2
    ⟨h_expr.1, h_expr.2.1, ⟨_, rfl⟩, ⟨_, rfl⟩⟩
  | .ExprStmt _ none, h => absurd (show false = true from h) (by decide)
  | .AssignStmt loc expr (some p :: rest), h =>
    have hw := (and_true_split (delegatesPresent (.AssignStmt loc expr (some p :: rest)) &&
        wellFormedPtr expr) (wellFormedList (some p :: rest)) h).2
    have hp := spanDefined_of_wellFormed p
      (and_true_split (wellFormedPtr (some p)) (wellFormedList rest) hw).1
    ⟨hp.1, hp.2.1, ⟨_, rfl⟩, ⟨_, rfl⟩⟩
  | .AssignStmt _ _ [], h => absurd (show false = true from h) (by decide)
  | .AssignStmt _ _ (none :: _), h => absurd (show false = true from h) (by decide)
  | .Slice .., _ => ⟨⟨_, rfl⟩, ⟨_, rfl⟩, ⟨_, rfl⟩, ⟨_, rfl⟩⟩
  | .ExprParam loc (some x_expr), h =>
    have h_expr := spanDefined_of_wellFormed x_expr (and_true_split (delegatesPresent (.ExprParam
        loc (some x_expr))) (wellFormedPtr (some x_expr)) h).2
    ⟨h_expr.1, h_expr.2.1, h_expr.2.2.1, h_expr.2.2.2⟩
  | .ExprParam _ none, h => absurd (show false = true from h) (by decide)
  | .MapExpr loc type func partialActuals (some t) .NONE, h =>
    have ht := spanDefined_of_wellFormed t (and_true_split (delegatesPresent (.MapExpr loc type
        func partialActuals (some t) .NONE) && wellFormedPtr func && wellFormedList
        partialActuals) (wellFormedPtr (some t)) h).2
    ⟨⟨_, rfl⟩, ⟨_, rfl⟩, ht.2.2.1, ht.2.2.2⟩
  | .MapExpr _ _ _ _ none .NONE, h => absurd (show false = true from h) (by decide)
  | .MapExpr _ _ _ _ (some _) .SUM, _ => ⟨⟨_, rfl⟩, ⟨_, rfl⟩, ⟨_, rfl⟩, ⟨_, rfl⟩⟩
  | .MapExpr _ _ _ _ none .SUM, _ => ⟨⟨_, rfl⟩, ⟨_, rfl⟩, ⟨_, rfl⟩, ⟨_, rfl⟩⟩
  | .OrExpr loc type (some x_lhs) (some x_rhs), h =>
    have h_lhs := spanDefined_of_wellFormed x_lhs (and_true_split (delegatesPresent (.OrExpr loc
        type (some x_lhs) (some x_rhs))) (wellFormedPtr (some x_lhs)) (and_true_split
        (delegatesPresent (.OrExpr loc type (some x_lhs) (some x_rhs)) && wellFormedPtr (some
        x_lhs)) (wellFormedPtr (some x_rhs)) h).1).2
    have h_rhs := spanDefined_of_wellFormed x_rhs (and_true_split (delegatesPresent (.OrExpr loc
        type (some x_lhs) (some x_rhs)) && wellFormedPtr (some x_lhs)) (wellFormedPtr (some
        x_rhs)) h).2
    ⟨h_lhs.1, h_lhs.2.1, h_rhs.2.2.1, h_rhs.2.2.2⟩
  | .OrExpr _ _ none _, h => absurd (show false = true from h) (by decide)
  | .OrExpr _ _ (some _) none, h => absurd (show false = true from h) (by decide)
  | .AndExpr loc type (some x_lhs) (some x_rhs), h =>
    have h_lhs := spanDefined_of_wellFormed x_lhs (and_true_split (delegatesPresent (.AndExpr loc
        type (some x_lhs) (some x_rhs))) (wellFormedPtr (some x_lhs)) (and_true_split
        (delegatesPresent (.AndExpr loc type (some x_lhs) (some x_rhs)) && wellFormedPtr (some
        x_lhs)) (wellFormedPtr (some x_rhs)) h).1).2
    have h_rhs := spanDefined_of_wellFormed x_rhs (and_true_split (delegatesPresent (.AndExpr loc
        type (some x_lhs) (some x_rhs)) && wellFormedPtr (some x_lhs)) (wellFormedPtr (some
        x_rhs)) h).2
    ⟨h_lhs.1, h_lhs.2.1, h_rhs.2.2.1, h_rhs.2.2.2⟩
  | .AndExpr _ _ none _, h => absurd (show false = true from h) (by decide)
  | .AndExpr _ _ (some _) none, h => absurd (show false = true from h) (by decide)
  | .XorExpr loc type (some x_lhs) (some x_rhs), h =>
    have h_lhs := spanDefined_of_wellFormed x_lhs (and_true_split (delegatesPresent (.XorExpr loc
        type (some x_lhs) (some x_rhs))) (wellFormedPtr (some x_lhs)) (and_true_split
        (delegatesPresent (.XorExpr loc type (some x_lhs) (some x_rhs)) && wellFormedPtr (some
        x_lhs)) (wellFormedPtr (some x_rhs)) h).1).2
    have h_rhs := spanDefined_of_wellFormed x_rhs (and_true_split (delegatesPresent (.XorExpr loc
        type (some x_lhs) (some x_rhs)) && wellFormedPtr (some x_lhs)) (wellFormedPtr (some
        x_rhs)) h).2
    ⟨h_lhs.1, h_lhs.2.1, h_rhs.2.2.1, h_rhs.2.2.2⟩
  | .XorExpr _ _ none _, h => absurd (show false = true from h) (by decide)
  | .XorExpr _ _ (some _) none, h => absurd (show false = true from h) (by decide)
  | .EqExpr loc type (some p :: rest) ops, h =>
    have hd := (and_true_split (delegatesPresent (.EqExpr loc type (some p :: rest) ops))
        (wellFormedList (some p :: rest)) h).1
    have hw := (and_true_split (delegatesPresent (.EqExpr loc type (some p :: rest) ops))
        (wellFormedList (some p :: rest)) h).2
    have hp := spanDefined_of_wellFormed p
      (and_true_split (wellFormedPtr (some p)) (wellFormedList rest) hw).1
    have hbk := back_returns_of_wellFormed (some p :: rest) hw
      (and_true_split (frontPresent (some p :: rest)) (backPresent (some p :: rest)) hd).2
    ⟨hp.1, hp.2.1, hbk.1, hbk.2⟩
  | .EqExpr _ _ [] _, h => absurd (show false = true from h) (by decide)
  | .EqExpr _ _ (none :: _) _, h => absurd (show false = true from h) (by decide)
  | .NotExpr loc type (some x_operand), h =>
    have h_operand := spanDefined_of_wellFormed x_operand (and_true_split (delegatesPresent
        (.NotExpr loc type (some x_operand))) (wellFormedPtr (some x_operand)) h).2
    ⟨⟨_, rfl⟩, ⟨_, rfl⟩, h_operand.2.2.1, h_operand.2.2.2⟩
  | .NotExpr _ _ none, h => absurd (show false = true from h) (by decide)
  | .AddExpr loc type (some x_lhs) (some x_rhs), h =>
    have h_lhs := spanDefined_of_wellFormed x_lhs (and_true_split (delegatesPresent (.AddExpr loc
        type (some x_lhs) (some x_rhs))) (wellFormedPtr (some x_lhs)) (and_true_split
        (delegatesPresent (.AddExpr loc type (some x_lhs) (some x_rhs)) && wellFormedPtr (some
        x_lhs)) (wellFormedPtr (some x_rhs)) h).1).2
    have h_rhs := spanDefined_of_wellFormed x_rhs (and_true_split (delegatesPresent (.AddExpr loc
        type (some x_lhs) (some x_rhs)) && wellFormedPtr (some x_lhs)) (wellFormedPtr (some
        x_rhs)) h).2
    ⟨h_lhs.1, h_lhs.2.1, h_rhs.2.2.1, h_rhs.2.2.2⟩
  | .AddExpr _ _ none _, h => absurd (show false = true from h) (by decide)
  | .AddExpr _ _ (some _) none, h => absurd (show false = true from h) (by decide)
  | .SubExpr loc type (some x_lhs) (some x_rhs), h =>
    have h_lhs := spanDefined_of_wellFormed x_lhs (and_true_split (delegatesPresent (.SubExpr loc
        type (some x_lhs) (some x_rhs))) (wellFormedPtr (some x_lhs)) (and_true_split
        (delegatesPresent (.SubExpr loc type (some x_lhs) (some x_rhs)) && wellFormedPtr (some
        x_lhs)) (wellFormedPtr (some x_rhs)) h).1).2
    have h_rhs := spanDefined_of_wellFormed x_rhs (and_true_split (delegatesPresent (.SubExpr loc
        type (some x_lhs) (some x_rhs)) && wellFormedPtr (some x_lhs)) (wellFormedPtr (some
        x_rhs)) h).2
    ⟨h_lhs.1, h_lhs.2.1, h_rhs.2.2.1, h_rhs.2.2.2⟩
  | .SubExpr _ _ none _, h => absurd (show false = true from h) (by decide)
  | .SubExpr _ _ (some _) none, h => absurd (show false = true from h) (by decide)
  | .MulExpr loc type (some x_lhs) (some x_rhs), h =>
    have h_lhs := spanDefined_of_wellFormed x_lhs (and_true_split (delegatesPresent (.MulExpr loc
        type (some x_lhs) (some x_rhs))) (wellFormedPtr (some x_lhs)) (and_true_split
        (delegatesPresent (.MulExpr loc type (some x_lhs) (some x_rhs)) && wellFormedPtr (some
        x_lhs)) (wellFormedPtr (some x_rhs)) h).1).2
    have h_rhs := spanDefined_of_wellFormed x_rhs (and_true_split (delegatesPresent (.MulExpr loc
        type (some x_lhs) (some x_rhs)) && wellFormedPtr (some x_lhs)) (wellFormedPtr (some
        x_rhs)) h).2
    ⟨h_lhs.1, h_lhs.2.1, h_rhs.2.2.1, h_rhs.2.2.2⟩
  | .MulExpr _ _ none _, h => absurd (show false = true from h) (by decide)
  | .MulExpr _ _ (some _) none, h => absurd (show false = true from h) (by decide)
  | .DivExpr loc type (some x_lhs) (some x_rhs), h =>
    have h_lhs := spanDefined_of_wellFormed x_lhs (and_true_split (delegatesPresent (.DivExpr loc
        type (some x_lhs) (some x_rhs))) (wellFormedPtr (some x_lhs)) (and_true_split
        (delegatesPresent (.DivExpr loc type (some x_lhs) (some x_rhs)) && wellFormedPtr (some
        x_lhs)) (wellFormedPtr (some x_rhs)) h).1).2
    have h_rhs := spanDefined_of_wellFormed x_rhs (and_true_split (delegatesPresent (.DivExpr loc
        type (some x_lhs) (some x_rhs)) && wellFormedPtr (some x_lhs)) (wellFormedPtr (some
        x_rhs)) h).2
    ⟨h_lhs.1, h_lhs.2.1, h_rhs.2.2.1, h_rhs.2.2.2⟩
  | .DivExpr _ _ none _, h => absurd (show false = true from h) (by decide)
  | .DivExpr _ _ (some _) none, h => absurd (show false = true from h) (by decide)
  | .ElwiseMulExpr loc type (some x_lhs) (some x_rhs), h =>
    have h_lhs := spanDefined_of_wellFormed x_lhs (and_true_split (delegatesPresent
        (.ElwiseMulExpr loc type (some x_lhs) (some x_rhs))) (wellFormedPtr (some x_lhs))
        (and_true_split (delegatesPresent (.ElwiseMulExpr loc type (some x_lhs) (some x_rhs)) &&
        wellFormedPtr (some x_lhs)) (wellFormedPtr (some x_rhs)) h).1).2
    have h_rhs := spanDefined_of_wellFormed x_rhs (and_true_split (delegatesPresent
        (.ElwiseMulExpr loc type (some x_lhs) (some x_rhs)) && wellFormedPtr (some x_lhs))
        (wellFormedPtr (some x_rhs)) h).2
    ⟨h_lhs.1, h_lhs.2.1, h_rhs.2.2.1, h_rhs.2.2.2⟩
  | .ElwiseMulExpr _ _ none _, h => absurd (show false = true from h) (by decide)
  | .ElwiseMulExpr _ _ (some _) none, h => absurd (show false = true from h) (by decide)
  | .ElwiseDivExpr loc type (some x_lhs) (some x_rhs), h =>
    have h_lhs := spanDefined_of_wellFormed x_lhs (and_true_split (delegatesPresent
        (.ElwiseDivExpr loc type (some x_lhs) (some x_rhs))) (wellFormedPtr (some x_lhs))
        (and_true_split (delegatesPresent (.ElwiseDivExpr loc type (some x_lhs) (some x_rhs)) &&
        wellFormedPtr (some x_lhs)) (wellFormedPtr (some x_rhs)) h).1).2
    have h_rhs := spanDefined_of_wellFormed x_rhs (and_true_split (delegatesPresent
        (.ElwiseDivExpr loc type (some x_lhs) (some x_rhs)) && wellFormedPtr (some x_lhs))
        (wellFormedPtr (some x_rhs)) h).2
    ⟨h_lhs.1, h_lhs.2.1, h_rhs.2.2.1, h_rhs.2.2.2⟩
  | .ElwiseDivExpr _ _ none _, h => absurd (show false = true from h) (by decide)
  | .ElwiseDivExpr _ _ (some _) none, h => absurd (show false = true from h) (by decide)
  | .NegExpr loc type (some x_operand) negate, h =>
    have h_operand := spanDefined_of_wellFormed x_operand (and_true_split (delegatesPresent
        (.NegExpr loc type (some x_operand) negate)) (wellFormedPtr (some x_operand)) h).2
    ⟨⟨_, rfl⟩, ⟨_, rfl⟩, h_operand.2.2.1, h_operand.2.2.2⟩
  | .NegExpr _ _ none _, h => absurd (show false = true from h) (by decide)
  | .ExpExpr loc type (some x_lhs) (some x_rhs), h =>
    have h_lhs := spanDefined_of_wellFormed x_lhs (and_true_split (delegatesPresent (.ExpExpr loc
        type (some x_lhs) (some x_rhs))) (wellFormedPtr (some x_lhs)) (and_true_split
        (delegatesPresent (.ExpExpr loc type (some x_lhs) (some x_rhs)) && wellFormedPtr (some
        x_lhs)) (wellFormedPtr (some x_rhs)) h).1).2
    have h_rhs := spanDefined_of_wellFormed x_rhs (and_true_split (delegatesPresent (.ExpExpr loc
        type (some x_lhs) (some x_rhs)) && wellFormedPtr (some x_lhs)) (wellFormedPtr (some
        x_rhs)) h).2
    ⟨h_lhs.1, h_lhs.2.1, h_rhs.2.2.1, h_rhs.2.2.2⟩
  | .ExpExpr _ _ none _, h => absurd (show false = true from h) (by decide)
  | .ExpExpr _ _ (some _) none, h => absurd (show false = true from h) (by decide)
  | .TransposeExpr loc type (some x_operand), h =>
    have h_operand := spanDefined_of_wellFormed x_operand (and_true_split (delegatesPresent
        (.TransposeExpr loc type (some x_operand))) (wellFormedPtr (some x_operand)) h).2
    ⟨h_operand.1, h_operand.2.1, ⟨_, rfl⟩, ⟨_, rfl⟩⟩
  | .TransposeExpr _ _ none, h => absurd (show false = true from h) (by decide)
  | .CallExpr loc type operands (some x_func), h =>
    have h_func := spanDefined_of_wellFormed x_func (and_true_split (delegatesPresent (.CallExpr
        loc type operands (some x_func)) && wellFormedList operands) (wellFormedPtr (some
        x_func)) h).2
    ⟨h_func.1, h_func.2.1, ⟨_, rfl⟩, ⟨_, rfl⟩⟩
  | .CallExpr _ _ _ none, h => absurd (show false = true from h) (by decide)
  | .TensorReadExpr loc type (some x_tensor) indices, h =>
    have h_tensor := spanDefined_of_wellFormed x_tensor (and_true_split (delegatesPresent
        (.TensorReadExpr loc type (some x_tensor) indices)) (wellFormedPtr (some x_tensor))
        (and_true_split (delegatesPresent (.TensorReadExpr loc type (some x_tensor) indices) &&
        wellFormedPtr (some x_tensor)) (wellFormedList indices) h).1).2
    ⟨h_tensor.1, h_tensor.2.1, ⟨_, rfl⟩, ⟨_, rfl⟩⟩
  | .TensorReadExpr _ _ none _, h => absurd (show false = true from h) (by decide)
  | .TupleReadExpr loc type (some x_tuple) index, h =>
    have h_tuple := spanDefined_of_wellFormed x_tuple (and_true_split (delegatesPresent
        (.TupleReadExpr loc type (some x_tuple) index)) (wellFormedPtr (some x_tuple))
        (and_true_split (delegatesPresent (.TupleReadExpr loc type (some x_tuple) index) &&
        wellFormedPtr (some x_tuple)) (wellFormedPtr index) h).1).2
    ⟨h_tuple.1, h_tuple.2.1, ⟨_, rfl⟩, ⟨_, rfl⟩⟩
  | .TupleReadExpr _ _ none _, h => absurd (show false = true from h) (by decide)
  | .FieldReadExpr loc type (some x_setOrElem) (some x_field), h =>
    have h_setOrElem := spanDefined_of_wellFormed x_setOrElem (and_true_split (delegatesPresent
        (.FieldReadExpr loc type (some x_setOrElem) (some x_field))) (wellFormedPtr (some
        x_setOrElem)) (and_true_split (delegatesPresent (.FieldReadExpr loc type (some
        x_setOrElem) (some x_field)) && wellFormedPtr (some x_setOrElem)) (wellFormedPtr (some
        x_field)) h).1).2
    have h_field := spanDefined_of_wellFormed x_field (and_true_split (delegatesPresent
        (.FieldReadExpr loc type (some x_setOrElem) (some x_field)) && wellFormedPtr (some
        x_setOrElem)) (wellFormedPtr (some x_field)) h).2
    ⟨h_setOrElem.1, h_setOrElem.2.1, h_field.2.2.1, h_field.2.2.2⟩
  | .FieldReadExpr _ _ none _, h => absurd (show false = true from h) (by decide)
  | .FieldReadExpr _ _ (some _) none, h => absurd (show false = true from h) (by decide)
  | .ParenExpr .., _ => ⟨⟨_, rfl⟩, ⟨_, rfl⟩, ⟨_, rfl⟩, ⟨_, rfl⟩⟩
  | .VarExpr .., _ => ⟨⟨_, rfl⟩, ⟨_, rfl⟩, ⟨_, rfl⟩, ⟨_, rfl⟩⟩
  | .IntLiteral .., _ => ⟨⟨_, rfl⟩, ⟨_, rfl⟩, ⟨_, rfl⟩, ⟨_, rfl⟩⟩
  | .FloatLiteral .., _ => ⟨⟨_, rfl⟩, ⟨_, rfl⟩, ⟨_, rfl⟩, ⟨_, rfl⟩⟩
  | .BoolLiteral .., _ => ⟨⟨_, rfl⟩, ⟨_, rfl⟩, ⟨_, rfl⟩, ⟨_, rfl⟩⟩
  | .DenseIntVector .., _ => ⟨⟨_, rfl⟩, ⟨_, rfl⟩, ⟨_, rfl⟩, ⟨_, rfl⟩⟩
  | .DenseFloatVector .., _ => ⟨⟨_, rfl⟩, ⟨_, rfl⟩, ⟨_, rfl⟩, ⟨_, rfl⟩⟩
  | .DenseNDTensor .., _ => ⟨⟨_, rfl⟩, ⟨_, rfl⟩, ⟨_, rfl⟩, ⟨_, rfl⟩⟩
  | .DenseTensorLiteral loc type (some x_tensor) transposed, h =>
    have h_tensor := spanDefined_of_wellFormed x_tensor (and_true_split (delegatesPresent
        (.DenseTensorLiteral loc type (some x_tensor) transposed)) (wellFormedPtr (some
        x_tensor)) h).2
    ⟨h_tensor.1, h_tensor.2.1, h_tensor.2.2.1, h_tensor.2.2.2⟩
  | .DenseTensorLiteral _ _ none _, h => absurd (show false = true from h) (by decide)
  | .Test .., _ => ⟨⟨_, rfl⟩, ⟨_, rfl⟩, ⟨_, rfl⟩, ⟨_, rfl⟩⟩

theorem back_returns_of_wellFormed : ∀ v : List (Option HIRNode), wellFormedList v = true →
    backPresent v = true →
    ReturnsValue (getLineEnd_back v) ∧ ReturnsValue (getColEnd_back v)
  | [], _, h => absurd (show false = true from h) (by decide)
  | [none], _, h => absurd (show false = true from h) (by decide)
  | [some p], hw, _ =>
    have hp := spanDefined_of_wellFormed p
      (and_true_split (wellFormedPtr (some p)) (wellFormedList []) hw).1
    ⟨hp.2.2.1, hp.2.2.2⟩
  | p :: q :: r, hw, hb =>
    have ih := back_returns_of_wellFormed (q :: r)
      (and_true_split (wellFormedPtr p) (wellFormedList (q :: r)) hw).2 hb
    ⟨by rw [getLineEnd_back_cons_cons]; exact ih.1,
      by rw [getColEnd_back_cons_cons]; exact ih.2⟩
end

theorem wellFormedList_elemAt (v : List (Option HIRNode)) (hv : wellFormedList v = true) :
    ∀ (j : Nat) (c : HIRNode), elemAt v j = some c → wellFormed c = true := by
  induction v with
  | nil => intro j c hc; cases hc
  | cons p rest ih =>
    intro j c hc
    cases j with
    | zero =>
      have hp : p = some c := hc
      subst hp
      exact (and_true_split (wellFormedPtr (some c)) (wellFormedList rest) hv).1
    | succ j =>
      exact ih (and_true_split (wellFormedPtr p) (wellFormedList rest) hv).2 j c hc

theorem elemAt_sizeOf (v : List (Option HIRNode)) :
    ∀ (j : Nat) (c : HIRNode), elemAt v j = some c → sizeOf c < sizeOf v := by
  induction v with
  | nil => intro j c hc; cases hc
  | cons p rest ih =>
    intro j c hc
    cases j with
    | zero =>
      have hp : p = some c := hc
      subst hp
      simp only [List.cons.sizeOf_spec, Option.some.sizeOf_spec]
      omega
    | succ j =>
      have h := ih j c hc
      simp only [List.cons.sizeOf_spec]
      omega

theorem wellFormed_childAt (n : HIRNode) (h : wellFormed n = true) (i j : Nat) (c : HIRNode)
    (hc : childAt i j n = some c) : wellFormed c = true := by
  cases n with
  | Program loc elems =>
    rcases i with _ | _
    · exact wellFormedList_elemAt elems (and_true_split (delegatesPresent (.Program loc elems))
        (wellFormedList elems) h).2 j c hc
    · cases hc
  | StmtBlock loc stmts =>
    rcases i with _ | _
    · exact wellFormedList_elemAt stmts (and_true_split (delegatesPresent (.StmtBlock loc stmts))
        (wellFormedList stmts) h).2 j c hc
    · cases hc
  | RangeIndexSet loc range => cases hc
  | SetIndexSet loc setName => cases hc
  | DynamicIndexSet loc => cases hc
  | ElementType loc ident => cases hc
  | Endpoint loc setName => cases hc
  | SetType loc element endpoints =>
    rcases i with _ | _ | _
    · have hc' : element = some c := hc
      subst hc'
      exact (and_true_split (delegatesPresent (.SetType loc (some c) endpoints)) (wellFormedPtr
          (some c)) (and_true_split (delegatesPresent (.SetType loc (some c) endpoints) &&
          wellFormedPtr (some c)) (wellFormedList endpoints) h).1).2
    · exact wellFormedList_elemAt endpoints (and_true_split (delegatesPresent (.SetType loc
        element endpoints) && wellFormedPtr element) (wellFormedList endpoints) h).2 j c hc
    · cases hc
  | TupleLength loc val => cases hc
  | TupleType loc element length =>
    rcases i with _ | _ | _
    · have hc' : element = some c := hc
      subst hc'
      exact (and_true_split (delegatesPresent (.TupleType loc (some c) length)) (wellFormedPtr
          (some c)) (and_true_split (delegatesPresent (.TupleType loc (some c) length) &&
          wellFormedPtr (some c)) (wellFormedPtr length) h).1).2
    · have hc' : length = some c := hc
      subst hc'
      exact (and_true_split (delegatesPresent (.TupleType loc element (some c)) && wellFormedPtr
          element) (wellFormedPtr (some c)) h).2
    · cases hc
  | ScalarTensorType loc type => cases hc
  | NonScalarTensorType loc indexSets blockType transposed =>
    rcases i with _ | _ | _
    · exact wellFormedList_elemAt indexSets (and_true_split (delegatesPresent
        (.NonScalarTensorType loc indexSets blockType transposed)) (wellFormedList indexSets)
        (and_true_split (delegatesPresent (.NonScalarTensorType loc indexSets blockType
        transposed) && wellFormedList indexSets) (wellFormedPtr blockType) h).1).2 j c hc
    · have hc' : blockType = some c := hc
      subst hc'
      exact (and_true_split (delegatesPresent (.NonScalarTensorType loc indexSets (some c)
          transposed) && wellFormedList indexSets) (wellFormedPtr (some c)) h).2
    · cases hc
  | Identifier loc ident => cases hc
  | IdentDecl loc name type =>
    rcases i with _ | _ | _
    · have hc' : name = some c := hc
      subst hc'
      exact (and_true_split (delegatesPresent (.IdentDecl loc (some c) type)) (wellFormedPtr
          (some c)) (and_true_split (delegatesPresent (.IdentDecl loc (some c) type) &&
          wellFormedPtr (some c)) (wellFormedPtr type) h).1).2
    · have hc' : type = some c := hc
      subst hc'
      exact (and_true_split (delegatesPresent (.IdentDecl loc name (some c)) && wellFormedPtr
          name) (wellFormedPtr (some c)) h).2
    · cases hc
  | Field loc field =>
    rcases i with _ | _
    · have hc' : field = some c := hc
      subst hc'
      exact (and_true_split (delegatesPresent (.Field loc (some c))) (wellFormedPtr (some c)) h).2
    · cases hc
  | ElementTypeDecl loc name fields =>
    rcases i with _ | _ | _
    · have hc' : name = some c := hc
      subst hc'
      exact (and_true_split (delegatesPresent (.ElementTypeDecl loc (some c) fields))
          (wellFormedPtr (some c)) (and_true_split (delegatesPresent (.ElementTypeDecl loc (some
          c) fields) && wellFormedPtr (some c)) (wellFormedList fields) h).1).2
    · exact wellFormedList_elemAt fields (and_true_split (delegatesPresent (.ElementTypeDecl loc
        name fields) && wellFormedPtr name) (wellFormedList fields) h).2 j c hc
    · cases hc
  | Argument loc name type inout =>
    rcases i with _ | _ | _
    · have hc' : name = some c := hc
      subst hc'
      exact (and_true_split (delegatesPresent (.Argument loc (some c) type inout)) (wellFormedPtr
          (some c)) (and_true_split (delegatesPresent (.Argument loc (some c) type inout) &&
          wellFormedPtr (some c)) (wellFormedPtr type) h).1).2
    · have hc' : type = some c := hc
      subst hc'
      exact (and_true_split (delegatesPresent (.Argument loc name (some c) inout) &&
          wellFormedPtr name) (wellFormedPtr (some c)) h).2
    · cases hc
  | ExternDecl loc var =>
    rcases i with _ | _
    · have hc' : var = some c := hc
      subst hc'
      exact (and_true_split (delegatesPresent (.ExternDecl loc (some c))) (wellFormedPtr (some
          c)) h).2
    · cases hc
  | FuncDecl loc name args results body =>
    rcases i with _ | _ | _ | _ | _
    · have hc' : name = some c := hc
      subst hc'
      exact (and_true_split (delegatesPresent (.FuncDecl loc (some c) args results body))
          (wellFormedPtr (some c)) (and_true_split (delegatesPresent (.FuncDecl loc (some c) args
          results body) && wellFormedPtr (some c)) (wellFormedList args) (and_true_split
          (delegatesPresent (.FuncDecl loc (some c) args results body) && wellFormedPtr (some c)
          && wellFormedList args) (wellFormedList results) (and_true_split (delegatesPresent
          (.FuncDecl loc (some c) args results body) && wellFormedPtr (some c) && wellFormedList
          args && wellFormedList results) (wellFormedPtr body) h).1).1).1).2
    · exact wellFormedList_elemAt args (and_true_split (delegatesPresent (.FuncDecl loc name args
        results body) && wellFormedPtr name) (wellFormedList args) (and_true_split
        (delegatesPresent (.FuncDecl loc name args results body) && wellFormedPtr name &&
        wellFormedList args) (wellFormedList results) (and_true_split (delegatesPresent
        (.FuncDecl loc name args results body) && wellFormedPtr name && wellFormedList args &&
        wellFormedList results) (wellFormedPtr body) h).1).1).2 j c hc
    · exact wellFormedList_elemAt results (and_true_split (delegatesPresent (.FuncDecl loc name
        args results body) && wellFormedPtr name && wellFormedList args) (wellFormedList results)
        (and_true_split (delegatesPresent (.FuncDecl loc name args results body) && wellFormedPtr
        name && wellFormedList args && wellFormedList results) (wellFormedPtr body) h).1).2 j c hc
    · have hc' : body = some c := hc
      subst hc'
      exact (and_true_split (delegatesPresent (.FuncDecl loc name args results (some c)) &&
          wellFormedPtr name && wellFormedList args && wellFormedList results) (wellFormedPtr
          (some c)) h).2
    · cases hc
  | ProcDecl loc name args results body =>
    rcases i with _ | _ | _ | _ | _
    · have hc' : name = some c := hc
      subst hc'
      exact (and_true_split (delegatesPresent (.ProcDecl loc (some c) args results body))
          (wellFormedPtr (some c)) (and_true_split (delegatesPresent (.ProcDecl loc (some c) args
          results body) && wellFormedPtr (some c)) (wellFormedList args) (and_true_split
          (delegatesPresent (.ProcDecl loc (some c) args results body) && wellFormedPtr (some c)
          && wellFormedList args) (wellFormedList results) (and_true_split (delegatesPresent
          (.ProcDecl loc (some c) args results body) && wellFormedPtr (some c) && wellFormedList
          args && wellFormedList results) (wellFormedPtr body) h).1).1).1).2
    · exact wellFormedList_elemAt args (and_true_split (delegatesPresent (.ProcDecl loc name args
        results body) && wellFormedPtr name) (wellFormedList args) (and_true_split
        (delegatesPresent (.ProcDecl loc name args results body) && wellFormedPtr name &&
        wellFormedList args) (wellFormedList results) (and_true_split (delegatesPresent
        (.ProcDecl loc name args results body) && wellFormedPtr name && wellFormedList args &&
        wellFormedList results) (wellFormedPtr body) h).1).1).2 j c hc
    · exact wellFormedList_elemAt results (and_true_split (delegatesPresent (.ProcDecl loc name
        args results body) && wellFormedPtr name && wellFormedList args) (wellFormedList results)
        (and_true_split (delegatesPresent (.ProcDecl loc name args results body) && wellFormedPtr
        name && wellFormedList args && wellFormedList results) (wellFormedPtr body) h).1).2 j c hc
    · have hc' : body = some c := hc
      subst hc'
      exact (and_true_split (delegatesPresent (.ProcDecl loc name args results (some c)) &&
          wellFormedPtr name && wellFormedList args && wellFormedList results) (wellFormedPtr
          (some c)) h).2
    · cases hc
  | VarDecl loc var initVal =>
    rcases i with _ | _ | _
    · have hc' : var = some c := hc
      subst hc'
      exact (and_true_split (delegatesPresent (.VarDecl loc (some c) initVal)) (wellFormedPtr
          (some c)) (and_true_split (delegatesPresent (.VarDecl loc (some c) initVal) &&
          wellFormedPtr (some c)) (wellFormedPtr initVal) h).1).2
    · have hc' : initVal = some c := hc
      subst hc'
      exact (and_true_split (delegatesPresent (.VarDecl loc var (some c)) && wellFormedPtr var)
          (wellFormedPtr (some c)) h).2
    · cases hc
  | ConstDecl loc var initVal =>
    rcases i with _ | _ | _
    · have hc' : var = some c := hc
      subst hc'
      exact (and_true_split (delegatesPresent (.ConstDecl loc (some c) initVal)) (wellFormedPtr
          (some c)) (and_true_split (delegatesPresent (.ConstDecl loc (some c) initVal) &&
          wellFormedPtr (some c)) (wellFormedPtr initVal) h).1).2
    · have hc' : initVal = some c := hc
      subst hc'
      exact (and_true_split (delegatesPresent (.ConstDecl loc var (some c)) && wellFormedPtr var)
          (wellFormedPtr (some c)) h).2
    · cases hc
  | WhileStmt loc cond body =>
    rcases i with _ | _ | _
    · have hc' : cond = some c := hc
      subst hc'
      exact (and_true_split (delegatesPresent (.WhileStmt loc (some c) body)) (wellFormedPtr
          (some c)) (and_true_split (delegatesPresent (.WhileStmt loc (some c) body) &&
          wellFormedPtr (some c)) (wellFormedPtr body) h).1).2
    · have hc' : body = some c := hc
      subst hc'
      exact (and_true_split (delegatesPresent (.WhileStmt loc cond (some c)) && wellFormedPtr
          cond) (wellFormedPtr (some c)) h).2
    · cases hc
  | DoWhileStmt loc cond body =>
    rcases i with _ | _ | _
    · have hc' : cond = some c := hc
      subst hc'
      exact (and_true_split (delegatesPresent (.DoWhileStmt loc (some c) body)) (wellFormedPtr
          (some c)) (and_true_split (delegatesPresent (.DoWhileStmt loc (some c) body) &&
          wellFormedPtr (some c)) (wellFormedPtr body) h).1).2
    · have hc' : body = some c := hc
      subst hc'
      exact (and_true_split (delegatesPresent (.DoWhileStmt loc cond (some c)) && wellFormedPtr
          cond) (wellFormedPtr (some c)) h).2
    · cases hc
  | IfStmt loc cond ifBody elseBody =>
    rcases i with _ | _ | _ | _
    · have hc' : cond = some c := hc
      subst hc'
      exact (and_true_split (delegatesPresent (.IfStmt loc (some c) ifBody elseBody))
          (wellFormedPtr (some c)) (and_true_split (delegatesPresent (.IfStmt loc (some c) ifBody
          elseBody) && wellFormedPtr (some c)) (wellFormedPtr ifBody) (and_true_split
          (delegatesPresent (.IfStmt loc (some c) ifBody elseBody) && wellFormedPtr (some c) &&
          wellFormedPtr ifBody) (wellFormedPtr elseBody) h).1).1).2
    · have hc' : ifBody = some c := hc
      subst hc'
      exact (and_true_split (delegatesPresent (.IfStmt loc cond (some c) elseBody) &&
          wellFormedPtr cond) (wellFormedPtr (some c)) (and_true_split (delegatesPresent (.IfStmt
          loc cond (some c) elseBody) && wellFormedPtr cond && wellFormedPtr (some c))
          (wellFormedPtr elseBody) h).1).2
    · have hc' : elseBody = some c := hc
      subst hc'
      exact (and_true_split (delegatesPresent (.IfStmt loc cond ifBody (some c)) && wellFormedPtr
          cond && wellFormedPtr ifBody) (wellFormedPtr (some c)) h).2
    · cases hc
  | IndexSetDomain loc set =>
    rcases i with _ | _
    · have hc' : set = some c := hc
      subst hc'
      exact (and_true_split (delegatesPresent (.IndexSetDomain loc (some c))) (wellFormedPtr
          (some c)) h).2
    · cases hc
  | RangeDomain loc lower upper =>
    rcases i with _ | _ | _
    · have hc' : lower = some c := hc
      subst hc'
      exact (and_true_split (delegatesPresent (.RangeDomain loc (some c) upper)) (wellFormedPtr
          (some c)) (and_true_split (delegatesPresent (.RangeDomain loc (some c) upper) &&
          wellFormedPtr (some c)) (wellFormedPtr upper) h).1).2
    · have hc' : upper = some c := hc
      subst hc'
      exact (and_true_split (delegatesPresent (.RangeDomain loc lower (some c)) && wellFormedPtr
          lower) (wellFormedPtr (some c)) h).2
    · cases hc
  | ForStmt loc loopVar domain body =>
    rcases i with _ | _ | _ | _
    · have hc' : loopVar = some c := hc
      subst hc'
      exact (and_true_split (delegatesPresent (.ForStmt loc (some c) domain body)) (wellFormedPtr
          (some c)) (and_true_split (delegatesPresent (.ForStmt loc (some c) domain body) &&
          wellFormedPtr (some c)) (wellFormedPtr domain) (and_true_split (delegatesPresent
          (.ForStmt loc (some c) domain body) && wellFormedPtr (some c) && wellFormedPtr domain)
          (wellFormedPtr body) h).1).1).2
    · have hc' : domain = some c := hc
      subst hc'
      exact (and_true_split (delegatesPresent (.ForStmt loc loopVar (some c) body) &&
          wellFormedPtr loopVar) (wellFormedPtr (some c)) (and_true_split (delegatesPresent
          (.ForStmt loc loopVar (some c) body) && wellFormedPtr loopVar && wellFormedPtr (some
          c)) (wellFormedPtr body) h).1).2
    · have hc' : body = some c := hc
      subst hc'
      exact (and_true_split (delegatesPresent (.ForStmt loc loopVar domain (some c)) &&
          wellFormedPtr loopVar && wellFormedPtr domain) (wellFormedPtr (some c)) h).2
    · cases hc
  | PrintStmt loc expr =>
    rcases i with _ | _
    · have hc' : expr = some c := hc
      subst hc'
      exact (and_true_split (delegatesPresent (.PrintStmt loc (some c))) (wellFormedPtr (some c))
          h).2
    · cases hc
  | ExprStmt loc expr =>
    rcases i with _ | _
    · have hc' : expr = some c := hc
      subst hc'
      exact (and_true_split (delegatesPresent (.ExprStmt loc (some c))) (wellFormedPtr (some c))
          h).2
    · cases hc
  | AssignStmt loc expr lhs =>
    rcases i with _ | _ | _
    · have hc' : expr = some c := hc
      subst hc'
      exact (and_true_split (delegatesPresent (.AssignStmt loc (some c) lhs)) (wellFormedPtr
          (some c)) (and_true_split (delegatesPresent (.AssignStmt loc (some c) lhs) &&
          wellFormedPtr (some c)) (wellFormedList lhs) h).1).2
    · exact wellFormedList_elemAt lhs (and_true_split (delegatesPresent (.AssignStmt loc expr
        lhs) && wellFormedPtr expr) (wellFormedList lhs) h).2 j c hc
    · cases hc
  | Slice loc => cases hc
  | ExprParam loc expr =>
    rcases i with _ | _
    · have hc' : expr = some c := hc
      subst hc'
      exact (and_true_split (delegatesPresent (.ExprParam loc (some c))) (wellFormedPtr (some c))
          h).2
    · cases hc
  | MapExpr loc type func partialActuals target op =>
    rcases i with _ | _ | _ | _
    · have hc' : func = some c := hc
      subst hc'
      exact (and_true_split (delegatesPresent (.MapExpr loc type (some c) partialActuals target
          op)) (wellFormedPtr (some c)) (and_true_split (delegatesPresent (.MapExpr loc type
          (some c) partialActuals target op) && wellFormedPtr (some c)) (wellFormedList
          partialActuals) (and_true_split (delegatesPresent (.MapExpr loc type (some c)
          partialActuals target op) && wellFormedPtr (some c) && wellFormedList partialActuals)
          (wellFormedPtr target) h).1).1).2
    · exact wellFormedList_elemAt partialActuals (and_true_split (delegatesPresent (.MapExpr loc
        type func partialActuals target op) && wellFormedPtr func) (wellFormedList
        partialActuals) (and_true_split (delegatesPresent (.MapExpr loc type func partialActuals
        target op) && wellFormedPtr func && wellFormedList partialActuals) (wellFormedPtr target)
        h).1).2 j c hc
    · have hc' : target = some c := hc
      subst hc'
      exact (and_true_split (delegatesPresent (.MapExpr loc type func partialActuals (some c) op)
          && wellFormedPtr func && wellFormedList partialActuals) (wellFormedPtr (some c)) h).2
    · cases hc
  | OrExpr loc type lhs rhs =>
    rcases i with _ | _ | _
    · have hc' : lhs = some c := hc
      subst hc'
      exact (and_true_split (delegatesPresent (.OrExpr loc type (some c) rhs)) (wellFormedPtr
          (some c)) (and_true_split (delegatesPresent (.OrExpr loc type (some c) rhs) &&
          wellFormedPtr (some c)) (wellFormedPtr rhs) h).1).2
    · have hc' : rhs = some c := hc
      subst hc'
      exact (and_true_split (delegatesPresent (.OrExpr loc type lhs (some c)) && wellFormedPtr
          lhs) (wellFormedPtr (some c)) h).2
    · cases hc
  | AndExpr loc type lhs rhs =>
    rcases i with _ | _ | _
    · have hc' : lhs = some c := hc
      subst hc'
      exact (and_true_split (delegatesPresent (.AndExpr loc type (some c) rhs)) (wellFormedPtr
          (some c)) (and_true_split (delegatesPresent (.AndExpr loc type (some c) rhs) &&
          wellFormedPtr (some c)) (wellFormedPtr rhs) h).1).2
    · have hc' : rhs = some c := hc
      subst hc'
      exact (and_true_split (delegatesPresent (.AndExpr loc type lhs (some c)) && wellFormedPtr
          lhs) (wellFormedPtr (some c)) h).2
    · cases hc
  | XorExpr loc type lhs rhs =>
    rcases i with _ | _ | _
    · have hc' : lhs = some c := hc
      subst hc'
      exact (and_true_split (delegatesPresent (.XorExpr loc type (some c) rhs)) (wellFormedPtr
          (some c)) (and_true_split (delegatesPresent (.XorExpr loc type (some c) rhs) &&
          wellFormedPtr (some c)) (wellFormedPtr rhs) h).1).2
    · have hc' : rhs = some c := hc
      subst hc'
      exact (and_true_split (delegatesPresent (.XorExpr loc type lhs (some c)) && wellFormedPtr
          lhs) (wellFormedPtr (some c)) h).2
    · cases hc
  | EqExpr loc type operands ops =>
    rcases i with _ | _
    · exact wellFormedList_elemAt operands (and_true_split (delegatesPresent (.EqExpr loc type
        operands ops)) (wellFormedList operands) h).2 j c hc
    · cases hc
  | NotExpr loc type operand =>
    rcases i with _ | _
    · have hc' : operand = some c := hc
      subst hc'
      exact (and_true_split (delegatesPresent (.NotExpr loc type (some c))) (wellFormedPtr (some
          c)) h).2
    · cases hc
  | AddExpr loc type lhs rhs =>
    rcases i with _ | _ | _
    · have hc' : lhs = some c := hc
      subst hc'
      exact (and_true_split (delegatesPresent (.AddExpr loc type (some c) rhs)) (wellFormedPtr
          (some c)) (and_true_split (delegatesPresent (.AddExpr loc type (some c) rhs) &&
          wellFormedPtr (some c)) (wellFormedPtr rhs) h).1).2
    · have hc' : rhs = some c := hc
      subst hc'
      exact (and_true_split (delegatesPresent (.AddExpr loc type lhs (some c)) && wellFormedPtr
          lhs) (wellFormedPtr (some c)) h).2
    · cases hc
  | SubExpr loc type lhs rhs =>
    rcases i with _ | _ | _
    · have hc' : lhs = some c := hc
      subst hc'
      exact (and_true_split (delegatesPresent (.SubExpr loc type (some c) rhs)) (wellFormedPtr
          (some c)) (and_true_split (delegatesPresent (.SubExpr loc type (some c) rhs) &&
          wellFormedPtr (some c)) (wellFormedPtr rhs) h).1).2
    · have hc' : rhs = some c := hc
      subst hc'
      exact (and_true_split (delegatesPresent (.SubExpr loc type lhs (some c)) && wellFormedPtr
          lhs) (wellFormedPtr (some c)) h).2
    · cases hc
  | MulExpr loc type lhs rhs =>
    rcases i with _ | _ | _
    · have hc' : lhs = some c := hc
      subst hc'
      exact (and_true_split (delegatesPresent (.MulExpr loc type (some c) rhs)) (wellFormedPtr
          (some c)) (and_true_split (delegatesPresent (.MulExpr loc type (some c) rhs) &&
          wellFormedPtr (some c)) (wellFormedPtr rhs) h).1).2
    · have hc' : rhs = some c := hc
      subst hc'
      exact (and_true_split (delegatesPresent (.MulExpr loc type lhs (some c)) && wellFormedPtr
          lhs) (wellFormedPtr (some c)) h).2
    · cases hc
  | DivExpr loc type lhs rhs =>
    rcases i with _ | _ | _
    · have hc' : lhs = some c := hc
      subst hc'
      exact (and_true_split (delegatesPresent (.DivExpr loc type (some c) rhs)) (wellFormedPtr
          (some c)) (and_true_split (delegatesPresent (.DivExpr loc type (some c) rhs) &&
          wellFormedPtr (some c)) (wellFormedPtr rhs) h).1).2
    · have hc' : rhs = some c := hc
      subst hc'
      exact (and_true_split (delegatesPresent (.DivExpr loc type lhs (some c)) && wellFormedPtr
          lhs) (wellFormedPtr (some c)) h).2
    · cases hc
  | ElwiseMulExpr loc type lhs rhs =>
    rcases i with _ | _ | _
    · have hc' : lhs = some c := hc
      subst hc'
      exact (and_true_split (delegatesPresent (.ElwiseMulExpr loc type (some c) rhs))
          (wellFormedPtr (some c)) (and_true_split (delegatesPresent (.ElwiseMulExpr loc type
          (some c) rhs) && wellFormedPtr (some c)) (wellFormedPtr rhs) h).1).2
    · have hc' : rhs = some c := hc
      subst hc'
      exact (and_true_split (delegatesPresent (.ElwiseMulExpr loc type lhs (some c)) &&
          wellFormedPtr lhs) (wellFormedPtr (some c)) h).2
    · cases hc
  | ElwiseDivExpr loc type lhs rhs =>
    rcases i with _ | _ | _
    · have hc' : lhs = some c := hc
      subst hc'
      exact (and_true_split (delegatesPresent (.ElwiseDivExpr loc type (some c) rhs))
          (wellFormedPtr (some c)) (and_true_split (delegatesPresent (.ElwiseDivExpr loc type
          (some c) rhs) && wellFormedPtr (some c)) (wellFormedPtr rhs) h).1).2
    · have hc' : rhs = some c := hc
      subst hc'
      exact (and_true_split (delegatesPresent (.ElwiseDivExpr loc type lhs (some c)) &&
          wellFormedPtr lhs) (wellFormedPtr (some c)) h).2
    · cases hc
  | NegExpr loc type operand negate =>
    rcases i with _ | _
    · have hc' : operand = some c := hc
      subst hc'
      exact (and_true_split (delegatesPresent (.NegExpr loc type (some c) negate)) (wellFormedPtr
          (some c)) h).2
    · cases hc
  | ExpExpr loc type lhs rhs =>
    rcases i with _ | _ | _
    · have hc' : lhs = some c := hc
      subst hc'
      exact (and_true_split (delegatesPresent (.ExpExpr loc type (some c) rhs)) (wellFormedPtr
          (some c)) (and_true_split (delegatesPresent (.ExpExpr loc type (some c) rhs) &&
          wellFormedPtr (some c)) (wellFormedPtr rhs) h).1).2
    · have hc' : rhs = some c := hc
      subst hc'
      exact (and_true_split (delegatesPresent (.ExpExpr loc type lhs (some c)) && wellFormedPtr
          lhs) (wellFormedPtr (some c)) h).2
    · cases hc
  | TransposeExpr loc type operand =>
    rcases i with _ | _
    · have hc' : operand = some c := hc
      subst hc'
      exact (and_true_split (delegatesPresent (.TransposeExpr loc type (some c))) (wellFormedPtr
          (some c)) h).2
    · cases hc
  | CallExpr loc type operands func =>
    rcases i with _ | _ | _
    · exact wellFormedList_elemAt operands (and_true_split (delegatesPresent (.CallExpr loc type
        operands func)) (wellFormedList operands) (and_true_split (delegatesPresent (.CallExpr
        loc type operands func) && wellFormedList operands) (wellFormedPtr func) h).1).2 j c hc
    · have hc' : func = some c := hc
      subst hc'
      exact (and_true_split (delegatesPresent (.CallExpr loc type operands (some c)) &&
          wellFormedList operands) (wellFormedPtr (some c)) h).2
    · cases hc
  | TensorReadExpr loc type tensor indices =>
    rcases i with _ | _ | _
    · have hc' : tensor = some c := hc
      subst hc'
      exact (and_true_split (delegatesPresent (.TensorReadExpr loc type (some c) indices))
          (wellFormedPtr (some c)) (and_true_split (delegatesPresent (.TensorReadExpr loc type
          (some c) indices) && wellFormedPtr (some c)) (wellFormedList indices) h).1).2
    · exact wellFormedList_elemAt indices (and_true_split (delegatesPresent (.TensorReadExpr loc
        type tensor indices) && wellFormedPtr tensor) (wellFormedList indices) h).2 j c hc
    · cases hc
  | TupleReadExpr loc type tuple index =>
    rcases i with _ | _ | _
    · have hc' : tuple = some c := hc
      subst hc'
      exact (and_true_split (delegatesPresent (.TupleReadExpr loc type (some c) index))
          (wellFormedPtr (some c)) (and_true_split (delegatesPresent (.TupleReadExpr loc type
          (some c) index) && wellFormedPtr (some c)) (wellFormedPtr index) h).1).2
    · have hc' : index = some c := hc
      subst hc'
      exact (and_true_split (delegatesPresent (.TupleReadExpr loc type tuple (some c)) &&
          wellFormedPtr tuple) (wellFormedPtr (some c)) h).2
    · cases hc
  | FieldReadExpr loc type setOrElem field =>
    rcases i with _ | _ | _
    · have hc' : setOrElem = some c := hc
      subst hc'
      exact (and_true_split (delegatesPresent (.FieldReadExpr loc type (some c) field))
          (wellFormedPtr (some c)) (and_true_split (delegatesPresent (.FieldReadExpr loc type
          (some c) field) && wellFormedPtr (some c)) (wellFormedPtr field) h).1).2
    · have hc' : field = some c := hc
      subst hc'
      exact (and_true_split (delegatesPresent (.FieldReadExpr loc type setOrElem (some c)) &&
          wellFormedPtr setOrElem) (wellFormedPtr (some c)) h).2
    · cases hc
  | ParenExpr loc type expr =>
    rcases i with _ | _
    · have hc' : expr = some c := hc
      subst hc'
      exact (and_true_split (delegatesPresent (.ParenExpr loc type (some c))) (wellFormedPtr
          (some c)) h).2
    · cases hc
  | VarExpr loc type ident => cases hc
  | IntLiteral loc type val => cases hc
  | FloatLiteral loc type val => cases hc
  | BoolLiteral loc type val => cases hc
  | DenseIntVector loc vals => cases hc
  | DenseFloatVector loc vals => cases hc
  | DenseNDTensor loc elems =>
    rcases i with _ | _
    · exact wellFormedList_elemAt elems (and_true_split (delegatesPresent (.DenseNDTensor loc
        elems)) (wellFormedList elems) h).2 j c hc
    · cases hc
  | DenseTensorLiteral loc type tensor transposed =>
    rcases i with _ | _
    · have hc' : tensor = some c := hc
      subst hc'
      exact (and_true_split (delegatesPresent (.DenseTensorLiteral loc type (some c) transposed))
          (wellFormedPtr (some c)) h).2
    · cases hc
  | Test loc func args expected =>
    rcases i with _ | _ | _ | _
    · have hc' : func = some c := hc
      subst hc'
      exact (and_true_split (delegatesPresent (.Test loc (some c) args expected)) (wellFormedPtr
          (some c)) (and_true_split (delegatesPresent (.Test loc (some c) args expected) &&
          wellFormedPtr (some c)) (wellFormedList args) (and_true_split (delegatesPresent (.Test
          loc (some c) args expected) && wellFormedPtr (some c) && wellFormedList args)
          (wellFormedPtr expected) h).1).1).2
    · exact wellFormedList_elemAt args (and_true_split (delegatesPresent (.Test loc func args
        expected) && wellFormedPtr func) (wellFormedList args) (and_true_split (delegatesPresent
        (.Test loc func args expected) && wellFormedPtr func && wellFormedList args)
        (wellFormedPtr expected) h).1).2 j c hc
    · have hc' : expected = some c := hc
      subst hc'
      exact (and_true_split (delegatesPresent (.Test loc func args (some c)) && wellFormedPtr
          func && wellFormedList args) (wellFormedPtr (some c)) h).2
    · cases hc

theorem childAt_sizeOf (n : HIRNode) (i j : Nat) (c : HIRNode)
    (hc : childAt i j n = some c) : sizeOf c < sizeOf n := by
  cases n with
  | Program loc elems =>
    rcases i with _ | _
    · have hlt := elemAt_sizeOf elems j c hc
      simp only [HIRNode.Program.sizeOf_spec]
      omega
    · cases hc
  | StmtBlock loc stmts =>
    rcases i with _ | _
    · have hlt := elemAt_sizeOf stmts j c hc
      simp only [HIRNode.StmtBlock.sizeOf_spec]
      omega
    · cases hc
  | RangeIndexSet loc range => cases hc
  | SetIndexSet loc setName => cases hc
  | DynamicIndexSet loc => cases hc
  | ElementType loc ident => cases hc
  | Endpoint loc setName => cases hc
  | SetType loc element endpoints =>
    rcases i with _ | _ | _
    · have hc' : element = some c := hc
      subst hc'
      simp only [HIRNode.SetType.sizeOf_spec, Option.some.sizeOf_spec]
      omega
    · have hlt := elemAt_sizeOf endpoints j c hc
      simp only [HIRNode.SetType.sizeOf_spec]
      omega
    · cases hc
  | TupleLength loc val => cases hc
  | TupleType loc element length =>
    rcases i with _ | _ | _
    · have hc' : element = some c := hc
      subst hc'
      simp only [HIRNode.TupleType.sizeOf_spec, Option.some.sizeOf_spec]
      omega
    · have hc' : length = some c := hc
      subst hc'
      simp only [HIRNode.TupleType.sizeOf_spec, Option.some.sizeOf_spec]
      omega
    · cases hc
  | ScalarTensorType loc type => cases hc
  | NonScalarTensorType loc indexSets blockType transposed =>
    rcases i with _ | _ | _
    · have hlt := elemAt_sizeOf indexSets j c hc
      simp only [HIRNode.NonScalarTensorType.sizeOf_spec]
      omega
    · have hc' : blockType = some c := hc
      subst hc'
      simp only [HIRNode.NonScalarTensorType.sizeOf_spec, Option.some.sizeOf_spec]
      omega
    · cases hc
  | Identifier loc ident => cases hc
  | IdentDecl loc name type =>
    rcases i with _ | _ | _
    · have hc' : name = some c := hc
      subst hc'
      simp only [HIRNode.IdentDecl.sizeOf_spec, Option.some.sizeOf_spec]
      omega
    · have hc' : type = some c := hc
      subst hc'
      simp only [HIRNode.IdentDecl.sizeOf_spec, Option.some.sizeOf_spec]
      omega
    · cases hc
  | Field loc field =>
    rcases i with _ | _
    · have hc' : field = some c := hc
      subst hc'
      simp only [HIRNode.Field.sizeOf_spec, Option.some.sizeOf_spec]
      omega
    · cases hc
  | ElementTypeDecl loc name fields =>
    rcases i with _ | _ | _
    · have hc' : name = some c := hc
      subst hc'
      simp only [HIRNode.ElementTypeDecl.sizeOf_spec, Option.some.sizeOf_spec]
      omega
    · have hlt := elemAt_sizeOf fields j c hc
      simp only [HIRNode.ElementTypeDecl.sizeOf_spec]
      omega
    · cases hc
  | Argument loc name type inout =>
    rcases i with _ | _ | _
    · have hc' : name = some c := hc
      subst hc'
      simp only [HIRNode.Argument.sizeOf_spec, Option.some.sizeOf_spec]
      omega
    · have hc' : type = some c := hc
      subst hc'
      simp only [HIRNode.Argument.sizeOf_spec, Option.some.sizeOf_spec]
      omega
    · cases hc
  | ExternDecl loc var =>
    rcases i with _ | _
    · have hc' : var = some c := hc
      subst hc'
      simp only [HIRNode.ExternDecl.sizeOf_spec, Option.some.sizeOf_spec]
      omega
    · cases hc
  | FuncDecl loc name args results body =>
    rcases i with _ | _ | _ | _ | _
    · have hc' : name = some c := hc
      subst hc'
      simp only [HIRNode.FuncDecl.sizeOf_spec, Option.some.sizeOf_spec]
      omega
    · have hlt := elemAt_sizeOf args j c hc
      simp only [HIRNode.FuncDecl.sizeOf_spec]
      omega
    · have hlt := elemAt_sizeOf results j c hc
      simp only [HIRNode.FuncDecl.sizeOf_spec]
      omega
    · have hc' : body = some c := hc
      subst hc'
      simp only [HIRNode.FuncDecl.sizeOf_spec, Option.some.sizeOf_spec]
      omega
    · cases hc
  | ProcDecl loc name args results body =>
    rcases i with _ | _ | _ | _ | _
    · have hc' : name = some c := hc
      subst hc'
      simp only [HIRNode.ProcDecl.sizeOf_spec, Option.some.sizeOf_spec]
      omega
    · have hlt := elemAt_sizeOf args j c hc
      simp only [HIRNode.ProcDecl.sizeOf_spec]
      omega
    · have hlt := elemAt_sizeOf results j c hc
      simp only [HIRNode.ProcDecl.sizeOf_spec]
      omega
    · have hc' : body = some c := hc
      subst hc'
      simp only [HIRNode.ProcDecl.sizeOf_spec, Option.some.sizeOf_spec]
      omega
    · cases hc
  | VarDecl loc var initVal =>
    rcases i with _ | _ | _
    · have hc' : var = some c := hc
      subst hc'
      simp only [HIRNode.VarDecl.sizeOf_spec, Option.some.sizeOf_spec]
      omega
    · have hc' : initVal = some c := hc
      subst hc'
      simp only [HIRNode.VarDecl.sizeOf_spec, Option.some.sizeOf_spec]
      omega
    · cases hc
  | ConstDecl loc var initVal =>
    rcases i with _ | _ | _
    · have hc' : var = some c := hc
      subst hc'
      simp only [HIRNode.ConstDecl.sizeOf_spec, Option.some.sizeOf_spec]
      omega
    · have hc' : initVal = some c := hc
      subst hc'
      simp only [HIRNode.ConstDecl.sizeOf_spec, Option.some.sizeOf_spec]
      omega
    · cases hc
  | WhileStmt loc cond body =>
    rcases i with _ | _ | _
    · have hc' : cond = some c := hc
      subst hc'
      simp only [HIRNode.WhileStmt.sizeOf_spec, Option.some.sizeOf_spec]
      omega
    · have hc' : body = some c := hc
      subst hc'
      simp only [HIRNode.WhileStmt.sizeOf_spec, Option.some.sizeOf_spec]
      omega
    · cases hc
  | DoWhileStmt loc cond body =>
    rcases i with _ | _ | _
    · have hc' : cond = some c := hc
      subst hc'
      simp only [HIRNode.DoWhileStmt.sizeOf_spec, Option.some.sizeOf_spec]
      omega
    · have hc' : body = some c := hc
      subst hc'
      simp only [HIRNode.DoWhileStmt.sizeOf_spec, Option.some.sizeOf_spec]
      omega
    · cases hc
  | IfStmt loc cond ifBody elseBody =>
    rcases i with _ | _ | _ | _
    · have hc' : cond = some c := hc
      subst hc'
      simp only [HIRNode.IfStmt.sizeOf_spec, Option.some.sizeOf_spec]
      omega
    · have hc' : ifBody = some c := hc
      subst hc'
      simp only [HIRNode.IfStmt.sizeOf_spec, Option.some.sizeOf_spec]
      omega
    · have hc' : elseBody = some c := hc
      subst hc'
      simp only [HIRNode.IfStmt.sizeOf_spec, Option.some.sizeOf_spec]
      omega
    · cases hc
  | IndexSetDomain loc set =>
    rcases i with _ | _
    · have hc' : set = some c := hc
      subst hc'
      simp only [HIRNode.IndexSetDomain.sizeOf_spec, Option.some.sizeOf_spec]
      omega
    · cases hc
  | RangeDomain loc lower upper =>
    rcases i with _ | _ | _
    · have hc' : lower = some c := hc
      subst hc'
      simp only [HIRNode.RangeDomain.sizeOf_spec, Option.some.sizeOf_spec]
      omega
    · have hc' : upper = some c := hc
      subst hc'
      simp only [HIRNode.RangeDomain.sizeOf_spec, Option.some.sizeOf_spec]
      omega
    · cases hc
  | ForStmt loc loopVar domain body =>
    rcases i with _ | _ | _ | _
    · have hc' : loopVar = some c := hc
      subst hc'
      simp only [HIRNode.ForStmt.sizeOf_spec, Option.some.sizeOf_spec]
      omega
    · have hc' : domain = some c := hc
      subst hc'
      simp only [HIRNode.ForStmt.sizeOf_spec, Option.some.sizeOf_spec]
      omega
    · have hc' : body = some c := hc
      subst hc'
      simp only [HIRNode.ForStmt.sizeOf_spec, Option.some.sizeOf_spec]
      omega
    · cases hc
  | PrintStmt loc expr =>
    rcases i with _ | _
    · have hc' : expr = some c := hc
      subst hc'
      simp only [HIRNode.PrintStmt.sizeOf_spec, Option.some.sizeOf_spec]
      omega
    · cases hc
  | ExprStmt loc expr =>
    rcases i with _ | _
    · have hc' : expr = some c := hc
      subst hc'
      simp only [HIRNode.ExprStmt.sizeOf_spec, Option.some.sizeOf_spec]
      omega
    · cases hc
  | AssignStmt loc expr lhs =>
    rcases i with _ | _ | _
    · have hc' : expr = some c := hc
      subst hc'
      simp only [HIRNode.AssignStmt.sizeOf_spec, Option.some.sizeOf_spec]
      omega
    · have hlt := elemAt_sizeOf lhs j c hc
      simp only [HIRNode.AssignStmt.sizeOf_spec]
      omega
    · cases hc
  | Slice loc => cases hc
  | ExprParam loc expr =>
    rcases i with _ | _
    · have hc' : expr = some c := hc
      subst hc'
      simp only [HIRNode.ExprParam.sizeOf_spec, Option.some.sizeOf_spec]
      omega
    · cases hc
  | MapExpr loc type func partialActuals target op =>
    rcases i with _ | _ | _ | _
    · have hc' : func = some c := hc
      subst hc'
      simp only [HIRNode.MapExpr.sizeOf_spec, Option.some.sizeOf_spec]
      omega
    · have hlt := elemAt_sizeOf partialActuals j c hc
      simp only [HIRNode.MapExpr.sizeOf_spec]
      omega
    · have hc' : target = some c := hc
      subst hc'
      simp only [HIRNode.MapExpr.sizeOf_spec, Option.some.sizeOf_spec]
      omega
    · cases hc
  | OrExpr loc type lhs rhs =>
    rcases i with _ | _ | _
    · have hc' : lhs = some c := hc
      subst hc'
      simp only [HIRNode.OrExpr.sizeOf_spec, Option.some.sizeOf_spec]
      omega
    · have hc' : rhs = some c := hc
      subst hc'
      simp only [HIRNode.OrExpr.sizeOf_spec, Option.some.sizeOf_spec]
      omega
    · cases hc
  | AndExpr loc type lhs rhs =>
    rcases i with _ | _ | _
    · have hc' : lhs = some c := hc
      subst hc'
      simp only [HIRNode.AndExpr.sizeOf_spec, Option.some.sizeOf_spec]
      omega
    · have hc' : rhs = some c := hc
      subst hc'
      simp only [HIRNode.AndExpr.sizeOf_spec, Option.some.sizeOf_spec]
      omega
    · cases hc
  | XorExpr loc type lhs rhs =>
    rcases i with _ | _ | _
    · have hc' : lhs = some c := hc
      subst hc'
      simp only [HIRNode.XorExpr.sizeOf_spec, Option.some.sizeOf_spec]
      omega
    · have hc' : rhs = some c := hc
      subst hc'
      simp only [HIRNode.XorExpr.sizeOf_spec, Option.some.sizeOf_spec]
      omega
    · cases hc
  | EqExpr loc type operands ops =>
    rcases i with _ | _
    · have hlt := elemAt_sizeOf operands j c hc
      simp only [HIRNode.EqExpr.sizeOf_spec]
      omega
    · cases hc
  | NotExpr loc type operand =>
    rcases i with _ | _
    · have hc' : operand = some c := hc
      subst hc'
      simp only [HIRNode.NotExpr.sizeOf_spec, Option.some.sizeOf_spec]
      omega
    · cases hc
  | AddExpr loc type lhs rhs =>
    rcases i with _ | _ | _
    · have hc' : lhs = some c := hc
      subst hc'
      simp only [HIRNode.AddExpr.sizeOf_spec, Option.some.sizeOf_spec]
      omega
    · have hc' : rhs = some c := hc
      subst hc'
      simp only [HIRNode.AddExpr.sizeOf_spec, Option.some.sizeOf_spec]
      omega
    · cases hc
  | SubExpr loc type lhs rhs =>
    rcases i with _ | _ | _
    · have hc' : lhs = some c := hc
      subst hc'
      simp only [HIRNode.SubExpr.sizeOf_spec, Option.some.sizeOf_spec]
      omega
    · have hc' : rhs = some c := hc
      subst hc'
      simp only [HIRNode.SubExpr.sizeOf_spec, Option.some.sizeOf_spec]
      omega
    · cases hc
  | MulExpr loc type lhs rhs =>
    rcases i with _ | _ | _
    · have hc' : lhs = some c := hc
      subst hc'
      simp only [HIRNode.MulExpr.sizeOf_spec, Option.some.sizeOf_spec]
      omega
    · have hc' : rhs = some c := hc
      subst hc'
      simp only [HIRNode.MulExpr.sizeOf_spec, Option.some.sizeOf_spec]
      omega
    · cases hc
  | DivExpr loc type lhs rhs =>
    rcases i with _ | _ | _
    · have hc' : lhs = some c := hc
      subst hc'
      simp only [HIRNode.DivExpr.sizeOf_spec, Option.some.sizeOf_spec]
      omega
    · have hc' : rhs = some c := hc
      subst hc'
      simp only [HIRNode.DivExpr.sizeOf_spec, Option.some.sizeOf_spec]
      omega
    · cases hc
  | ElwiseMulExpr loc type lhs rhs =>
    rcases i with _ | _ | _
    · have hc' : lhs = some c := hc
      subst hc'
      simp only [HIRNode.ElwiseMulExpr.sizeOf_spec, Option.some.sizeOf_spec]
      omega
    · have hc' : rhs = some c := hc
      subst hc'
      simp only [HIRNode.ElwiseMulExpr.sizeOf_spec, Option.some.sizeOf_spec]
      omega
    · cases hc
  | ElwiseDivExpr loc type lhs rhs =>
    rcases i with _ | _ | _
    · have hc' : lhs = some c := hc
      subst hc'
      simp only [HIRNode.ElwiseDivExpr.sizeOf_spec, Option.some.sizeOf_spec]
      omega
    · have hc' : rhs = some c := hc
      subst hc'
      simp only [HIRNode.ElwiseDivExpr.sizeOf_spec, Option.some.sizeOf_spec]
      omega
    · cases hc
  | NegExpr loc type operand negate =>
    rcases i with _ | _
    · have hc' : operand = some c := hc
      subst hc'
      simp only [HIRNode.NegExpr.sizeOf_spec, Option.some.sizeOf_spec]
      omega
    · cases hc
  | ExpExpr loc type lhs rhs =>
    rcases i with _ | _ | _
    · have hc' : lhs = some c := hc
      subst hc'
      simp only [HIRNode.ExpExpr.sizeOf_spec, Option.some.sizeOf_spec]
      omega
    · have hc' : rhs = some c := hc
      subst hc'
      simp only [HIRNode.ExpExpr.sizeOf_spec, Option.some.sizeOf_spec]
      omega
    · cases hc
  | TransposeExpr loc type operand =>
    rcases i with _ | _
    · have hc' : operand = some c := hc
      subst hc'
      simp only [HIRNode.TransposeExpr.sizeOf_spec, Option.some.sizeOf_spec]
      omega
    · cases hc
  | CallExpr loc type operands func =>
    rcases i with _ | _ | _
    · have hlt := elemAt_sizeOf operands j c hc
      simp only [HIRNode.CallExpr.sizeOf_spec]
      omega
    · have hc' : func = some c := hc
      subst hc'
      simp only [HIRNode.CallExpr.sizeOf_spec, Option.some.sizeOf_spec]
      omega
    · cases hc
  | TensorReadExpr loc type tensor indices =>
    rcases i with _ | _ | _
    · have hc' : tensor = some c := hc
      subst hc'
      simp only [HIRNode.TensorReadExpr.sizeOf_spec, Option.some.sizeOf_spec]
      omega
    · have hlt := elemAt_sizeOf indices j c hc
      simp only [HIRNode.TensorReadExpr.sizeOf_spec]
      omega
    · cases hc
  | TupleReadExpr loc type tuple index =>
    rcases i with _ | _ | _
    · have hc' : tuple = some c := hc
      subst hc'
      simp only [HIRNode.TupleReadExpr.sizeOf_spec, Option.some.sizeOf_spec]
      omega
    · have hc' : index = some c := hc
      subst hc'
      simp only [HIRNode.TupleReadExpr.sizeOf_spec, Option.some.sizeOf_spec]
      omega
    · cases hc
  | FieldReadExpr loc type setOrElem field =>
    rcases i with _ | _ | _
    · have hc' : setOrElem = some c := hc
      subst hc'
      simp only [HIRNode.FieldReadExpr.sizeOf_spec, Option.some.sizeOf_spec]
      omega
    · have hc' : field = some c := hc
      subst hc'
      simp only [HIRNode.FieldReadExpr.sizeOf_spec, Option.some.sizeOf_spec]
      omega
    · cases hc
  | ParenExpr loc type expr =>
    rcases i with _ | _
    · have hc' : expr = some c := hc
      subst hc'
      simp only [HIRNode.ParenExpr.sizeOf_spec, Option.some.sizeOf_spec]
      omega
    · cases hc
  | VarExpr loc type ident => cases hc
  | IntLiteral loc type val => cases hc
  | FloatLiteral loc type val => cases hc
  | BoolLiteral loc type val => cases hc
  | DenseIntVector loc vals => cases hc
  | DenseFloatVector loc vals => cases hc
  | DenseNDTensor loc elems =>
    rcases i with _ | _
    · have hlt := elemAt_sizeOf elems j c hc
      simp only [HIRNode.DenseNDTensor.sizeOf_spec]
      omega
    · cases hc
  | DenseTensorLiteral loc type tensor transposed =>
    rcases i with _ | _
    · have hc' : tensor = some c := hc
      subst hc'
      simp only [HIRNode.DenseTensorLiteral.sizeOf_spec, Option.some.sizeOf_spec]
      omega
    · cases hc
  | Test loc func args expected =>
    rcases i with _ | _ | _ | _
    · have hc' : func = some c := hc
      subst hc'
      simp only [HIRNode.Test.sizeOf_spec, Option.some.sizeOf_spec]
      omega
    · have hlt := elemAt_sizeOf args j c hc
      simp only [HIRNode.Test.sizeOf_spec]
      omega
    · have hc' : expected = some c := hc
      subst hc'
      simp only [HIRNode.Test.sizeOf_spec, Option.some.sizeOf_spec]
      omega
    · cases hc

theorem wellFormed_nodeAt (q : Path) :
    ∀ (root m : HIRNode), wellFormed root = true → nodeAt q root = some m →
      wellFormed m = true := by
  induction q with
  | nil =>
    intro root m h hm
    have hm' : some root = some m := hm
    cases hm'
    exact h
  | cons step rest ih =>
    intro root m h hm
    obtain ⟨i, j⟩ := step
    have hm' : (match childAt i j root with
      | none => none
      | some c => nodeAt rest c) = some m := hm
    cases hc : childAt i j root with
    | none =>
      rw [hc] at hm'
      cases hm'
    | some c =>
      rw [hc] at hm'
      exact ih c m (wellFormed_childAt root h i j c hc) hm'

/-- C21. On every well-formed tree `root` (at every node the children its span accessors
delegate to are present, an `AssignStmt` has a non-empty `lhs`, an `EqExpr` a non-empty operand
list, an `IfStmt` an else body or a non-zero stored end line, a `MapExpr` with `op = NONE` a
target), each of the four span accessors of the node `m` at any position `q` returns a value:
no null pointer is dereferenced and no `front()` or `back()` of an empty vector is taken. The
accessors, total functions defined by recursion on the children, only ever recurse into strictly
smaller trees, which are well formed again. -/
theorem span_accessors_total (root : HIRNode) (h : wellFormed root = true) (q : Path)
    (m : HIRNode) (hm : nodeAt q root = some m) :
    ((∃ v, getLineBegin m = .ok v) ∧ (∃ v, getColBegin m = .ok v) ∧
      (∃ v, getLineEnd m = .ok v) ∧ (∃ v, getColEnd m = .ok v)) ∧
    (∀ (i j : Nat) (c : HIRNode), childAt i j m = some c →
      sizeOf c < sizeOf m ∧ wellFormed c = true) := by
  have hwf := wellFormed_nodeAt q root m h hm
  refine ⟨spanDefined_of_wellFormed m hwf, ?_⟩
  intro i j c hc
  exact ⟨childAt_sizeOf m i j c hc, wellFormed_childAt m hwf i j c hc⟩

/-- C21 on a small program: the tree is well formed, and the `if` statement inside the function
body, which has no else body but the end (7,3) stored, returns a value from all four accessors.
The same `if` with nothing stored is not well formed, and its end accessor fails. -/
theorem span_accessors_total_witness :
    wellFormed programTree = true ∧
    nodeAt ifPath programTree = some ifEndNode ∧
    ((∃ v, getLineBegin ifEndNode = .ok v) ∧ (∃ v, getColBegin ifEndNode = .ok v) ∧
      (∃ v, getLineEnd ifEndNode = .ok v) ∧ (∃ v, getColEnd ifEndNode = .ok v)) ∧
    ((∃ v, getLineBegin programTree = .ok v) ∧ (∃ v, getColBegin programTree = .ok v) ∧
      (∃ v, getLineEnd programTree = .ok v) ∧ (∃ v, getColEnd programTree = .ok v)) ∧
    wellFormed ifBareNode = false ∧
    getLineEnd ifBareNode = .error .nullDeref :=
  ⟨rfl, rfl, (span_accessors_total programTree rfl ifPath ifEndNode rfl).1,
    (span_accessors_total programTree rfl [] programTree rfl).1, rfl, rfl⟩

end simit.hir
